import Mathlib

/-!
# Forest scene: simulation core

A shallow embedding of the simulation core of the forest-scene program
(`src/render.cpp`, `src/main.cpp`, `src/data.h`, `src/render.h`).

Conventions of the embedding:

* a C++ `float` is an exact rational number (`ℚ`): the theorems below are
  statements about the arithmetic the code writes down, not about rounding;
* `glm::vec3` is the record `Vec3`;
* the global structs `gameState` and `gameObjects` form the record `World`,
  passed explicitly; each `void` function of the source that mutates the
  globals becomes a function returning the new `World`;
* `std::list<void*>` collections are Lean lists (front of the list first).
-/

namespace Forest

/-! ## Constants of `data.h` -/

def SCENE_WIDTH : ℚ := 1
def SCENE_HEIGHT : ℚ := 1
def SCENE_DEPTH : ℚ := 1

def PENGUIN_VIEW_ANGLE_DELTA : ℚ := 5 / 2
def PENGUIN_SPEED_INCREMENT : ℚ := 1 / 10
def PENGUIN_LENGTH_INCREMENT : ℚ := 1 / 20
def PENGUIN_SPEED_MAX : ℚ := 2 / 5
def PENGUIN_HEIGHT_MIN : ℚ := 0

def MISSILE_MAX_DISTANCE : ℚ := 3 / 2
def MISSILE_LAUNCH_TIME_DELAY : ℚ := 1 / 4

def PENGUIN_SIZE : ℚ := 1 / 10
def SPARROW_SIZE : ℚ := 1 / 5
def CAT_SIZE : ℚ := 1 / 5
def TERRAIN_SIZE : ℚ := 1
def ROCK_SIZE : ℚ := 1 / 5
def TARGET_SIZE : ℚ := 1 / 10
def FERN_SIZE : ℚ := 1 / 4
def CAMPFIRE_SIZE : ℚ := 3 / 20
def BLOCK_SIZE : ℚ := 28 / 25
def PALM_TREE_SIZE : ℚ := 3 / 10
def MISSILE_SIZE : ℚ := 17 / 2000
def BILLBOARD_SIZE : ℚ := 1 / 10
def BANNER_SIZE : ℚ := 1
def MISSILE_SPEED : ℚ := 3 / 2
def TARGET_COUNT_MIN : ℕ := 2
def CAMERA_ELEVATION_MAX : ℚ := 45

/-! ## Vectors -/

/-- The type `glm::vec3`. -/
structure Vec3 where
  x : ℚ
  y : ℚ
  z : ℚ
  deriving DecidableEq, Repr

/-! ## `fmod` and `checkBounds` (`render.cpp`) -/

/-- Rounding toward zero of a rational number. -/
def truncToZero (q : ℚ) : ℤ :=
  if 0 ≤ q then ⌊q⌋ else -⌊-q⌋

/-- The C library function `fmod`: `x - n * y` where `n` is `x / y` with its
fractional part discarded (the result has the sign of `x`). The C function
has no numeric value for `y = 0`; every statement below takes `y > 0`. -/
def fmod (x y : ℚ) : ℚ :=
  x - (truncToZero (x / y) : ℚ) * y

/-- The function `checkBounds` of `render.cpp`. -/
def checkBounds (position : Vec3) (objectSize : ℚ) : Vec3 :=
  let halfSceneWidth := SCENE_WIDTH + objectSize
  let halfSceneHeight := SCENE_HEIGHT + objectSize
  let x1 := fmod (position.x + halfSceneWidth) (2 * halfSceneWidth) - halfSceneWidth
  let x2 := if x1 < -halfSceneWidth then x1 + 2 * halfSceneWidth else x1
  let y1 := fmod (position.y + halfSceneHeight) (2 * halfSceneHeight) - halfSceneHeight
  let y2 := if y1 < -halfSceneHeight then y1 + 2 * halfSceneHeight else y1
  { x := x2, y := y2, z := position.z }

/-! ## Vector operations of `glm` used by the simulation -/

instance : Add Vec3 := ⟨fun a b => ⟨a.x + b.x, a.y + b.y, a.z + b.z⟩⟩
instance : Sub Vec3 := ⟨fun a b => ⟨a.x - b.x, a.y - b.y, a.z - b.z⟩⟩
instance : HMul ℚ Vec3 Vec3 := ⟨fun k a => ⟨k * a.x, k * a.y, k * a.z⟩⟩
instance : HMul Vec3 ℚ Vec3 := ⟨fun a k => ⟨a.x * k, a.y * k, a.z * k⟩⟩

/-- The function `glm::dot`. -/
def dot (a b : Vec3) : ℚ := a.x * b.x + a.y * b.y + a.z * b.z

/-- The square of `glm::distance (p0, p1)`, which is `length (p1 - p0)`,
the square root of `dot (p1 - p0, p1 - p0)`. -/
def distanceSq (p0 p1 : Vec3) : ℚ := dot (p1 - p0) (p1 - p0)

/-- The comparison `sqrt a < r`, decided without extracting the root: for
`a ≥ 0` it holds exactly when `r` is positive and `a < r * r`. -/
def sqrtLt (a r : ℚ) : Bool := decide (0 < r ∧ a < r * r)

/-- The comparison `sqrt a <= r`, decided without extracting the root. -/
def sqrtLe (a r : ℚ) : Bool := decide (0 ≤ r ∧ a ≤ r * r)

/-! ## Objects of the scene (`render.h`) -/

/-- The struct `Object`. -/
structure Object where
  position : Vec3
  direction : Vec3
  speed : ℚ
  size : ℚ
  destroyed : Bool
  startTime : ℚ
  currentTime : ℚ
  deriving DecidableEq, Repr

/-- The struct `PenguinObject`: the avatar. -/
structure PenguinObject extends Object where
  viewAngle : ℚ
  deriving DecidableEq, Repr

/-- The struct `SparrowObject`: the orbiting flyer. -/
structure SparrowObject extends Object where
  rotationSpeed : ℚ
  currentAngle : ℚ
  deriving DecidableEq, Repr

/-- The struct `TargetObject`. -/
structure TargetObject extends Object where
  initPosition : Vec3
  rotationSpeed : ℚ
  deriving DecidableEq, Repr

/-- The struct `ExplosionObject`: a transient effect. -/
structure ExplosionObject extends Object where
  textureFrames : ℤ
  frameDuration : ℚ
  deriving DecidableEq, Repr

abbrev TerrainObject := Object
abbrev CatObject := Object
abbrev RockObject := Object
abbrev FernObject := Object
abbrev StoneObject := Object
abbrev PalmTreeObject := Object
abbrev CampfireObject := Object
abbrev BlockObject := Object
abbrev MissileObject := Object
abbrev BannerObject := Object

/-! ## Global state (`main.cpp`) -/

/-- Number of entries of the key map (`KEYS_COUNT`). -/
def KEYS_COUNT : ℕ := 16

/-! The keys of the key map (the anonymous `enum` of `data.h`). -/

def KEY_LEFT_ARROW : Fin KEYS_COUNT := ⟨0, by decide⟩
def KEY_RIGHT_ARROW : Fin KEYS_COUNT := ⟨1, by decide⟩
def KEY_UP_ARROW : Fin KEYS_COUNT := ⟨2, by decide⟩
def KEY_DOWN_ARROW : Fin KEYS_COUNT := ⟨3, by decide⟩
def KEY_SPACE : Fin KEYS_COUNT := ⟨4, by decide⟩
def KEY_UP_HEIGHT : Fin KEYS_COUNT := ⟨5, by decide⟩
def KEY_DOWN_HEIGHT : Fin KEYS_COUNT := ⟨6, by decide⟩
def KEY_EXPLODE1 : Fin KEYS_COUNT := ⟨7, by decide⟩
def KEY_W : Fin KEYS_COUNT := ⟨8, by decide⟩
def KEY_A : Fin KEYS_COUNT := ⟨9, by decide⟩
def KEY_S : Fin KEYS_COUNT := ⟨10, by decide⟩
def KEY_D : Fin KEYS_COUNT := ⟨11, by decide⟩
def KEY_Q : Fin KEYS_COUNT := ⟨12, by decide⟩
def KEY_E : Fin KEYS_COUNT := ⟨13, by decide⟩
def KEY_P : Fin KEYS_COUNT := ⟨14, by decide⟩
def KEY_O : Fin KEYS_COUNT := ⟨15, by decide⟩

/-- The struct `GameState`, with the process-wide toggles of `main.cpp` and
the registration state of the passive-motion handler
(`glutPassiveMotionFunc`). -/
structure GameState where
  windowWidth : ℤ
  windowHeight : ℤ
  cameraState : ℤ
  cameraElevationAngle : ℚ
  gameOver : Bool
  keyMap : Fin KEYS_COUNT → Bool
  elapsedTime : ℚ
  missileLaunchTime : ℚ
  ufoMissileLaunchTime : ℚ
  pointEnable : ℤ
  fogLinearToggleInput : Bool
  fogExpToggleInput : Bool
  fogNearValue : ℚ
  fogDensityValue : ℚ
  passiveMotionBound : Bool

/-- The struct `GameObjects`. The fixed-roster pointers are objects that are
always present; `bannerObject` is `none` for the null pointer. -/
structure GameObjects where
  terrain : TerrainObject
  penguin : PenguinObject
  sparrow : SparrowObject
  cat : CatObject
  rock : RockObject
  stone : StoneObject
  fern1 : FernObject
  fern2 : FernObject
  fern3 : FernObject
  fern4 : FernObject
  palmTree1 : PalmTreeObject
  palmTree2 : PalmTreeObject
  palmTree3 : PalmTreeObject
  palmTree4 : PalmTreeObject
  campfire : CampfireObject
  block : BlockObject
  targets : List TargetObject
  missiles : List MissileObject
  explosions : List ExplosionObject
  bannerObject : Option BannerObject

/-- The two globals `gameState` and `gameObjects`. -/
structure World where
  gameState : GameState
  gameObjects : GameObjects

/-! ## Collision helpers (`main.cpp`) -/

/-- The function `pointInSphere`. -/
def pointInSphere (point center : Vec3) (radius : ℚ) : Bool :=
  if sqrtLe (distanceSq point center) radius then true else false

/-- The function `spheresIntersection`. -/
def spheresIntersection (center1 : Vec3) (radius1 : ℚ) (center2 : Vec3) (radius2 : ℚ) : Bool :=
  if sqrtLt (distanceSq center1 center2) (radius1 + radius2) then true else false

/-! ## Explosions (`main.cpp`) -/

/-- The function `insertExplosion`: a new explosion is pushed at the back of
`gameObjects.explosions`. -/
def insertExplosion (w : World) (position : Vec3) : World :=
  let newExplosion : ExplosionObject :=
    { speed := 0
      destroyed := false
      startTime := w.gameState.elapsedTime
      currentTime := w.gameState.elapsedTime
      size := BILLBOARD_SIZE
      direction := ⟨0, 0, 1⟩
      frameDuration := 1 / 10
      textureFrames := 16
      position := position }
  { w with gameObjects :=
      { w.gameObjects with explosions := w.gameObjects.explosions ++ [newExplosion] } }

/-! ## Avatar movement (`main.cpp`) -/

/-- The function `checkTreeCollisions`. The source returns `true` from inside
each of the four palm-tree tests and has no `return` statement after them:
`none` is the case where control reaches the closing brace of the function
without a value being returned. -/
def checkTreeCollisions (w : World) (tempPos : Vec3) : Option Bool :=
  let go := w.gameObjects
  if go.palmTree1.destroyed = false ∧
      spheresIntersection tempPos go.penguin.size go.palmTree1.position go.palmTree1.size = true then
    some true
  else if go.palmTree2.destroyed = false ∧
      spheresIntersection tempPos go.penguin.size go.palmTree2.position go.palmTree2.size = true then
    some true
  else if go.palmTree3.destroyed = false ∧
      spheresIntersection tempPos go.penguin.size go.palmTree3.position go.palmTree3.size = true then
    some true
  else if go.palmTree4.destroyed = false ∧
      spheresIntersection tempPos go.penguin.size go.palmTree4.position go.palmTree4.size = true then
    some true
  else
    none

/-- The world with the avatar placed at `pos`. -/
def setPenguinPosition (w : World) (pos : Vec3) : World :=
  { w with gameObjects :=
      { w.gameObjects with penguin := { w.gameObjects.penguin with position := pos } } }

/-- The guarded assignment shared by `moveBirdForward` and `moveBirdBackward`:
`if (!penguin->destroyed && !checkTreeCollisions(tempPos)) penguin->position = tempPos;`.
The `&&` does not call `checkTreeCollisions` for a destroyed avatar; when the
call is made and returns no value the outcome is undefined (`none`). -/
def commitMove (w : World) (tempPos : Vec3) : Option World :=
  if w.gameObjects.penguin.destroyed then some w
  else
    match checkTreeCollisions w tempPos with
    | some true => some w
    | some false => some (setPenguinPosition w tempPos)
    | none => none

/-- The function `moveBirdForward`. -/
def moveBirdForward (w : World) (deltaLength : ℚ) : Option World :=
  let tempPos := w.gameObjects.penguin.position + deltaLength * w.gameObjects.penguin.direction
  commitMove w tempPos

/-- The function `moveBirdBackward`. -/
def moveBirdBackward (w : World) (deltaLength : ℚ) : Option World :=
  let tempPos := w.gameObjects.penguin.position - deltaLength * w.gameObjects.penguin.direction
  commitMove w tempPos

/-- The library functions `cos` and `sin` composed with `glm::radians`, and
`glm::normalize`: their values are not rational, so they are parameters of
the embedding. -/
structure Trig where
  cosDeg : ℚ → ℚ
  sinDeg : ℚ → ℚ
  normalize : Vec3 → Vec3

/-- The avatar after its heading was set to `angle`: `direction.x` and
`direction.y` are recomputed, `direction.z` is kept. -/
def setHeading (m : Trig) (w : World) (angle : ℚ) : World :=
  let p := w.gameObjects.penguin
  { w with gameObjects :=
      { w.gameObjects with penguin :=
          { p with
            viewAngle := angle
            direction := ⟨m.cosDeg angle, m.sinDeg angle, p.direction.z⟩ } } }

/-- The function `turnBirdLeft`. -/
def turnBirdLeft (m : Trig) (w : World) (deltaAngle : ℚ) : World :=
  let a1 := w.gameObjects.penguin.viewAngle + deltaAngle
  let a2 := if a1 > 360 then a1 - 360 else a1
  setHeading m w a2

/-- The function `turnBirdRight`. -/
def turnBirdRight (m : Trig) (w : World) (deltaAngle : ℚ) : World :=
  let a1 := w.gameObjects.penguin.viewAngle - deltaAngle
  let a2 := if a1 < 0 then a1 + 360 else a1
  setHeading m w a2

/-! ## Collision resolution (`main.cpp`) -/

/-- The function `checkCollisions`. -/
def checkCollisions (w : World) : World :=
  let go := w.gameObjects
  if go.campfire.destroyed = false ∧
      spheresIntersection go.penguin.position go.penguin.size go.campfire.position go.campfire.size = true then
    let w1 : World :=
      { w with gameObjects := { go with penguin := { go.penguin with destroyed := true } } }
    let w2 := insertExplosion w1 w1.gameObjects.campfire.position
    { w2 with gameState := { w2.gameState with gameOver := true } }
  else
    w

/-! ## Configuration and restart (`main.cpp`) -/

/-- The interface of the external `INIReader` that `readConfig` uses. -/
structure INIReader where
  parseError : ℤ
  getReal : String → String → ℚ → ℚ

/-- The type `std::unordered_map<std::string, float>` as read through
`operator[]`: a key that is absent reads as `0`. -/
abbrev ConfigValues := String → ℚ

/-- The function `readConfig`: the empty map when the file cannot be parsed. -/
def readConfig (reader : INIReader) : ConfigValues :=
  if reader.parseError < 0 then fun _ => 0
  else fun key =>
    if key = "Cat.position_x" then reader.getReal "Cat" "position_x" (3 / 20)
    else if key = "Cat.position_y" then reader.getReal "Cat" "position_y" (13 / 20)
    else if key = "Cat.position_z" then reader.getReal "Cat" "position_z" (3 / 25)
    else if key = "Cat.size" then reader.getReal "Cat" "size" CAT_SIZE
    else if key = "Fern.size" then reader.getReal "Fern" "size" FERN_SIZE
    else if key = "Campfire.size" then reader.getReal "Campfire" "size" CAMPFIRE_SIZE
    else 0

/-- The function `cleanUpObjects`. -/
def cleanUpObjects (w : World) : World :=
  { w with gameObjects := { w.gameObjects with explosions := [], bannerObject := none } }

/-- The function `checkValiditySize`. -/
def checkValiditySize (size : ℚ) : Bool :=
  decide (size > 1 / 10 ∧ size < 2)

/-- The function `checkValidityPosition`. -/
def checkValidityPosition (position : Vec3) : Bool :=
  decide (position.x ≥ -1 ∧ position.x ≤ 1 ∧
          position.y ≥ -1 ∧ position.y ≤ 1 ∧
          position.z ≥ -1 ∧ position.z ≤ 1)

/-- The function `createTarget`; the fields the source leaves unassigned
(`direction`, `speed`, `rotationSpeed`) are taken as zero. -/
def createTarget (w : World) : TargetObject :=
  { destroyed := false
    startTime := w.gameState.elapsedTime
    currentTime := w.gameState.elapsedTime
    size := TARGET_SIZE
    initPosition := ⟨-1 / 10, 7 / 10, 3 / 25⟩
    position := ⟨-1 / 10, 7 / 10, 3 / 25⟩
    direction := ⟨0, 0, 0⟩
    speed := 0
    rotationSpeed := 0 }

/-- The function `restartGame`. `reader` is the state of `config.ini` and
`elapsedMs` the value of `glutGet(GLUT_ELAPSED_TIME)` at the call. A field
that the source does not assign keeps the value it has in `w`. -/
def restartGame (m : Trig) (reader : INIReader) (elapsedMs : ℤ) (w : World) : World :=
  let w0 := cleanUpObjects w
  let configValues := readConfig reader
  let elapsedTime : ℚ := (1 / 1000) * (elapsedMs : ℚ)
  let go := w0.gameObjects
  let tempCatPos : Vec3 :=
    ⟨configValues "Cat.position_x", configValues "Cat.position_y", configValues "Cat.position_z"⟩
  let catOk := checkValiditySize (configValues "Cat.size") && checkValidityPosition tempCatPos
  let fernSize :=
    if checkValiditySize (configValues "Fern.size") then configValues "Fern.size" else FERN_SIZE
  let targets0 := go.targets
  let gs1 : GameState :=
    { w0.gameState with
      fogLinearToggleInput := false
      fogExpToggleInput := false
      fogNearValue := -1 / 2
      fogDensityValue := 1 / 10
      elapsedTime := elapsedTime }
  let w1 : World := { w0 with gameState := gs1 }
  let go1 : GameObjects :=
    { go with
      terrain := { go.terrain with position := ⟨0, 0, 0⟩, size := TERRAIN_SIZE }
      penguin :=
        { go.penguin with
          position := ⟨0, 0, 2 / 25⟩
          viewAngle := 100
          direction := ⟨m.cosDeg 100, m.sinDeg 100, 0⟩
          speed := 0
          size := PENGUIN_SIZE
          destroyed := false
          startTime := elapsedTime
          currentTime := elapsedTime }
      sparrow :=
        { go.sparrow with position := ⟨0, 0, 1 / 10⟩, currentAngle := 0, size := SPARROW_SIZE }
      cat :=
        if catOk then { go.cat with size := configValues "Cat.size", position := tempCatPos }
        else { go.cat with size := CAT_SIZE, position := ⟨3 / 20, 13 / 20, 3 / 25⟩ }
      rock := { go.rock with position := ⟨1 / 2, 0, 1 / 10⟩, size := ROCK_SIZE }
      stone :=
        { go.stone with
          position := ⟨-9 / 20, 3 / 5, 3 / 20⟩
          direction := ⟨-1 / 10, 7 / 10, 3 / 25⟩
          size := ROCK_SIZE }
      palmTree1 :=
        { go.palmTree1 with
          position := ⟨9 / 20, 3 / 10, 13 / 50⟩, size := PALM_TREE_SIZE, destroyed := false }
      palmTree2 :=
        { go.palmTree2 with
          position := ⟨9 / 20, 13 / 20, 13 / 50⟩, size := PALM_TREE_SIZE, destroyed := false }
      palmTree3 :=
        { go.palmTree3 with
          position := ⟨-13 / 20, 3 / 10, 13 / 50⟩, size := PALM_TREE_SIZE, destroyed := false }
      palmTree4 :=
        { go.palmTree4 with
          position := ⟨-13 / 20, 13 / 20, 13 / 50⟩, size := PALM_TREE_SIZE, destroyed := false }
      fern1 := { go.fern1 with position := ⟨7 / 20, 0, -1 / 20000⟩, size := fernSize }
      fern2 := { go.fern2 with position := ⟨7 / 20, -3 / 10, -1 / 20000⟩, size := fernSize }
      fern3 := { go.fern3 with position := ⟨-7 / 20, 0, -1 / 20000⟩, size := FERN_SIZE }
      fern4 := { go.fern4 with position := ⟨-7 / 20, -3 / 10, -1 / 20000⟩, size := FERN_SIZE }
      campfire :=
        { go.campfire with
          position := ⟨0, -1 / 2, 1 / 20⟩
          size := configValues "Campfire.size"
          destroyed := false }
      block :=
        { go.block with
          position := ⟨69 / 100, -9 / 20, 1 / 20⟩
          size := BLOCK_SIZE
          direction := ⟨0, 1, 0⟩ }
      targets := targets0 ++ List.replicate TARGET_COUNT_MIN (createTarget w1) }
  let wasFirstPerson := decide (gs1.cameraState = 1)
  let gs2 : GameState :=
    { gs1 with
      cameraState := if wasFirstPerson then 0 else gs1.cameraState
      passiveMotionBound := if wasFirstPerson then false else gs1.passiveMotionBound
      cameraElevationAngle := 0
      keyMap := fun _ => false
      gameOver := false }
  { gameState := gs2, gameObjects := go1 }

/-- The globals before the first call of `restartGame`: the statically
zero-initialised `gameState`, and objects whose fields are all zero. -/
def zeroObject : Object :=
  { position := ⟨0, 0, 0⟩, direction := ⟨0, 0, 0⟩, speed := 0, size := 0, destroyed := false,
    startTime := 0, currentTime := 0 }

/-- The world at program start, before `initializeApplication` calls
`restartGame`. -/
def startWorld : World :=
  { gameState :=
      { windowWidth := 0, windowHeight := 0, cameraState := 0, cameraElevationAngle := 0,
        gameOver := false, keyMap := fun _ => false, elapsedTime := 0, missileLaunchTime := 0,
        ufoMissileLaunchTime := 0, pointEnable := 0, fogLinearToggleInput := false,
        fogExpToggleInput := false, fogNearValue := -1 / 2, fogDensityValue := 5,
        passiveMotionBound := false }
    gameObjects :=
      { terrain := zeroObject
        penguin := { zeroObject with viewAngle := 0 }
        sparrow := { zeroObject with rotationSpeed := 0, currentAngle := 0 }
        cat := zeroObject, rock := zeroObject, stone := zeroObject
        fern1 := zeroObject, fern2 := zeroObject, fern3 := zeroObject, fern4 := zeroObject
        palmTree1 := zeroObject, palmTree2 := zeroObject, palmTree3 := zeroObject
        palmTree4 := zeroObject, campfire := zeroObject, block := zeroObject
        targets := [], missiles := [], explosions := [], bannerObject := none } }

/-! ## Avatar speed and height (`main.cpp`) -/

/-- The avatar of `w` replaced by `p`. -/
def setPenguin (w : World) (p : PenguinObject) : World :=
  { w with gameObjects := { w.gameObjects with penguin := p } }

/-- The function `increaseBirdSpeed`. -/
def increaseBirdSpeed (w : World) (deltaSpeed : ℚ) : World :=
  setPenguin w
    { w.gameObjects.penguin with
      speed := min (w.gameObjects.penguin.speed + deltaSpeed) PENGUIN_SPEED_MAX }

/-- The function `decreaseBirdSpeed`. -/
def decreaseBirdSpeed (w : World) (deltaSpeed : ℚ) : World :=
  setPenguin w
    { w.gameObjects.penguin with speed := max (w.gameObjects.penguin.speed - deltaSpeed) 0 }

/-- The function `increaseBirdHeight`. -/
def increaseBirdHeight (w : World) (deltaLength : ℚ) : World :=
  let p := w.gameObjects.penguin
  setPenguin w { p with position := { p.position with z := p.position.z + deltaLength } }

/-- The function `decreaseBirdHeight`. -/
def decreaseBirdHeight (w : World) (deltaLength : ℚ) : World :=
  let p := w.gameObjects.penguin
  setPenguin w
    { p with position := { p.position with z := max (p.position.z - deltaLength) PENGUIN_HEIGHT_MIN } }

/-! ## Missiles and banner (`main.cpp`) -/

/-- The function `createMissile`, called with `gameState.missileLaunchTime` as
its third argument; `currentMs` is the value of `glutGet(GLUT_ELAPSED_TIME)`
at the call. -/
def createMissile (m : Trig) (currentMs : ℤ) (w : World)
    (missilePosition missileDirection : Vec3) : World :=
  let currentTime : ℚ := (1 / 1000) * (currentMs : ℚ)
  if currentTime - w.gameState.missileLaunchTime < MISSILE_LAUNCH_TIME_DELAY then w
  else
    let newMissile : MissileObject :=
      { destroyed := false
        startTime := w.gameState.elapsedTime
        currentTime := w.gameState.elapsedTime
        size := MISSILE_SIZE
        speed := MISSILE_SPEED
        position := missilePosition
        direction := m.normalize missileDirection }
    { gameState := { w.gameState with missileLaunchTime := currentTime }
      gameObjects := { w.gameObjects with missiles := w.gameObjects.missiles ++ [newMissile] } }

/-- The function `createBanner`. -/
def createBanner (w : World) : BannerObject :=
  { size := 1
    position := ⟨0, 0, 0⟩
    direction := ⟨0, 1, 0⟩
    speed := 0
    destroyed := false
    startTime := w.gameState.elapsedTime
    currentTime := w.gameState.elapsedTime }

/-! ## The update of the objects (`main.cpp`) -/

/-- The body of the missile loop of `updateObjects`, up to the test of the
`destroyed` flag: the missile is advanced, wrapped, and marked destroyed when
it has travelled more than `MISSILE_MAX_DISTANCE`. -/
def updateMissile (elapsedTime : ℚ) (missile : MissileObject) : MissileObject :=
  let timeDelta := elapsedTime - missile.currentTime
  let position1 := missile.position + (timeDelta * missile.speed) * missile.direction
  let position2 := checkBounds position1 missile.size
  { missile with
    currentTime := elapsedTime
    position := position2
    destroyed :=
      if (elapsedTime - missile.startTime) * missile.speed > MISSILE_MAX_DISTANCE then true
      else missile.destroyed }

/-- The missile loop of `updateObjects`: each missile is updated and, when it
is destroyed, erased from the list in the same iteration. -/
def updateMissiles (elapsedTime : ℚ) : List MissileObject → List MissileObject
  | [] => []
  | missile :: rest =>
    let missile1 := updateMissile elapsedTime missile
    if missile1.destroyed = true then updateMissiles elapsedTime rest
    else missile1 :: updateMissiles elapsedTime rest

/-- The body of the explosion loop of `updateObjects`, up to the test of the
`destroyed` flag. -/
def updateExplosion (elapsedTime : ℚ) (explosion : ExplosionObject) : ExplosionObject :=
  { explosion with
    currentTime := elapsedTime
    destroyed :=
      if elapsedTime > explosion.startTime + (explosion.textureFrames : ℚ) * explosion.frameDuration
      then true
      else explosion.destroyed }

/-- The explosion loop of `updateObjects`. -/
def updateExplosions (elapsedTime : ℚ) : List ExplosionObject → List ExplosionObject
  | [] => []
  | explosion :: rest =>
    let explosion1 := updateExplosion elapsedTime explosion
    if explosion1.destroyed = true then updateExplosions elapsedTime rest
    else explosion1 :: updateExplosions elapsedTime rest

/-- The function `updateObjects`. -/
def updateObjects (elapsedTime : ℚ) (w : World) : World :=
  let p := w.gameObjects.penguin
  let p1 : PenguinObject :=
    { p with currentTime := elapsedTime, position := checkBounds p.position p.size }
  { w with gameObjects :=
      { w.gameObjects with
        penguin := p1
        missiles := updateMissiles elapsedTime w.gameObjects.missiles
        explosions := updateExplosions elapsedTime w.gameObjects.explosions } }

/-! ## The timer callback (`main.cpp`) -/

/-- The key map with the entry of `key` set to `pressed`. -/
def setKey (w : World) (key : Fin KEYS_COUNT) (pressed : Bool) : World :=
  { w with gameState :=
      { w.gameState with keyMap := Function.update w.gameState.keyMap key pressed } }

/-- The statement `if (gameState.keyMap[key] == true) action();` of
`timerCallback`. -/
def whenKey (key : Fin KEYS_COUNT) (action : World → World) (w : World) : World :=
  if w.gameState.keyMap key = true then action w else w

/-- The statement `if (gameState.keyMap[key] == true) action();` for an action
that may have no outcome. -/
def whenKeyOpt (key : Fin KEYS_COUNT) (action : World → Option World) (w : World) :
    Option World :=
  if w.gameState.keyMap key = true then action w else some w

/-- The part of `timerCallback` that runs the actions of the pressed keys, in
the order of the source: `D`, `A`, `W`, `S`, up arrow, down arrow, `Q`, `E`.
There is no outcome when `moveBirdForward` or `moveBirdBackward` has none. -/
def timerKeys (m : Trig) (w : World) : Option World :=
  let w1 := whenKey KEY_D (fun v => turnBirdRight m v PENGUIN_VIEW_ANGLE_DELTA) w
  let w2 := whenKey KEY_A (fun v => turnBirdLeft m v PENGUIN_VIEW_ANGLE_DELTA) w1
  (whenKeyOpt KEY_W (fun v => moveBirdForward v PENGUIN_LENGTH_INCREMENT) w2).bind fun w3 =>
  (whenKeyOpt KEY_S (fun v => moveBirdBackward v PENGUIN_LENGTH_INCREMENT) w3).bind fun w4 =>
  let w5 := whenKey KEY_UP_ARROW (fun v => increaseBirdSpeed v PENGUIN_SPEED_INCREMENT) w4
  let w6 := whenKey KEY_DOWN_ARROW (fun v => decreaseBirdSpeed v PENGUIN_SPEED_INCREMENT) w5
  let w7 := whenKey KEY_Q (fun v => increaseBirdHeight v PENGUIN_LENGTH_INCREMENT) w6
  let w8 := whenKey KEY_E (fun v => decreaseBirdHeight v PENGUIN_LENGTH_INCREMENT) w7
  some w8

/-- The update of the orbiting flyer in `timerCallback`. -/
def updateSparrow (m : Trig) (elapsedTime : ℚ) (sparrow : SparrowObject) : SparrowObject :=
  let currentAngle := fmod (sparrow.currentAngle + 5) 360
  let position : Vec3 := ⟨(1 / 2) * m.sinDeg currentAngle, (1 / 2) * m.cosDeg currentAngle, 1 / 2⟩
  { sparrow with
    currentAngle := currentAngle
    currentTime := elapsedTime
    position := checkBounds position sparrow.size }

/-- The step of `timerCallback` that stamps the banner, when the game is over
and the banner exists, with the scene time. -/
def tickBannerTime (w : World) : World :=
  if w.gameState.gameOver = true then
    match w.gameObjects.bannerObject with
    | some banner =>
      { w with gameObjects :=
          { w.gameObjects with
            bannerObject := some { banner with currentTime := w.gameState.elapsedTime } } }
    | none => w
  else w

/-- The step of `timerCallback` that updates the orbiting flyer. -/
def tickSparrow (m : Trig) (w : World) : World :=
  { w with gameObjects :=
      { w.gameObjects with
        sparrow := updateSparrow m w.gameState.elapsedTime w.gameObjects.sparrow } }

/-- The step of `timerCallback` that launches a missile while the space key
is pressed; `missileMs` is the value of `glutGet(GLUT_ELAPSED_TIME)` read by
`createMissile`. -/
def tickLaunch (m : Trig) (missileMs : ℤ) (w : World) : World :=
  if w.gameState.keyMap KEY_SPACE = true then
    let missileDirection := w.gameObjects.penguin.direction
    let missilePosition :=
      w.gameObjects.penguin.position + (missileDirection * (3 / 2 : ℚ)) * MISSILE_SIZE
    createMissile m missileMs w missilePosition missileDirection
  else w

/-- The last step of `timerCallback`: when the game is over the space key is
released and the banner is created unless it exists. -/
def tickGameOver (w : World) : World :=
  if w.gameState.gameOver = true then
    let w1 := setKey w KEY_SPACE false
    match w1.gameObjects.bannerObject with
    | none => { w1 with gameObjects := { w1.gameObjects with bannerObject := some (createBanner w1) } }
    | some _ => w1
  else w

/-- The part of `timerCallback` after the key actions, in the order of the
source: the banner time, the orbiting flyer, `updateObjects`, the missile
launch, `checkCollisions` and the creation of the banner. -/
def timerAfterKeys (m : Trig) (missileMs : ℤ) (w : World) : World :=
  let w1 := tickBannerTime w
  let w2 := tickSparrow m w1
  let w3 := updateObjects w2.gameState.elapsedTime w2
  let w4 := tickLaunch m missileMs w3
  let w5 := checkCollisions w4
  tickGameOver w5

/-- The assignment `gameState.elapsedTime = t`. -/
def setElapsedTime (w : World) (t : ℚ) : World :=
  { w with gameState := { w.gameState with elapsedTime := t } }

/-- The function `timerCallback`; `elapsedMs` is the value of
`glutGet(GLUT_ELAPSED_TIME)` at its start. -/
def timerCallback (m : Trig) (elapsedMs missileMs : ℤ) (w : World) : Option World :=
  (timerKeys m (setElapsedTime w ((1 / 1000) * (elapsedMs : ℚ)))).map (timerAfterKeys m missileMs)

/-! ## Mouse, keyboard and menu callbacks (`main.cpp`) -/

/-- The function `reshapeCallback`. -/
def reshapeCallback (newWidth newHeight : ℤ) (w : World) : World :=
  { w with gameState := { w.gameState with windowWidth := newWidth, windowHeight := newHeight } }

/-- The function `passiveMouseMotionCallback`; `/` on `int` is the division
that rounds toward zero. -/
def passiveMouseMotionCallback (_mouseX mouseY : ℤ) (w : World) : World :=
  let gs := w.gameState
  if mouseY ≠ Int.tdiv gs.windowHeight 2 then
    let cameraElevationAngleDelta : ℚ :=
      (1 / 2) * ((gs.windowHeight - mouseY - Int.tdiv gs.windowHeight 2 : ℤ) : ℚ)
    if |gs.cameraElevationAngle + cameraElevationAngleDelta| < CAMERA_ELEVATION_MAX then
      { w with gameState :=
          { gs with cameraElevationAngle := gs.cameraElevationAngle + cameraElevationAngleDelta } }
    else w
  else w

/-- The function `teleport`; `r1` and `r2` are the two values of
`rand() / (double)RAND_MAX`. -/
def teleport (r1 r2 : ℚ) (w : World) : World :=
  setPenguinPosition w ⟨2 * r1 - 1, 2 * r2 - 1, 0⟩

/-- The function `reloadConfig`. -/
def reloadConfig (reader : INIReader) (w : World) : World :=
  let configValues := readConfig reader
  let go := w.gameObjects
  { w with gameObjects :=
      { go with
        cat :=
          { go.cat with
            size := configValues "Cat.size"
            position :=
              ⟨configValues "Cat.position_x", configValues "Cat.position_y",
                configValues "Cat.position_z"⟩ }
        fern1 := { go.fern1 with size := configValues "Fern.size" }
        fern2 := { go.fern2 with size := configValues "Fern.size" }
        campfire := { go.campfire with size := configValues "Cat.size" } } }

/-- The function `keyboardCallback`. `reader` and `elapsedMs` are read by
`restartGame` and `reloadConfig`; `r1` and `r2` are the two values of
`rand() / (double)RAND_MAX` drawn by the keys `t` and `b`. The escape key
leaves the main loop and changes no state. -/
def keyboardCallback (m : Trig) (reader : INIReader) (elapsedMs : ℤ) (r1 r2 : ℚ)
    (keyPressed : Char) (w : World) : World :=
  if keyPressed = 'w' then setKey w KEY_W true
  else if keyPressed = 'a' then setKey w KEY_A true
  else if keyPressed = 's' then setKey w KEY_S true
  else if keyPressed = 'd' then setKey w KEY_D true
  else if keyPressed = 'q' then setKey w KEY_Q true
  else if keyPressed = 'e' then setKey w KEY_E true
  else if keyPressed = Char.ofNat 27 then w
  else if keyPressed = 'r' then restartGame m reader elapsedMs w
  else if keyPressed = 't' then
    if w.gameState.gameOver ≠ true then teleport r1 r2 w else w
  else if keyPressed = 'c' then
    let cameraState : ℤ :=
      if w.gameState.cameraState = 0 then 1
      else if w.gameState.cameraState = 1 then 2
      else 0
    { w with gameState :=
        { w.gameState with
          cameraState := cameraState
          passiveMotionBound := decide (cameraState = 1) } }
  else if keyPressed = 'b' then insertExplosion w ⟨2 * r1 - 1, 2 * r2 - 1, 0⟩
  else if keyPressed = 'p' then
    let w1 := setKey w KEY_P true
    { w1 with gameState :=
        { w1.gameState with pointEnable := if w1.gameState.pointEnable = 0 then 1 else 0 } }
  else if keyPressed = 'o' then reloadConfig reader (setKey w KEY_O true)
  else w

/-- The function `keyboardUpCallback`. -/
def keyboardUpCallback (keyReleased : Char) (w : World) : World :=
  if keyReleased = ' ' then setKey w KEY_SPACE false
  else if keyReleased = 'w' then setKey w KEY_W false
  else if keyReleased = 'a' then setKey w KEY_A false
  else if keyReleased = 's' then setKey w KEY_S false
  else if keyReleased = 'd' then setKey w KEY_D false
  else if keyReleased = 'q' then setKey w KEY_Q false
  else if keyReleased = 'e' then setKey w KEY_E false
  else if keyReleased = 'p' then setKey w KEY_P false
  else if keyReleased = 'o' then setKey w KEY_O false
  else w

/-! The codes of the special keys and of the mouse, as the GLUT header has them. -/

def GLUT_KEY_F1 : ℤ := 1
def GLUT_KEY_F2 : ℤ := 2
def GLUT_KEY_F7 : ℤ := 7
def GLUT_KEY_LEFT : ℤ := 100
def GLUT_KEY_UP : ℤ := 101
def GLUT_KEY_RIGHT : ℤ := 102
def GLUT_KEY_DOWN : ℤ := 103
def GLUT_LEFT_BUTTON : ℤ := 0
def GLUT_DOWN : ℤ := 0

/-- The `switch` shared by `specialKeyboardCallback` (with `pressed = true`)
and `specialKeyboardUpCallback` (with `pressed = false`). -/
def specialKeySwitch (specKey : ℤ) (pressed : Bool) (w : World) : World :=
  if specKey = GLUT_KEY_RIGHT then setKey w KEY_RIGHT_ARROW pressed
  else if specKey = GLUT_KEY_LEFT then setKey w KEY_LEFT_ARROW pressed
  else if specKey = GLUT_KEY_UP then setKey w KEY_UP_ARROW pressed
  else if specKey = GLUT_KEY_DOWN then setKey w KEY_DOWN_ARROW pressed
  else if specKey = GLUT_KEY_F2 then setKey w KEY_UP_HEIGHT pressed
  else if specKey = GLUT_KEY_F1 then setKey w KEY_DOWN_HEIGHT pressed
  else if specKey = GLUT_KEY_F7 then setKey w KEY_EXPLODE1 pressed
  else w

/-- The function `specialKeyboardCallback`. -/
def specialKeyboardCallback (specKeyPressed : ℤ) (w : World) : World :=
  if w.gameState.gameOver = true then w else specialKeySwitch specKeyPressed true w

/-- The function `specialKeyboardUpCallback`. -/
def specialKeyboardUpCallback (specKeyReleased : ℤ) (w : World) : World :=
  if w.gameState.gameOver = true then w else specialKeySwitch specKeyReleased false w

/-- The function `mouseCallback`; `id` is the byte that `glReadPixels` reads
from the stencil buffer at the position of the click. -/
def mouseCallback (buttonPressed buttonState : ℤ) (id : ℕ) (w : World) : World :=
  if buttonPressed = GLUT_LEFT_BUTTON ∧ buttonState = GLUT_DOWN then
    if id = 0 then w
    else if id = 1 then w
    else if id = 2 then insertExplosion w w.gameObjects.fern1.position
    else if id = 3 then insertExplosion w w.gameObjects.fern2.position
    else if id = 4 then insertExplosion w w.gameObjects.fern3.position
    else if id = 5 then insertExplosion w w.gameObjects.fern4.position
    else w
  else w

/-- The function `menuCamera`. -/
def menuCamera (menuItemID : ℤ) (w : World) : World :=
  if menuItemID = 1 then { w with gameState := { w.gameState with cameraState := 0 } }
  else if menuItemID = 2 then { w with gameState := { w.gameState with cameraState := 1 } }
  else if menuItemID = 3 then { w with gameState := { w.gameState with cameraState := 2 } }
  else w

/-- The function `menuFog`. -/
def menuFog (menuItemID : ℤ) (w : World) : World :=
  if menuItemID = 1 then
    { w with gameState :=
        { w.gameState with fogLinearToggleInput := true, fogExpToggleInput := false } }
  else if menuItemID = 2 then
    { w with gameState :=
        { w.gameState with fogLinearToggleInput := false, fogExpToggleInput := true } }
  else if menuItemID = 3 then
    { w with gameState :=
        { w.gameState with fogLinearToggleInput := false, fogExpToggleInput := false } }
  else w

/-- The function `menuLight`. -/
def menuLight (menuItemID : ℤ) (w : World) : World :=
  if menuItemID = 0 then { w with gameState := { w.gameState with pointEnable := 1 } }
  else if menuItemID = 1 then { w with gameState := { w.gameState with pointEnable := 0 } }
  else w

/-- The function `menu`: entry 0 is "GameOver", entry 1 is "Restart". -/
def menu (m : Trig) (reader : INIReader) (elapsedMs : ℤ) (menuItemID : ℤ) (w : World) : World :=
  if menuItemID = 0 then { w with gameState := { w.gameState with gameOver := true } }
  else if menuItemID = 1 then restartGame m reader elapsedMs w
  else w

/-! ## The program as a transition system -/

/-- The events that GLUT delivers to the program, each with the values that
its callback reads from outside the program. -/
inductive Event where
  | timer (elapsedMs missileMs : ℤ)
  | keyboard (reader : INIReader) (elapsedMs : ℤ) (r1 r2 : ℚ) (keyPressed : Char)
  | keyboardUp (keyReleased : Char)
  | special (specKeyPressed : ℤ)
  | specialUp (specKeyReleased : ℤ)
  | mouse (buttonPressed buttonState : ℤ) (id : ℕ)
  | passiveMotion (mouseX mouseY : ℤ)
  | reshape (newWidth newHeight : ℤ)
  | menuCamera (menuItemID : ℤ)
  | menuFog (menuItemID : ℤ)
  | menuLight (menuItemID : ℤ)
  | menu (reader : INIReader) (elapsedMs : ℤ) (menuItemID : ℤ)

/-- The effect of one event. A passive-motion event reaches
`passiveMouseMotionCallback` only while that handler is registered. -/
def step (m : Trig) : Event → World → Option World
  | .timer elapsedMs missileMs, w => timerCallback m elapsedMs missileMs w
  | .keyboard reader elapsedMs r1 r2 key, w => some (keyboardCallback m reader elapsedMs r1 r2 key w)
  | .keyboardUp key, w => some (keyboardUpCallback key w)
  | .special key, w => some (specialKeyboardCallback key w)
  | .specialUp key, w => some (specialKeyboardUpCallback key w)
  | .mouse button state id, w => some (mouseCallback button state id w)
  | .passiveMotion mouseX mouseY, w =>
    some (if w.gameState.passiveMotionBound = true then passiveMouseMotionCallback mouseX mouseY w
      else w)
  | .reshape newWidth newHeight, w => some (reshapeCallback newWidth newHeight w)
  | .menuCamera id, w => some (menuCamera id w)
  | .menuFog id, w => some (menuFog id w)
  | .menuLight id, w => some (menuLight id w)
  | .menu reader elapsedMs id, w => some (menu m reader elapsedMs id w)

/-- The states the program can be in: `initializeApplication` calls
`restartGame` on the start world, and then events are delivered one by one. -/
inductive Reachable (m : Trig) : World → Prop where
  | init (reader : INIReader) (elapsedMs : ℤ) :
      Reachable m (restartGame m reader elapsedMs startWorld)
  | step (e : Event) (w w1 : World) :
      Reachable m w → step m e w = some w1 → Reachable m w1

/-- The events that call `restartGame`: the key `r` and the entry 1 of the
menu. -/
def isRestart : Event → Bool
  | .keyboard _ _ _ _ keyPressed => decide (keyPressed = 'r')
  | .menu _ _ menuItemID => decide (menuItemID = 1)
  | _ => false

/-- The states the program can be in after `n` calls of `restartGame`, the
one of `initializeApplication` included. -/
inductive ReachableAfter (m : Trig) : ℕ → World → Prop where
  | init (reader : INIReader) (elapsedMs : ℤ) :
      ReachableAfter m 1 (restartGame m reader elapsedMs startWorld)
  | step (e : Event) (n : ℕ) (w w1 : World) :
      ReachableAfter m n w → step m e w = some w1 →
      ReachableAfter m (n + if isRestart e = true then 1 else 0) w1

/-- The world `w1` has the camera elevation angle of `w`, and its game-over
flag is set if that of `w` is. -/
def KeepsCamera (w w1 : World) : Prop :=
  w1.gameState.cameraElevationAngle = w.gameState.cameraElevationAngle ∧
  (w.gameState.gameOver = true → w1.gameState.gameOver = true)

/-- The space key is not pressed and no missile exists. -/
def NoMissiles (w : World) : Prop :=
  w.gameState.keyMap KEY_SPACE = false ∧ w.gameObjects.missiles = []

/-- The world `w1` has the targets, the orbiting flyer, the scene time and
the position, heading, direction and size of the avatar of `w`. -/
def KeepsScene (w w1 : World) : Prop :=
  w1.gameObjects.targets = w.gameObjects.targets ∧
  w1.gameObjects.sparrow = w.gameObjects.sparrow ∧
  w1.gameObjects.penguin.position = w.gameObjects.penguin.position ∧
  w1.gameObjects.penguin.viewAngle = w.gameObjects.penguin.viewAngle ∧
  w1.gameObjects.penguin.direction = w.gameObjects.penguin.direction ∧
  w1.gameObjects.penguin.size = w.gameObjects.penguin.size ∧
  w1.gameState.elapsedTime = w.gameState.elapsedTime

/-- Some palm tree that is not destroyed intersects the avatar sphere placed
at `p`: the condition under which `checkTreeCollisions` returns `true`. -/
def blockedByPalmTree (w : World) (p : Vec3) : Bool :=
  let go := w.gameObjects
  [go.palmTree1, go.palmTree2, go.palmTree3, go.palmTree4].any fun t =>
    !t.destroyed && spheresIntersection p go.penguin.size t.position t.size

/-! ## Billboards (`render.cpp`) -/

/-- The type `glm::mat4`, as the matrix of its entries: `m i j` is the entry
of row `i` and column `j`, which `glm` writes `m[j][i]`. -/
abbrev Mat4 := Matrix (Fin 4) (Fin 4) ℚ

/-- The type `glm::mat3`. -/
abbrev Mat3 := Matrix (Fin 3) (Fin 3) ℚ

/-- The function `glm::translate (m, v)`: the fourth column becomes
`m[0] * v[0] + m[1] * v[1] + m[2] * v[2] + m[3]`, the others are kept. -/
def glmTranslate (m : Mat4) (v : Vec3) : Mat4 :=
  Matrix.of fun i j =>
    if j = 3 then m i 0 * v.x + m i 1 * v.y + m i 2 * v.z + m i 3 else m i j

/-- The function `glm::scale (m, v)`: the first three columns are multiplied
by the components of `v`, the fourth is kept. -/
def glmScale (m : Mat4) (v : Vec3) : Mat4 :=
  Matrix.of fun i j =>
    if j = 0 then m i 0 * v.x
    else if j = 1 then m i 1 * v.y
    else if j = 2 then m i 2 * v.z
    else m i 3

/-- The matrix `glm::mat4 (viewMatrix[0], viewMatrix[1], viewMatrix[2],
glm::vec4 (0, 0, 0, 1))` of `drawExplosion`: the first three columns of the
view matrix and the fourth column `(0, 0, 0, 1)`. -/
def viewRotationColumns (viewMatrix : Mat4) : Mat4 :=
  Matrix.of fun i j => if j = 3 then (if i = 3 then 1 else 0) else viewMatrix i j

/-- The value of `matrix` in `drawExplosion`, the model matrix of the
billboard, for an object at `position` of size `size`. -/
def billboardModelMatrix (viewMatrix : Mat4) (position : Vec3) (size : ℚ) : Mat4 :=
  let billboardRotationMatrix := (viewRotationColumns viewMatrix).transpose
  let matrix0 : Mat4 := 1
  let matrix1 := glmTranslate matrix0 position
  let matrix2 := glmScale matrix1 ⟨size, size, size⟩
  matrix2 * billboardRotationMatrix

/-- The model matrix that `drawExplosion` builds for `explosion`. -/
def drawExplosionMatrix (explosion : ExplosionObject) (viewMatrix : Mat4) : Mat4 :=
  billboardModelMatrix viewMatrix explosion.position explosion.size

/-- The upper-left 3 by 3 block of a matrix. -/
def rotationBlock (m : Mat4) : Mat3 :=
  Matrix.of fun i j => m i.castSucc j.castSucc

/-- A 3 by 3 matrix as a 4 by 4 matrix with last row and last column
`(0, 0, 0, 1)`. -/
def embedRotation (r : Mat3) : Mat4 :=
  !![r 0 0, r 0 1, r 0 2, 0;
     r 1 0, r 1 1, r 1 2, 0;
     r 2 0, r 2 1, r 2 2, 0;
     0, 0, 0, 1]

/-- The matrix of the translation by `p`. -/
def translationMatrix (p : Vec3) : Mat4 :=
  !![1, 0, 0, p.x;
     0, 1, 0, p.y;
     0, 0, 1, p.z;
     0, 0, 0, 1]

/-- The matrix of the uniform scaling by `s`. -/
def scaleMatrix (s : ℚ) : Mat4 :=
  !![s, 0, 0, 0;
     0, s, 0, 0;
     0, 0, s, 0;
     0, 0, 0, 1]

/-- A 3 by 3 matrix is orthonormal: its transpose is its inverse. -/
def Orthonormal (r : Mat3) : Prop :=
  r.transpose * r = 1

/-! ## Binary32 arithmetic

The type `float` of the source is the binary32 format: 24 significant binary
digits, the exponents from `-126` to `127`, and subnormal numbers below
`2 ^ (-126)`. A binary32 number is held as the rational that it is, and `f32`
is the rounding that every `float` operation applies to its exact result. -/

/-- The number of binary digits of `n`, counted with `fuel` halvings at most;
`fuel = n` is enough for every `n`. -/
def bitLength : ℕ → ℕ → ℕ
  | 0, _ => 0
  | fuel + 1, n => if n = 0 then 0 else bitLength fuel (n / 2) + 1

/-- The binary exponent of a positive rational `a`: the integer `e` with
`2 ^ e ≤ a < 2 ^ (e + 1)`. -/
def binade (a : ℚ) : ℤ :=
  let e0 : ℤ := (bitLength a.num.natAbs a.num.natAbs : ℤ) - (bitLength a.den a.den : ℤ)
  if (2 : ℚ) ^ e0 ≤ a then e0 else e0 - 1

/-- Rounding to the nearest integer, a tie going to the even one. -/
def roundHalfEven (z : ℚ) : ℤ :=
  let n := ⌊z⌋
  let r := z - n
  if r < 1 / 2 then n
  else if 1 / 2 < r then n + 1
  else if n % 2 = 0 then n else n + 1

/-- The spacing of the binary32 numbers around the positive rational `a`: 24
significant binary digits, and the spacing `2 ^ (-149)` of the subnormal
numbers below `2 ^ (-126)`. -/
def ulp32 (a : ℚ) : ℚ := 2 ^ (max (binade a) (-126) - 23)

/-- The binary32 number nearest to `q`, a tie going to the even significand. -/
def f32 (q : ℚ) : ℚ :=
  if 0 ≤ q then roundHalfEven (q / ulp32 q) * ulp32 q
  else -(roundHalfEven (-q / ulp32 (-q)) * ulp32 (-q))

/-- The integer part of the square root of `n`, found digit by digit: `r`
holds the digits above the `k` lowest ones. -/
def isqrtAux (n : ℕ) : ℕ → ℕ → ℕ
  | 0, r => r
  | k + 1, r =>
    if (r + 2 ^ k) * (r + 2 ^ k) ≤ n then isqrtAux n k (r + 2 ^ k) else isqrtAux n k r

/-- The integer part of the square root of `n`. -/
def isqrt (n : ℕ) : ℕ := isqrtAux n (bitLength n n) 0

/-- The binary32 number nearest to the square root of `a`, a tie going to the
even significand: the function `sqrt` on `float`. The source takes the root of
a sum of squares only; for `a ≤ 0` the value is 0. -/
def sqrt32 (a : ℚ) : ℚ :=
  if a ≤ 0 then 0
  else
    let e : ℤ := max (binade a / 2) (-126)
    let u : ℚ := 2 ^ (e - 23)
    let b : ℚ := a / (u * u)
    let n : ℤ := isqrt ⌊b⌋.toNat
    let t : ℚ := (n : ℚ) * n + n + 1 / 4
    let k : ℤ := if b < t then n else if t < b then n + 1 else if n % 2 = 0 then n else n + 1
    k * u

/-! ## The program in binary32 arithmetic

The objects of the source hold `float` values, and every operation on
`float` values rounds its exact result to the nearest binary32 number. The
definitions of this section are the functions of the source that compute with
`float` values, with that rounding written out. The function `fmod` needs no
rounding: the remainder of two binary32 numbers is a binary32 number. A result
whose magnitude reaches `2 ^ 128`, which the source turns into an infinity,
is outside these definitions. A constant of the source that is a binary32
number is written as it is; the other constants are rounded by `f32`. -/

/-- The sum of two `glm::vec3`. -/
def Binary32.add (a b : Vec3) : Vec3 :=
  ⟨f32 (a.x + b.x), f32 (a.y + b.y), f32 (a.z + b.z)⟩

/-- The difference of two `glm::vec3`. -/
def Binary32.sub (a b : Vec3) : Vec3 :=
  ⟨f32 (a.x - b.x), f32 (a.y - b.y), f32 (a.z - b.z)⟩

/-- The product of a `float` and a `glm::vec3`. -/
def Binary32.smul (k : ℚ) (a : Vec3) : Vec3 :=
  ⟨f32 (k * a.x), f32 (k * a.y), f32 (k * a.z)⟩

/-- The product of a `glm::vec3` and a `float`. -/
def Binary32.muls (a : Vec3) (k : ℚ) : Vec3 :=
  ⟨f32 (a.x * k), f32 (a.y * k), f32 (a.z * k)⟩

/-- The function `checkBounds` of `render.cpp`. -/
def Binary32.checkBounds (position : Vec3) (objectSize : ℚ) : Vec3 :=
  let halfSceneWidth := f32 (SCENE_WIDTH + objectSize)
  let halfSceneHeight := f32 (SCENE_HEIGHT + objectSize)
  let x1 :=
    f32 (fmod (f32 (position.x + halfSceneWidth)) (f32 (2 * halfSceneWidth)) - halfSceneWidth)
  let x2 := if x1 < -halfSceneWidth then f32 (x1 + f32 (2 * halfSceneWidth)) else x1
  let y1 :=
    f32 (fmod (f32 (position.y + halfSceneHeight)) (f32 (2 * halfSceneHeight)) - halfSceneHeight)
  let y2 := if y1 < -halfSceneHeight then f32 (y1 + f32 (2 * halfSceneHeight)) else y1
  { x := x2, y := y2, z := position.z }

/-- The wrap that `checkBounds` applies to one coordinate, for the half-extent
`h` that it computed. -/
def Binary32.wrapCoord (c h : ℚ) : ℚ :=
  let c1 := f32 (fmod (f32 (c + h)) (f32 (2 * h)) - h)
  if c1 < -h then f32 (c1 + f32 (2 * h)) else c1

/-- The function `glm::dot`: the three products are added from left to right. -/
def Binary32.dot (a b : Vec3) : ℚ :=
  f32 (f32 (f32 (a.x * b.x) + f32 (a.y * b.y)) + f32 (a.z * b.z))

/-- The function `glm::distance (p0, p1)`, which is `length (p1 - p0)`, the
square root of `dot (p1 - p0, p1 - p0)`. -/
def Binary32.distance (p0 p1 : Vec3) : ℚ :=
  sqrt32 (Binary32.dot (Binary32.sub p1 p0) (Binary32.sub p1 p0))

/-- The function `spheresIntersection`. -/
def Binary32.spheresIntersection (center1 : Vec3) (radius1 : ℚ) (center2 : Vec3)
    (radius2 : ℚ) : Bool :=
  if Binary32.distance center1 center2 < f32 (radius1 + radius2) then true else false

/-- The function `insertExplosion`. -/
def Binary32.insertExplosion (w : World) (position : Vec3) : World :=
  let newExplosion : ExplosionObject :=
    { speed := 0
      destroyed := false
      startTime := w.gameState.elapsedTime
      currentTime := w.gameState.elapsedTime
      size := f32 BILLBOARD_SIZE
      direction := ⟨0, 0, 1⟩
      frameDuration := f32 (1 / 10)
      textureFrames := 16
      position := position }
  { w with gameObjects :=
      { w.gameObjects with explosions := w.gameObjects.explosions ++ [newExplosion] } }

/-- The function `checkTreeCollisions`; `none` is the case where control
reaches the closing brace of the function without a value being returned. -/
def Binary32.checkTreeCollisions (w : World) (tempPos : Vec3) : Option Bool :=
  let go := w.gameObjects
  if go.palmTree1.destroyed = false ∧
      Binary32.spheresIntersection tempPos go.penguin.size go.palmTree1.position
        go.palmTree1.size = true then
    some true
  else if go.palmTree2.destroyed = false ∧
      Binary32.spheresIntersection tempPos go.penguin.size go.palmTree2.position
        go.palmTree2.size = true then
    some true
  else if go.palmTree3.destroyed = false ∧
      Binary32.spheresIntersection tempPos go.penguin.size go.palmTree3.position
        go.palmTree3.size = true then
    some true
  else if go.palmTree4.destroyed = false ∧
      Binary32.spheresIntersection tempPos go.penguin.size go.palmTree4.position
        go.palmTree4.size = true then
    some true
  else
    none

/-- The guarded assignment shared by `moveBirdForward` and `moveBirdBackward`. -/
def Binary32.commitMove (w : World) (tempPos : Vec3) : Option World :=
  if w.gameObjects.penguin.destroyed then some w
  else
    match Binary32.checkTreeCollisions w tempPos with
    | some true => some w
    | some false => some (setPenguinPosition w tempPos)
    | none => none

/-- The function `moveBirdForward`. -/
def Binary32.moveBirdForward (w : World) (deltaLength : ℚ) : Option World :=
  let tempPos :=
    Binary32.add w.gameObjects.penguin.position
      (Binary32.smul deltaLength w.gameObjects.penguin.direction)
  Binary32.commitMove w tempPos

/-- The function `moveBirdBackward`. -/
def Binary32.moveBirdBackward (w : World) (deltaLength : ℚ) : Option World :=
  let tempPos :=
    Binary32.sub w.gameObjects.penguin.position
      (Binary32.smul deltaLength w.gameObjects.penguin.direction)
  Binary32.commitMove w tempPos

/-- The function `turnBirdLeft`. -/
def Binary32.turnBirdLeft (m : Trig) (w : World) (deltaAngle : ℚ) : World :=
  let a1 := f32 (w.gameObjects.penguin.viewAngle + deltaAngle)
  let a2 := if a1 > 360 then f32 (a1 - 360) else a1
  setHeading m w a2

/-- The function `turnBirdRight`. -/
def Binary32.turnBirdRight (m : Trig) (w : World) (deltaAngle : ℚ) : World :=
  let a1 := f32 (w.gameObjects.penguin.viewAngle - deltaAngle)
  let a2 := if a1 < 0 then f32 (a1 + 360) else a1
  setHeading m w a2

/-- The function `increaseBirdSpeed`. -/
def Binary32.increaseBirdSpeed (w : World) (deltaSpeed : ℚ) : World :=
  setPenguin w
    { w.gameObjects.penguin with
      speed := min (f32 (w.gameObjects.penguin.speed + deltaSpeed)) (f32 PENGUIN_SPEED_MAX) }

/-- The function `decreaseBirdSpeed`. -/
def Binary32.decreaseBirdSpeed (w : World) (deltaSpeed : ℚ) : World :=
  setPenguin w
    { w.gameObjects.penguin with
      speed := max (f32 (w.gameObjects.penguin.speed - deltaSpeed)) 0 }

/-- The function `increaseBirdHeight`. -/
def Binary32.increaseBirdHeight (w : World) (deltaLength : ℚ) : World :=
  let p := w.gameObjects.penguin
  setPenguin w { p with position := { p.position with z := f32 (p.position.z + deltaLength) } }

/-- The function `decreaseBirdHeight`. -/
def Binary32.decreaseBirdHeight (w : World) (deltaLength : ℚ) : World :=
  let p := w.gameObjects.penguin
  setPenguin w
    { p with
      position :=
        { p.position with z := max (f32 (p.position.z - deltaLength)) PENGUIN_HEIGHT_MIN } }

/-- The scene time `0.001f * (float)glutGet(GLUT_ELAPSED_TIME)` for the
clock value `ms`. -/
def Binary32.sceneTime (ms : ℤ) : ℚ :=
  f32 (f32 (1 / 1000) * f32 (ms : ℚ))

/-- The function `createMissile`, called with `gameState.missileLaunchTime` as
its third argument; `currentMs` is the value of `glutGet(GLUT_ELAPSED_TIME)`
at the call. -/
def Binary32.createMissile (m : Trig) (currentMs : ℤ) (w : World)
    (missilePosition missileDirection : Vec3) : World :=
  let currentTime : ℚ := Binary32.sceneTime currentMs
  if f32 (currentTime - w.gameState.missileLaunchTime) < MISSILE_LAUNCH_TIME_DELAY then w
  else
    let newMissile : MissileObject :=
      { destroyed := false
        startTime := w.gameState.elapsedTime
        currentTime := w.gameState.elapsedTime
        size := f32 MISSILE_SIZE
        speed := MISSILE_SPEED
        position := missilePosition
        direction := m.normalize missileDirection }
    { gameState := { w.gameState with missileLaunchTime := currentTime }
      gameObjects := { w.gameObjects with missiles := w.gameObjects.missiles ++ [newMissile] } }

/-- The body of the missile loop of `updateObjects`, up to the test of the
`destroyed` flag. -/
def Binary32.updateMissile (elapsedTime : ℚ) (missile : MissileObject) : MissileObject :=
  let timeDelta := f32 (elapsedTime - missile.currentTime)
  let position1 :=
    Binary32.add missile.position (Binary32.smul (f32 (timeDelta * missile.speed)) missile.direction)
  let position2 := Binary32.checkBounds position1 missile.size
  { missile with
    currentTime := elapsedTime
    position := position2
    destroyed :=
      if f32 (f32 (elapsedTime - missile.startTime) * missile.speed) > MISSILE_MAX_DISTANCE
      then true
      else missile.destroyed }

/-- The missile loop of `updateObjects`. -/
def Binary32.updateMissiles (elapsedTime : ℚ) : List MissileObject → List MissileObject
  | [] => []
  | missile :: rest =>
    let missile1 := Binary32.updateMissile elapsedTime missile
    if missile1.destroyed = true then Binary32.updateMissiles elapsedTime rest
    else missile1 :: Binary32.updateMissiles elapsedTime rest

/-- The body of the explosion loop of `updateObjects`, up to the test of the
`destroyed` flag; the frame count is converted to `float` for the product. -/
def Binary32.updateExplosion (elapsedTime : ℚ) (explosion : ExplosionObject) :
    ExplosionObject :=
  { explosion with
    currentTime := elapsedTime
    destroyed :=
      if elapsedTime >
          f32 (explosion.startTime +
            f32 (f32 (explosion.textureFrames : ℚ) * explosion.frameDuration))
      then true
      else explosion.destroyed }

/-- The explosion loop of `updateObjects`. -/
def Binary32.updateExplosions (elapsedTime : ℚ) : List ExplosionObject → List ExplosionObject
  | [] => []
  | explosion :: rest =>
    let explosion1 := Binary32.updateExplosion elapsedTime explosion
    if explosion1.destroyed = true then Binary32.updateExplosions elapsedTime rest
    else explosion1 :: Binary32.updateExplosions elapsedTime rest

/-- The function `updateObjects`. -/
def Binary32.updateObjects (elapsedTime : ℚ) (w : World) : World :=
  let p := w.gameObjects.penguin
  let p1 : PenguinObject :=
    { p with currentTime := elapsedTime, position := Binary32.checkBounds p.position p.size }
  { w with gameObjects :=
      { w.gameObjects with
        penguin := p1
        missiles := Binary32.updateMissiles elapsedTime w.gameObjects.missiles
        explosions := Binary32.updateExplosions elapsedTime w.gameObjects.explosions } }

/-- The function `checkCollisions`. -/
def Binary32.checkCollisions (w : World) : World :=
  let go := w.gameObjects
  if go.campfire.destroyed = false ∧
      Binary32.spheresIntersection go.penguin.position go.penguin.size go.campfire.position
        go.campfire.size = true then
    let w1 : World :=
      { w with gameObjects := { go with penguin := { go.penguin with destroyed := true } } }
    let w2 := Binary32.insertExplosion w1 w1.gameObjects.campfire.position
    { w2 with gameState := { w2.gameState with gameOver := true } }
  else
    w

/-- The part of `timerCallback` that runs the actions of the pressed keys. -/
def Binary32.timerKeys (m : Trig) (w : World) : Option World :=
  let w1 := whenKey KEY_D (fun v => Binary32.turnBirdRight m v PENGUIN_VIEW_ANGLE_DELTA) w
  let w2 := whenKey KEY_A (fun v => Binary32.turnBirdLeft m v PENGUIN_VIEW_ANGLE_DELTA) w1
  (whenKeyOpt KEY_W
    (fun v => Binary32.moveBirdForward v (f32 PENGUIN_LENGTH_INCREMENT)) w2).bind fun w3 =>
  (whenKeyOpt KEY_S
    (fun v => Binary32.moveBirdBackward v (f32 PENGUIN_LENGTH_INCREMENT)) w3).bind fun w4 =>
  let w5 :=
    whenKey KEY_UP_ARROW (fun v => Binary32.increaseBirdSpeed v (f32 PENGUIN_SPEED_INCREMENT)) w4
  let w6 :=
    whenKey KEY_DOWN_ARROW (fun v => Binary32.decreaseBirdSpeed v (f32 PENGUIN_SPEED_INCREMENT)) w5
  let w7 :=
    whenKey KEY_Q (fun v => Binary32.increaseBirdHeight v (f32 PENGUIN_LENGTH_INCREMENT)) w6
  let w8 :=
    whenKey KEY_E (fun v => Binary32.decreaseBirdHeight v (f32 PENGUIN_LENGTH_INCREMENT)) w7
  some w8

/-- The update of the orbiting flyer in `timerCallback`. -/
def Binary32.updateSparrow (m : Trig) (elapsedTime : ℚ) (sparrow : SparrowObject) :
    SparrowObject :=
  let currentAngle := fmod (f32 (sparrow.currentAngle + 5)) 360
  let position : Vec3 :=
    ⟨f32 ((1 / 2) * m.sinDeg currentAngle), f32 ((1 / 2) * m.cosDeg currentAngle), 1 / 2⟩
  { sparrow with
    currentAngle := currentAngle
    currentTime := elapsedTime
    position := Binary32.checkBounds position sparrow.size }

/-- The step of `timerCallback` that updates the orbiting flyer. -/
def Binary32.tickSparrow (m : Trig) (w : World) : World :=
  { w with gameObjects :=
      { w.gameObjects with
        sparrow := Binary32.updateSparrow m w.gameState.elapsedTime w.gameObjects.sparrow } }

/-- The step of `timerCallback` that launches a missile while the space key
is pressed. -/
def Binary32.tickLaunch (m : Trig) (missileMs : ℤ) (w : World) : World :=
  if w.gameState.keyMap KEY_SPACE = true then
    let missileDirection := w.gameObjects.penguin.direction
    let missilePosition :=
      Binary32.add w.gameObjects.penguin.position
        (Binary32.muls (Binary32.muls missileDirection (3 / 2)) (f32 MISSILE_SIZE))
    Binary32.createMissile m missileMs w missilePosition missileDirection
  else w

/-- The part of `timerCallback` after the key actions. -/
def Binary32.timerAfterKeys (m : Trig) (missileMs : ℤ) (w : World) : World :=
  let w1 := tickBannerTime w
  let w2 := Binary32.tickSparrow m w1
  let w3 := Binary32.updateObjects w2.gameState.elapsedTime w2
  let w4 := Binary32.tickLaunch m missileMs w3
  let w5 := Binary32.checkCollisions w4
  tickGameOver w5

/-- The function `timerCallback`; `elapsedMs` is the value of
`glutGet(GLUT_ELAPSED_TIME)` at its start. -/
def Binary32.timerCallback (m : Trig) (elapsedMs missileMs : ℤ) (w : World) : Option World :=
  (Binary32.timerKeys m (setElapsedTime w (Binary32.sceneTime elapsedMs))).map
    (Binary32.timerAfterKeys m missileMs)

/-- The object `o` with its position wrapped once more by `checkBounds`. -/
def Binary32.rewrap (o : MissileObject) : MissileObject :=
  { o with position := Binary32.checkBounds o.position o.size }

/-! ## The timer callback when the obstacle test returns no value

The call of `checkTreeCollisions` that reaches the end of the function yields
a value that the source does not determine. In the definitions below that
value is a parameter, so that the tick has an outcome in every state. -/

/-- The guarded assignment shared by `moveBirdForward` and `moveBirdBackward`
when a call of `checkTreeCollisions` that returns no value yields `yields`. -/
def commitMoveWith (yields : Bool) (w : World) (tempPos : Vec3) : World :=
  if w.gameObjects.penguin.destroyed then w
  else if (checkTreeCollisions w tempPos).getD yields = true then w
  else setPenguinPosition w tempPos

/-- The key actions of `timerCallback`; `yieldsW` and `yieldsS` are the values
that a call of `checkTreeCollisions` without a returned value yields in
`moveBirdForward` and in `moveBirdBackward`. -/
def timerKeysWith (m : Trig) (yieldsW yieldsS : Bool) (w : World) : World :=
  let w1 := whenKey KEY_D (fun v => turnBirdRight m v PENGUIN_VIEW_ANGLE_DELTA) w
  let w2 := whenKey KEY_A (fun v => turnBirdLeft m v PENGUIN_VIEW_ANGLE_DELTA) w1
  let w3 := whenKey KEY_W (fun v => commitMoveWith yieldsW v
    (v.gameObjects.penguin.position + PENGUIN_LENGTH_INCREMENT * v.gameObjects.penguin.direction))
    w2
  let w4 := whenKey KEY_S (fun v => commitMoveWith yieldsS v
    (v.gameObjects.penguin.position - PENGUIN_LENGTH_INCREMENT * v.gameObjects.penguin.direction))
    w3
  let w5 := whenKey KEY_UP_ARROW (fun v => increaseBirdSpeed v PENGUIN_SPEED_INCREMENT) w4
  let w6 := whenKey KEY_DOWN_ARROW (fun v => decreaseBirdSpeed v PENGUIN_SPEED_INCREMENT) w5
  let w7 := whenKey KEY_Q (fun v => increaseBirdHeight v PENGUIN_LENGTH_INCREMENT) w6
  whenKey KEY_E (fun v => decreaseBirdHeight v PENGUIN_LENGTH_INCREMENT) w7

/-- The function `timerCallback` with the values yielded by the calls of
`checkTreeCollisions` that return none. -/
def timerCallbackWith (m : Trig) (yieldsW yieldsS : Bool) (elapsedMs missileMs : ℤ)
    (w : World) : World :=
  timerAfterKeys m missileMs
    (timerKeysWith m yieldsW yieldsS (setElapsedTime w ((1 / 1000) * (elapsedMs : ℚ))))

/-- The guarded assignment of the moves, in binary32 arithmetic, when a call
of `checkTreeCollisions` that returns no value yields `yields`. -/
def Binary32.commitMoveWith (yields : Bool) (w : World) (tempPos : Vec3) : World :=
  if w.gameObjects.penguin.destroyed then w
  else if (Binary32.checkTreeCollisions w tempPos).getD yields = true then w
  else setPenguinPosition w tempPos

/-- The key actions of `timerCallback` in binary32 arithmetic, with the
values yielded by the calls of `checkTreeCollisions` that return none. -/
def Binary32.timerKeysWith (m : Trig) (yieldsW yieldsS : Bool) (w : World) : World :=
  let w1 := whenKey KEY_D (fun v => Binary32.turnBirdRight m v PENGUIN_VIEW_ANGLE_DELTA) w
  let w2 := whenKey KEY_A (fun v => Binary32.turnBirdLeft m v PENGUIN_VIEW_ANGLE_DELTA) w1
  let w3 := whenKey KEY_W (fun v => Binary32.commitMoveWith yieldsW v
    (Binary32.add v.gameObjects.penguin.position
      (Binary32.smul (f32 PENGUIN_LENGTH_INCREMENT) v.gameObjects.penguin.direction))) w2
  let w4 := whenKey KEY_S (fun v => Binary32.commitMoveWith yieldsS v
    (Binary32.sub v.gameObjects.penguin.position
      (Binary32.smul (f32 PENGUIN_LENGTH_INCREMENT) v.gameObjects.penguin.direction))) w3
  let w5 :=
    whenKey KEY_UP_ARROW (fun v => Binary32.increaseBirdSpeed v (f32 PENGUIN_SPEED_INCREMENT)) w4
  let w6 :=
    whenKey KEY_DOWN_ARROW (fun v => Binary32.decreaseBirdSpeed v (f32 PENGUIN_SPEED_INCREMENT)) w5
  let w7 :=
    whenKey KEY_Q (fun v => Binary32.increaseBirdHeight v (f32 PENGUIN_LENGTH_INCREMENT)) w6
  whenKey KEY_E (fun v => Binary32.decreaseBirdHeight v (f32 PENGUIN_LENGTH_INCREMENT)) w7

/-- The function `timerCallback` in binary32 arithmetic, with the values
yielded by the calls of `checkTreeCollisions` that return none. -/
def Binary32.timerCallbackWith (m : Trig) (yieldsW yieldsS : Bool) (elapsedMs missileMs : ℤ)
    (w : World) : World :=
  Binary32.timerAfterKeys m missileMs
    (Binary32.timerKeysWith m yieldsW yieldsS (setElapsedTime w (Binary32.sceneTime elapsedMs)))

/-- The states the program can be in, whatever the calls of
`checkTreeCollisions` that return no value yield: `initializeApplication`
calls `restartGame` on the start world, and then events are delivered one by
one; a timer event is computed in exact or in binary32 arithmetic. -/
inductive Runs (m : Trig) : World → Prop where
  | init (reader : INIReader) (elapsedMs : ℤ) :
      Runs m (restartGame m reader elapsedMs startWorld)
  | event (e : Event) (w w1 : World) : Runs m w → step m e w = some w1 → Runs m w1
  | tick (yieldsW yieldsS : Bool) (elapsedMs missileMs : ℤ) (w : World) :
      Runs m w → Runs m (timerCallbackWith m yieldsW yieldsS elapsedMs missileMs w)
  | tick32 (yieldsW yieldsS : Bool) (elapsedMs missileMs : ℤ) (w : World) :
      Runs m w → Runs m (Binary32.timerCallbackWith m yieldsW yieldsS elapsedMs missileMs w)

/-- The world `w1` has the orbiting flyer, the scene time and the position,
heading, direction, size and speed of the avatar of `w`. -/
def KeepsAvatar (w w1 : World) : Prop :=
  w1.gameObjects.sparrow = w.gameObjects.sparrow ∧
  w1.gameObjects.penguin.position = w.gameObjects.penguin.position ∧
  w1.gameObjects.penguin.viewAngle = w.gameObjects.penguin.viewAngle ∧
  w1.gameObjects.penguin.direction = w.gameObjects.penguin.direction ∧
  w1.gameObjects.penguin.size = w.gameObjects.penguin.size ∧
  w1.gameObjects.penguin.speed = w.gameObjects.penguin.speed ∧
  w1.gameState.elapsedTime = w.gameState.elapsedTime

/-! ## Concrete inputs -/

/-- A configuration file that parses and holds none of the keys: every lookup
gives the default passed by `readConfig`. -/
def defaultReader : INIReader :=
  { parseError := 0, getReal := fun _ _ d => d }

/-- A table standing for `cos` and `sin` at the headings of the concrete inputs
below: exact at 0, 90, 180 and 270 degrees, rounded to five decimals at the
restart heading of 100 degrees; other headings are not used. Its `normalize`
is exact on vectors of length one. -/
def headingTable : Trig :=
  { cosDeg := fun a =>
      if a = 0 then 1 else if a = 90 then 0 else if a = 180 then -1 else if a = 270 then 0
      else if a = 100 then -17365 / 100000 else 1
    sinDeg := fun a =>
      if a = 0 then 0 else if a = 90 then 1 else if a = 180 then 0 else if a = 270 then -1
      else if a = 100 then 98481 / 100000 else 0
    normalize := fun v => v }

/-- The world right after the first `restartGame`, with the default
configuration, at time zero. -/
def restartWorld : World :=
  restartGame headingTable defaultReader 0 startWorld

/-- An avatar that touches the campfire: at `(0, -0.4, 0.08)`, at distance
less than 0.25 of the campfire at `(0, -0.5, 0.05)`. -/
def campfireWorld : World :=
  setPenguinPosition restartWorld ⟨0, -2 / 5, 2 / 25⟩

/-- The world when `checkCollisions` has found the avatar in the campfire:
the avatar is destroyed and the game is over. -/
def gameOverWorld : World :=
  checkCollisions campfireWorld

/-- The world after the restart, in a window of 1080 by 1080 pixels, with the
camera elevation angle 40: the pointer was moved to `mouseY = 460`, that is 80
pixels above the centre line, which adds `0.5 * 80`. -/
def elevatedWorld : World :=
  passiveMouseMotionCallback 540 460 (reshapeCallback 1080 1080 restartWorld)

/-- A missile as `createMissile` makes it, launched at the scene time 0 from
the avatar of `restartWorld`. -/
def missileWorld : World :=
  createMissile headingTable 1000 restartWorld ⟨0, 0, 2 / 25⟩ ⟨1, 0, 0⟩

/-- An explosion as `insertExplosion` makes it, at the scene time 0. -/
def explosionWorld : World :=
  insertExplosion restartWorld ⟨0, 0, 0⟩

/-- A configuration file that cannot be parsed: `readConfig` returns the
empty map. -/
def unparsableReader : INIReader :=
  { parseError := -1, getReal := fun _ _ d => d }

/-- A configuration file that parses, with the cat size 0.5, which is a valid
size, and the cat position `x = 5`, which is not a valid position; the other
keys are absent. -/
def farCatReader : INIReader :=
  { parseError := 0
    getReal := fun section_ key d =>
      if section_ = "Cat" ∧ key = "size" then 1 / 2
      else if section_ = "Cat" ∧ key = "position_x" then 5
      else d }

/-- A view matrix: the rotation by a quarter turn about the `z` axis followed
by the translation by `(1, 2, 3)`. -/
def quarterTurnView : Mat4 :=
  !![0, -1, 0, 1;
     1, 0, 0, 2;
     0, 0, 1, 3;
     0, 0, 0, 1]

/-- The orbiting flyer of `restartWorld` after 17 ticks: its orbit angle is 85. -/
def orbitSparrow : SparrowObject :=
  { restartWorld.gameObjects.sparrow with currentAngle := 85 }

/-- A missile as `createMissile` makes it when the scene time is that of the
clock value `ms`. -/
def Binary32.launchedMissile (ms : ℤ) : MissileObject :=
  { position := ⟨0, 0, f32 (2 / 25)⟩
    direction := ⟨1, 0, 0⟩
    speed := MISSILE_SPEED
    size := f32 MISSILE_SIZE
    destroyed := false
    startTime := Binary32.sceneTime ms
    currentTime := Binary32.sceneTime ms }

/-- The world after the restart at the scene time of the clock value `ms`,
with an explosion inserted at the origin. -/
def Binary32.explosionWorld (ms : ℤ) : World :=
  Binary32.insertExplosion (setElapsedTime restartWorld (Binary32.sceneTime ms)) ⟨0, 0, 0⟩

/-- The restart world with an avatar of the size `0.1f` at `(x, y, 0.08f)`. -/
def Binary32.avatarWorld (x y : ℚ) : World :=
  setPenguin restartWorld
    { restartWorld.gameObjects.penguin with
      position := ⟨x, y, f32 (2 / 25)⟩
      size := f32 PENGUIN_SIZE }

/-- The values of `sin` and `cos` in binary32 at the orbit angle 5, the first
one that the orbiting flyer takes: `0.087155737` and `0.99619472`. -/
def orbitTable : Trig :=
  { cosDeg := fun a => if a = 5 then 16713374 / 2 ^ 24 else 1
    sinDeg := fun a => if a = 5 then 11697845 / 2 ^ 27 else 0
    normalize := fun v => v }

/-- The restart world with an orbiting flyer of the size `0.2f`. -/
def Binary32.sparrowWorld : World :=
  { restartWorld with gameObjects :=
      { restartWorld.gameObjects with
        sparrow := { restartWorld.gameObjects.sparrow with size := f32 SPARROW_SIZE } } }

/-- A world with the avatar just past the left edge of the play volume, at
`x = -1.1160123`, one missile and one explosion. -/
def Binary32.driftWorld : World :=
  let w := Binary32.avatarWorld (-9361790 / 2 ^ 23) 0
  { w with gameObjects :=
      { w.gameObjects with
        missiles := [Binary32.launchedMissile 0]
        explosions := (Binary32.explosionWorld 0).gameObjects.explosions } }

/-- The world after the restart and the key `t`, which teleports the avatar
to `(0, -0.5, 0)`, inside the campfire sphere. -/
def teleportedWorld : World :=
  keyboardCallback headingTable defaultReader 0 (1 / 2) (1 / 4) 't' restartWorld

/-- The world one tick after the teleport into the campfire: the game is over. -/
def crashedWorld : World :=
  Binary32.timerCallbackWith headingTable false false 33 33 teleportedWorld

/-! ## Properties of `fmod` and of the wrap of one coordinate -/

/-- The wrap that `checkBounds` applies to one coordinate, for the half-extent `S`. -/
def wrapCoord (c S : ℚ) : ℚ :=
  let c1 := fmod (c + S) (2 * S) - S
  if c1 < -S then c1 + 2 * S else c1

theorem checkBounds_x (p : Vec3) (s : ℚ) :
    (checkBounds p s).x = wrapCoord p.x (SCENE_WIDTH + s) := rfl

theorem checkBounds_y (p : Vec3) (s : ℚ) :
    (checkBounds p s).y = wrapCoord p.y (SCENE_HEIGHT + s) := rfl

theorem checkBounds_z (p : Vec3) (s : ℚ) : (checkBounds p s).z = p.z := rfl

theorem fmod_of_nonneg {x y : ℚ} (hx : 0 ≤ x) (hy : 0 < y) :
    fmod x y = Int.fract (x / y) * y := by
  have hq : 0 ≤ x / y := div_nonneg hx hy.le
  unfold fmod truncToZero
  rw [if_pos hq, Int.fract]
  field_simp
  ring

theorem fmod_of_neg {x y : ℚ} (hx : x < 0) (hy : 0 < y) :
    fmod x y = -(Int.fract (-(x / y)) * y) := by
  have hq : ¬ 0 ≤ x / y := not_le.mpr (div_neg_of_neg_of_pos hx hy)
  unfold fmod truncToZero
  rw [if_neg hq, Int.fract]
  push_cast
  field_simp
  ring

theorem fmod_eq_sub_mul (x y : ℚ) : ∃ k : ℤ, fmod x y = x - (k : ℚ) * y :=
  ⟨truncToZero (x / y), rfl⟩

theorem fmod_nonneg_range {x y : ℚ} (hx : 0 ≤ x) (hy : 0 < y) :
    0 ≤ fmod x y ∧ fmod x y < y := by
  rw [fmod_of_nonneg hx hy]
  constructor
  · exact mul_nonneg (Int.fract_nonneg _) hy.le
  · calc Int.fract (x / y) * y < 1 * y := mul_lt_mul_of_pos_right (Int.fract_lt_one _) hy
      _ = y := one_mul y

theorem fmod_neg_range {x y : ℚ} (hx : x < 0) (hy : 0 < y) :
    -y < fmod x y ∧ fmod x y ≤ 0 := by
  rw [fmod_of_neg hx hy]
  have h1 : Int.fract (-(x / y)) * y < 1 * y :=
    mul_lt_mul_of_pos_right (Int.fract_lt_one _) hy
  have h2 : 0 ≤ Int.fract (-(x / y)) * y := mul_nonneg (Int.fract_nonneg _) hy.le
  constructor <;> linarith

/-- The wrapped coordinate lies in `[-S, S)`. -/
theorem wrapCoord_range (c : ℚ) {S : ℚ} (hS : 0 < S) :
    -S ≤ wrapCoord c S ∧ wrapCoord c S < S := by
  have h2 : (0 : ℚ) < 2 * S := by linarith
  unfold wrapCoord
  rcases le_or_lt 0 (c + S) with h | h
  · obtain ⟨ha, hb⟩ := fmod_nonneg_range h h2
    simp only
    rw [if_neg (by linarith)]
    constructor <;> linarith
  · obtain ⟨ha, hb⟩ := fmod_neg_range h h2
    simp only
    split_ifs with hc
    · constructor <;> linarith
    · constructor <;> linarith

/-- The wrapped coordinate differs from the input by a whole number of periods `2 * S`. -/
theorem wrapCoord_eq_sub (c S : ℚ) : ∃ k : ℤ, wrapCoord c S = c - (k : ℚ) * (2 * S) := by
  obtain ⟨k, hk⟩ := fmod_eq_sub_mul (c + S) (2 * S)
  unfold wrapCoord
  simp only
  split_ifs with hc
  · exact ⟨k - 1, by rw [hk]; push_cast; ring⟩
  · exact ⟨k, by rw [hk]; ring⟩

/-- Two points of `[-S, S)` that differ by a whole number of periods are equal. -/
theorem eq_of_range_of_period {a b S : ℚ} (k : ℤ) (hS : 0 < S)
    (ha : -S ≤ a ∧ a < S) (hb : -S ≤ b ∧ b < S) (h : a = b - (k : ℚ) * (2 * S)) : a = b := by
  have hk : k = 0 := by
    by_contra hne
    rcases lt_or_gt_of_ne hne with hlt | hgt
    · have h1 : (k : ℚ) ≤ -1 := by exact_mod_cast Int.le_sub_one_of_lt hlt
      nlinarith [ha.1, ha.2, hb.1, hb.2]
    · have h1 : (1 : ℚ) ≤ k := by exact_mod_cast Int.add_one_le_of_lt hgt
      nlinarith [ha.1, ha.2, hb.1, hb.2]
  rw [h, hk]; simp

/-- A coordinate of `[-S, S)` is a fixed point of the wrap. -/
theorem wrapCoord_of_range {c S : ℚ} (hS : 0 < S) (hc : -S ≤ c ∧ c < S) : wrapCoord c S = c := by
  obtain ⟨k, hk⟩ := wrapCoord_eq_sub c S
  exact eq_of_range_of_period k hS (wrapCoord_range c hS) hc hk

/-- The wrap of one coordinate has period `2 * S`. -/
theorem wrapCoord_add_period (c : ℚ) {S : ℚ} (hS : 0 < S) :
    wrapCoord (c + 2 * S) S = wrapCoord c S := by
  obtain ⟨k, hk⟩ := wrapCoord_eq_sub (c + 2 * S) S
  obtain ⟨j, hj⟩ := wrapCoord_eq_sub c S
  refine eq_of_range_of_period (k - 1 - j) hS (wrapCoord_range _ hS) (wrapCoord_range _ hS) ?_
  rw [hk, hj]; push_cast; ring


/-! ## BoundedSpace: `checkBounds` -/

theorem vec3_eq {a b : Vec3} (hx : a.x = b.x) (hy : a.y = b.y) (hz : a.z = b.z) : a = b := by
  cases a; cases b; simp_all

/-- C1: for every position and every object size with
`S = SCENE_WIDTH + objectSize > 0`, `checkBounds` returns a position whose `x`
and `y` both lie in `[-S, S)` and whose `z` is the input `z`. -/
theorem checkBounds_in_play_volume (p : Vec3) (s : ℚ) (hS : 0 < SCENE_WIDTH + s) :
    (-(SCENE_WIDTH + s) ≤ (checkBounds p s).x ∧ (checkBounds p s).x < SCENE_WIDTH + s) ∧
    (-(SCENE_WIDTH + s) ≤ (checkBounds p s).y ∧ (checkBounds p s).y < SCENE_WIDTH + s) ∧
    (checkBounds p s).z = p.z := by
  refine ⟨?_, ?_, rfl⟩
  · rw [checkBounds_x]; exact wrapCoord_range p.x hS
  · rw [checkBounds_y]; exact wrapCoord_range p.y hS

theorem checkBounds_in_play_volume_witness :
    0 < SCENE_WIDTH + 1 / 10 ∧
    ((-(SCENE_WIDTH + 1 / 10) ≤ (checkBounds ⟨5 / 2, -7 / 2, 3⟩ (1 / 10)).x ∧
        (checkBounds ⟨5 / 2, -7 / 2, 3⟩ (1 / 10)).x < SCENE_WIDTH + 1 / 10) ∧
      (-(SCENE_WIDTH + 1 / 10) ≤ (checkBounds ⟨5 / 2, -7 / 2, 3⟩ (1 / 10)).y ∧
        (checkBounds ⟨5 / 2, -7 / 2, 3⟩ (1 / 10)).y < SCENE_WIDTH + 1 / 10) ∧
      (checkBounds ⟨5 / 2, -7 / 2, 3⟩ (1 / 10)).z = 3) :=
  ⟨by norm_num [SCENE_WIDTH],
    checkBounds_in_play_volume ⟨5 / 2, -7 / 2, 3⟩ (1 / 10) (by norm_num [SCENE_WIDTH])⟩

/-- One coordinate above the volume, in `(S, 3S)`, comes back lowered by `2S`. -/
theorem wrapCoord_above {c S : ℚ} (hS : 0 < S) (h1 : S < c) (h2 : c < 3 * S) :
    wrapCoord c S = c - 2 * S := by
  have h := wrapCoord_add_period (c - 2 * S) hS
  rw [sub_add_cancel] at h
  rw [h]
  exact wrapCoord_of_range hS ⟨by linarith, by linarith⟩

/-- One coordinate below the volume, in `(-3S, -S)`, comes back raised by `2S`. -/
theorem wrapCoord_below {c S : ℚ} (hS : 0 < S) (h1 : -(3 * S) < c) (h2 : c < -S) :
    wrapCoord c S = c + 2 * S := by
  rw [← wrapCoord_add_period c hS]
  exact wrapCoord_of_range hS ⟨by linarith, by linarith⟩

/-- The coordinate `-S` is a fixed point of the wrap and the coordinate `+S`
is sent to `-S`. -/
theorem wrapCoord_boundary {S : ℚ} (hS : 0 < S) :
    wrapCoord (-S) S = -S ∧ wrapCoord S S = -S := by
  have h1 : wrapCoord (-S) S = -S := wrapCoord_of_range hS ⟨le_refl _, by linarith⟩
  refine ⟨h1, ?_⟩
  have h2 := wrapCoord_add_period (-S) hS
  rw [show -S + 2 * S = S by ring] at h2
  rw [h2, h1]

/-- C5, as the code has it: for `S = SCENE_WIDTH + s > 0`, a coordinate `x`
(or `y`) equal to exactly `-S` is returned unchanged, and a coordinate equal
to exactly `+S` is wrapped to `-S`. -/
theorem checkBounds_boundary (p : Vec3) (s : ℚ) (hS : 0 < SCENE_WIDTH + s) :
    (checkBounds ⟨-(SCENE_WIDTH + s), p.y, p.z⟩ s).x = -(SCENE_WIDTH + s) ∧
    (checkBounds ⟨SCENE_WIDTH + s, p.y, p.z⟩ s).x = -(SCENE_WIDTH + s) ∧
    (checkBounds ⟨p.x, -(SCENE_WIDTH + s), p.z⟩ s).y = -(SCENE_WIDTH + s) ∧
    (checkBounds ⟨p.x, SCENE_WIDTH + s, p.z⟩ s).y = -(SCENE_WIDTH + s) := by
  simp only [checkBounds_x, checkBounds_y]
  exact ⟨(wrapCoord_boundary hS).1, (wrapCoord_boundary hS).2,
    (wrapCoord_boundary hS).1, (wrapCoord_boundary hS).2⟩

theorem checkBounds_boundary_witness :
    0 < SCENE_WIDTH + PENGUIN_SIZE ∧
    (checkBounds ⟨-(SCENE_WIDTH + PENGUIN_SIZE), 0, 2 / 25⟩ PENGUIN_SIZE).x =
      -(SCENE_WIDTH + PENGUIN_SIZE) ∧
    (checkBounds ⟨SCENE_WIDTH + PENGUIN_SIZE, 0, 2 / 25⟩ PENGUIN_SIZE).x =
      -(SCENE_WIDTH + PENGUIN_SIZE) :=
  ⟨by norm_num [SCENE_WIDTH, PENGUIN_SIZE],
    (checkBounds_boundary ⟨0, 0, 2 / 25⟩ PENGUIN_SIZE (by norm_num [SCENE_WIDTH, PENGUIN_SIZE])).1,
    (checkBounds_boundary ⟨0, 0, 2 / 25⟩ PENGUIN_SIZE (by norm_num [SCENE_WIDTH, PENGUIN_SIZE])).2.1⟩

/-- C5 as stated fails: with the avatar size `0.1`, `S = 1.1 > 0`, and the
position `(1.1, 0, 0.08)`, whose `x` is exactly `+S`, comes back with
`x = -1.1`: the coordinate is not returned unchanged. -/
theorem checkBounds_boundary_counterexample :
    0 < SCENE_WIDTH + PENGUIN_SIZE ∧
    (⟨11 / 10, 0, 2 / 25⟩ : Vec3).x = SCENE_WIDTH + PENGUIN_SIZE ∧
    (checkBounds ⟨11 / 10, 0, 2 / 25⟩ PENGUIN_SIZE).x = -11 / 10 ∧
    (checkBounds ⟨11 / 10, 0, 2 / 25⟩ PENGUIN_SIZE).x ≠ (⟨11 / 10, 0, 2 / 25⟩ : Vec3).x := by
  refine ⟨by norm_num [SCENE_WIDTH, PENGUIN_SIZE], by norm_num [SCENE_WIDTH, PENGUIN_SIZE], ?_, ?_⟩ <;>
    norm_num [checkBounds, fmod, truncToZero, SCENE_WIDTH, PENGUIN_SIZE]

/-! ## CollisionProbe: `spheresIntersection` -/

theorem sqrtLt_iff (a r : ℚ) : sqrtLt a r = true ↔ Real.sqrt (a : ℝ) < (r : ℝ) := by
  unfold sqrtLt
  rw [decide_eq_true_iff]
  constructor
  · rintro ⟨hr, h⟩
    have hr' : (0 : ℝ) < (r : ℝ) := by exact_mod_cast hr
    rw [Real.sqrt_lt' hr']
    have : (a : ℝ) < (r : ℝ) * (r : ℝ) := by exact_mod_cast h
    nlinarith
  · intro h
    have hr' : (0 : ℝ) < (r : ℝ) := lt_of_le_of_lt (Real.sqrt_nonneg _) h
    rw [Real.sqrt_lt' hr'] at h
    refine ⟨by exact_mod_cast hr', ?_⟩
    have : (a : ℝ) < (r : ℝ) * (r : ℝ) := by nlinarith
    exact_mod_cast this

theorem distanceSq_eq (c1 c2 : Vec3) :
    distanceSq c1 c2 = (c2.x - c1.x) ^ 2 + (c2.y - c1.y) ^ 2 + (c2.z - c1.z) ^ 2 := by
  show (c2.x - c1.x) * (c2.x - c1.x) + (c2.y - c1.y) * (c2.y - c1.y)
      + (c2.z - c1.z) * (c2.z - c1.z) = _
  ring

theorem spheresIntersection_eq (c1 c2 : Vec3) (r1 r2 : ℚ) :
    spheresIntersection c1 r1 c2 r2 = sqrtLt (distanceSq c1 c2) (r1 + r2) := by
  unfold spheresIntersection
  cases sqrtLt (distanceSq c1 c2) (r1 + r2) <;> rfl

/-! ## Avatar movement: `checkTreeCollisions`, `moveBirdForward`, `moveBirdBackward` -/

/-- The obstacle test never returns `false`: it returns `true` or nothing. -/
theorem checkTreeCollisions_ne_some_false (w : World) (p : Vec3) :
    checkTreeCollisions w p ≠ some false := by
  unfold checkTreeCollisions
  simp only
  split_ifs <;> simp

/-- The obstacle test returns `true` when a palm tree that is not destroyed
intersects the tentative avatar sphere. -/
theorem checkTreeCollisions_of_palm_tree (w : World) (p : Vec3) (t : PalmTreeObject)
    (ht : t = w.gameObjects.palmTree1 ∨ t = w.gameObjects.palmTree2 ∨
      t = w.gameObjects.palmTree3 ∨ t = w.gameObjects.palmTree4)
    (hd : t.destroyed = false)
    (hi : spheresIntersection p w.gameObjects.penguin.size t.position t.size = true) :
    checkTreeCollisions w p = some true := by
  unfold checkTreeCollisions
  simp only
  rcases ht with h | h | h | h <;> subst h <;> split_ifs <;> simp_all

/-- Control reaches the end of the obstacle test, where nothing is returned,
exactly when no palm tree that is not destroyed intersects the tentative sphere. -/
theorem checkTreeCollisions_eq_none_iff (w : World) (p : Vec3) :
    checkTreeCollisions w p = none ↔
      ∀ t : PalmTreeObject,
        (t = w.gameObjects.palmTree1 ∨ t = w.gameObjects.palmTree2 ∨
          t = w.gameObjects.palmTree3 ∨ t = w.gameObjects.palmTree4) →
        t.destroyed = false →
        spheresIntersection p w.gameObjects.penguin.size t.position t.size = false := by
  constructor
  · intro h t ht hd
    by_contra hi
    rw [Bool.not_eq_false] at hi
    rw [checkTreeCollisions_of_palm_tree w p t ht hd hi] at h
    exact Option.noConfusion h
  · intro h
    have h1 := h w.gameObjects.palmTree1 (Or.inl rfl)
    have h2 := h w.gameObjects.palmTree2 (Or.inr (Or.inl rfl))
    have h3 := h w.gameObjects.palmTree3 (Or.inr (Or.inr (Or.inl rfl)))
    have h4 := h w.gameObjects.palmTree4 (Or.inr (Or.inr (Or.inr rfl)))
    unfold checkTreeCollisions
    simp only
    split_ifs with c1 c2 c3 c4
    · rw [h1 c1.1] at c1; exact absurd c1.2 (by simp)
    · rw [h2 c2.1] at c2; exact absurd c2.2 (by simp)
    · rw [h3 c3.1] at c3; exact absurd c3.2 (by simp)
    · rw [h4 c4.1] at c4; exact absurd c4.2 (by simp)
    · rfl

/-- A move of a destroyed avatar is rejected. -/
theorem commitMove_of_destroyed (w : World) (p : Vec3)
    (h : w.gameObjects.penguin.destroyed = true) : commitMove w p = some w := by
  unfold commitMove
  rw [if_pos h]

/-- A move is rejected when the obstacle test returns `true`. -/
theorem commitMove_of_blocked (w : World) (p : Vec3)
    (h : checkTreeCollisions w p = some true) : commitMove w p = some w := by
  unfold commitMove
  rw [h]
  split_ifs <;> rfl

/-- The guarded assignment has no defined outcome when the avatar is not
destroyed and the obstacle test returns nothing. -/
theorem commitMove_of_no_return (w : World) (p : Vec3)
    (hd : w.gameObjects.penguin.destroyed = false) (h : checkTreeCollisions w p = none) :
    commitMove w p = none := by
  unfold commitMove
  rw [h, if_neg (by simp [hd])]

/-- Whenever the guarded assignment has a defined outcome, the move was rejected. -/
theorem commitMove_eq_some (w w1 : World) (p : Vec3) (h : commitMove w p = some w1) :
    w1 = w := by
  unfold commitMove at h
  split_ifs at h with hd
  · exact (Option.some.inj h).symm
  · have hne := checkTreeCollisions_ne_some_false w p
    revert h hne
    cases checkTreeCollisions w p with
    | none => intro h; exact Option.noConfusion h
    | some b =>
      cases b with
      | true => intro h _; exact (Option.some.inj h).symm
      | false => intro _ hne; exact absurd rfl hne

/-- The obstacle test in closed form: `true` when a palm tree blocks, and no
value otherwise. -/
theorem checkTreeCollisions_eq (w : World) (p : Vec3) :
    checkTreeCollisions w p = if blockedByPalmTree w p then some true else none := by
  unfold checkTreeCollisions blockedByPalmTree
  simp only [List.any_cons, List.any_nil, Bool.or_false]
  cases w.gameObjects.palmTree1.destroyed <;> cases w.gameObjects.palmTree2.destroyed <;>
    cases w.gameObjects.palmTree3.destroyed <;> cases w.gameObjects.palmTree4.destroyed <;>
    cases spheresIntersection p w.gameObjects.penguin.size
      w.gameObjects.palmTree1.position w.gameObjects.palmTree1.size <;>
    cases spheresIntersection p w.gameObjects.penguin.size
      w.gameObjects.palmTree2.position w.gameObjects.palmTree2.size <;>
    cases spheresIntersection p w.gameObjects.penguin.size
      w.gameObjects.palmTree3.position w.gameObjects.palmTree3.size <;>
    cases spheresIntersection p w.gameObjects.penguin.size
      w.gameObjects.palmTree4.position w.gameObjects.palmTree4.size <;>
    simp

/-- The guarded assignment in closed form: the move is rejected for a
destroyed avatar or a blocking palm tree, and has no defined outcome otherwise. -/
theorem commitMove_eq (w : World) (p : Vec3) :
    commitMove w p =
      if w.gameObjects.penguin.destroyed = true ∨ blockedByPalmTree w p = true then some w
      else none := by
  unfold commitMove
  rw [checkTreeCollisions_eq]
  cases w.gameObjects.penguin.destroyed <;> cases blockedByPalmTree w p <;> simp

/-- C7, at the input where the code departs from it: right after a restart
the avatar is not destroyed and, for the step 0.05, neither the tentative
forward position nor the tentative backward one is blocked by a palm tree, so
the move is to be committed; `checkTreeCollisions` reaches its end without
returning a value and neither `moveBirdForward` nor `moveBirdBackward` has a
defined outcome. -/
theorem moveBird_commit_returns_nothing :
    restartWorld.gameObjects.penguin.destroyed = false ∧
    blockedByPalmTree restartWorld
      (restartWorld.gameObjects.penguin.position +
        PENGUIN_LENGTH_INCREMENT * restartWorld.gameObjects.penguin.direction) = false ∧
    blockedByPalmTree restartWorld
      (restartWorld.gameObjects.penguin.position -
        PENGUIN_LENGTH_INCREMENT * restartWorld.gameObjects.penguin.direction) = false ∧
    checkTreeCollisions restartWorld
      (restartWorld.gameObjects.penguin.position +
        PENGUIN_LENGTH_INCREMENT * restartWorld.gameObjects.penguin.direction) = none ∧
    moveBirdForward restartWorld PENGUIN_LENGTH_INCREMENT = none ∧
    moveBirdBackward restartWorld PENGUIN_LENGTH_INCREMENT = none := by
  have hd : restartWorld.gameObjects.penguin.destroyed = false := by decide!
  have hf : blockedByPalmTree restartWorld
      (restartWorld.gameObjects.penguin.position +
        PENGUIN_LENGTH_INCREMENT * restartWorld.gameObjects.penguin.direction) = false := by
    decide!
  have hb : blockedByPalmTree restartWorld
      (restartWorld.gameObjects.penguin.position -
        PENGUIN_LENGTH_INCREMENT * restartWorld.gameObjects.penguin.direction) = false := by
    decide!
  refine ⟨hd, hf, hb, ?_, ?_, ?_⟩
  · rw [checkTreeCollisions_eq, hf]; rfl
  · show commitMove _ _ = none
    rw [commitMove_eq, hd, hf]; rfl
  · show commitMove _ _ = none
    rw [commitMove_eq, hd, hb]; rfl

theorem turnBirdLeft_viewAngle (m : Trig) (w : World) (d : ℚ) :
    (turnBirdLeft m w d).gameObjects.penguin.viewAngle =
      if w.gameObjects.penguin.viewAngle + d > 360 then w.gameObjects.penguin.viewAngle + d - 360
      else w.gameObjects.penguin.viewAngle + d := rfl

theorem turnBirdRight_viewAngle (m : Trig) (w : World) (d : ℚ) :
    (turnBirdRight m w d).gameObjects.penguin.viewAngle =
      if w.gameObjects.penguin.viewAngle - d < 0 then w.gameObjects.penguin.viewAngle - d + 360
      else w.gameObjects.penguin.viewAngle - d := rfl

theorem restartGame_viewAngle (m : Trig) (reader : INIReader) (elapsedMs : ℤ) (w : World) :
    (restartGame m reader elapsedMs w).gameObjects.penguin.viewAngle = 100 := rfl

/-- The part of the heading range that the code keeps: from a heading in
`[0, 360)`, a right turn by 2.5 degrees gives a heading in `[0, 360)` and a
left turn gives one in `[0, 360]`, which is below 360 unless the heading was
exactly 357.5. -/
theorem turnBird_viewAngle_range (m : Trig) (w : World)
    (h0 : 0 ≤ w.gameObjects.penguin.viewAngle) (h1 : w.gameObjects.penguin.viewAngle < 360) :
    (0 ≤ (turnBirdRight m w PENGUIN_VIEW_ANGLE_DELTA).gameObjects.penguin.viewAngle ∧
      (turnBirdRight m w PENGUIN_VIEW_ANGLE_DELTA).gameObjects.penguin.viewAngle < 360) ∧
    (0 ≤ (turnBirdLeft m w PENGUIN_VIEW_ANGLE_DELTA).gameObjects.penguin.viewAngle ∧
      (turnBirdLeft m w PENGUIN_VIEW_ANGLE_DELTA).gameObjects.penguin.viewAngle ≤ 360) ∧
    (w.gameObjects.penguin.viewAngle ≠ 715 / 2 →
      (turnBirdLeft m w PENGUIN_VIEW_ANGLE_DELTA).gameObjects.penguin.viewAngle < 360) := by
  rw [turnBirdRight_viewAngle, turnBirdLeft_viewAngle]
  unfold PENGUIN_VIEW_ANGLE_DELTA
  refine ⟨?_, ?_, ?_⟩
  · split_ifs <;> constructor <;> linarith
  · split_ifs <;> constructor <;> linarith
  · intro hne
    split_ifs with h
    · linarith
    · rcases lt_or_eq_of_le (not_lt.mp h) with h2 | h2
      · exact h2
      · exact absurd (by linarith) hne

/-- The heading after `k` left turns by 2.5 degrees from the restart heading,
as long as `k ≤ 104`. -/
theorem turnBirdLeft_iterate_viewAngle (m : Trig) (w : World)
    (hw : w.gameObjects.penguin.viewAngle = 100) (k : ℕ) (hk : k ≤ 104) :
    (Nat.iterate (fun v => turnBirdLeft m v PENGUIN_VIEW_ANGLE_DELTA) k w).gameObjects.penguin.viewAngle
      = 100 + 5 / 2 * (k : ℚ) := by
  induction k with
  | zero => simp [hw]
  | succ n ih =>
    have hn : (n : ℚ) + 1 ≤ 104 := by exact_mod_cast hk
    rw [Function.iterate_succ_apply', turnBirdLeft_viewAngle, ih (Nat.le_of_succ_le hk)]
    unfold PENGUIN_VIEW_ANGLE_DELTA
    rw [if_neg (by linarith)]
    push_cast
    ring

/-- C9, at the input where the code departs from it: from the heading 357.5,
which lies in `[0, 360)` and is the heading after 103 left turns from the
restart heading of 100 degrees, `turnBirdLeft (2.5)` leaves `viewAngle` equal to
360, outside `[0, 360)`, where `(357.5 + 2.5) mod 360` is 0. -/
theorem turnBirdLeft_reaches_360 (m : Trig) (reader : INIReader) (elapsedMs : ℤ) (w : World) :
    (Nat.iterate (fun v => turnBirdLeft m v PENGUIN_VIEW_ANGLE_DELTA) 103
        (restartGame m reader elapsedMs w)).gameObjects.penguin.viewAngle = 715 / 2 ∧
    (turnBirdLeft m
        (Nat.iterate (fun v => turnBirdLeft m v PENGUIN_VIEW_ANGLE_DELTA) 103
          (restartGame m reader elapsedMs w))
        PENGUIN_VIEW_ANGLE_DELTA).gameObjects.penguin.viewAngle = 360 ∧
    ¬ (turnBirdLeft m
        (Nat.iterate (fun v => turnBirdLeft m v PENGUIN_VIEW_ANGLE_DELTA) 103
          (restartGame m reader elapsedMs w))
        PENGUIN_VIEW_ANGLE_DELTA).gameObjects.penguin.viewAngle < 360 := by
  have h103 := turnBirdLeft_iterate_viewAngle m (restartGame m reader elapsedMs w)
    (restartGame_viewAngle m reader elapsedMs w) 103 (by norm_num)
  have h104 : (turnBirdLeft m
        (Nat.iterate (fun v => turnBirdLeft m v PENGUIN_VIEW_ANGLE_DELTA) 103
          (restartGame m reader elapsedMs w))
        PENGUIN_VIEW_ANGLE_DELTA).gameObjects.penguin.viewAngle = 360 := by
    rw [turnBirdLeft_viewAngle, h103]
    norm_num [PENGUIN_VIEW_ANGLE_DELTA]
  refine ⟨?_, h104, ?_⟩
  · rw [h103]; norm_num
  · rw [h104]; norm_num

/-- The heading example of the specification: a left turn by 2.5 degrees from
359 gives 1.5. -/
theorem turnBirdLeft_from_359 (m : Trig) (w : World)
    (hw : w.gameObjects.penguin.viewAngle = 359) :
    (turnBirdLeft m w PENGUIN_VIEW_ANGLE_DELTA).gameObjects.penguin.viewAngle = 3 / 2 := by
  rw [turnBirdLeft_viewAngle, hw]
  norm_num [PENGUIN_VIEW_ANGLE_DELTA]

/-! ## Collision resolution: `checkCollisions` -/

theorem KeepsCamera.refl (w : World) : KeepsCamera w w := ⟨rfl, id⟩

theorem KeepsCamera.trans {w w1 w2 : World} (h1 : KeepsCamera w w1) (h2 : KeepsCamera w1 w2) :
    KeepsCamera w w2 :=
  ⟨h2.1.trans h1.1, fun h => h2.2 (h1.2 h)⟩

theorem KeepsCamera.of_gameState_eq {w w1 : World} (h : w1.gameState = w.gameState) :
    KeepsCamera w w1 := by
  unfold KeepsCamera
  rw [h]
  exact ⟨rfl, id⟩

theorem keepsCamera_setKey (w : World) (key : Fin KEYS_COUNT) (b : Bool) :
    KeepsCamera w (setKey w key b) := ⟨rfl, id⟩

theorem keepsCamera_insertExplosion (w : World) (p : Vec3) :
    KeepsCamera w (insertExplosion w p) := ⟨rfl, id⟩

theorem keepsCamera_checkCollisions (w : World) : KeepsCamera w (checkCollisions w) := by
  unfold checkCollisions
  simp only
  split_ifs
  · exact ⟨rfl, fun _ => rfl⟩
  · exact KeepsCamera.refl w

theorem keepsCamera_updateObjects (t : ℚ) (w : World) : KeepsCamera w (updateObjects t w) :=
  ⟨rfl, id⟩

theorem keepsCamera_teleport (r1 r2 : ℚ) (w : World) : KeepsCamera w (teleport r1 r2 w) :=
  ⟨rfl, id⟩

theorem keepsCamera_reloadConfig (reader : INIReader) (w : World) :
    KeepsCamera w (reloadConfig reader w) := ⟨rfl, id⟩

theorem keepsCamera_createMissile (m : Trig) (ms : ℤ) (w : World) (p d : Vec3) :
    KeepsCamera w (createMissile m ms w p d) := by
  unfold createMissile
  simp only
  split_ifs
  · exact KeepsCamera.refl w
  · exact ⟨rfl, id⟩

theorem keepsCamera_tickBannerTime (w : World) : KeepsCamera w (tickBannerTime w) := by
  unfold tickBannerTime
  split_ifs
  · cases w.gameObjects.bannerObject with
    | none => exact KeepsCamera.refl w
    | some b => exact ⟨rfl, id⟩
  · exact KeepsCamera.refl w

theorem keepsCamera_tickSparrow (m : Trig) (w : World) : KeepsCamera w (tickSparrow m w) :=
  ⟨rfl, id⟩

theorem keepsCamera_tickLaunch (m : Trig) (ms : ℤ) (w : World) :
    KeepsCamera w (tickLaunch m ms w) := by
  unfold tickLaunch
  split_ifs
  · exact keepsCamera_createMissile m ms w _ _
  · exact KeepsCamera.refl w

theorem keepsCamera_tickGameOver (w : World) : KeepsCamera w (tickGameOver w) := by
  unfold tickGameOver
  split_ifs
  · simp only
    cases (setKey w KEY_SPACE false).gameObjects.bannerObject with
    | none => exact ⟨rfl, id⟩
    | some b => exact ⟨rfl, id⟩
  · exact KeepsCamera.refl w

theorem keepsCamera_timerAfterKeys (m : Trig) (ms : ℤ) (w : World) :
    KeepsCamera w (timerAfterKeys m ms w) := by
  unfold timerAfterKeys
  exact (keepsCamera_tickBannerTime w).trans
    ((keepsCamera_tickSparrow m _).trans
      ((keepsCamera_updateObjects _ _).trans
        ((keepsCamera_tickLaunch m ms _).trans
          ((keepsCamera_checkCollisions _).trans (keepsCamera_tickGameOver _)))))

theorem whenKey_gameState (key : Fin KEYS_COUNT) (action : World → World) (w : World)
    (h : ∀ v, (action v).gameState = v.gameState) :
    (whenKey key action w).gameState = w.gameState := by
  unfold whenKey
  split_ifs
  · exact h w
  · rfl

/-- An avatar move that has an outcome leaves the world as it was. -/
theorem whenKeyOpt_move_eq_some (key : Fin KEYS_COUNT) (f : World → Vec3) (w w1 : World)
    (h : whenKeyOpt key (fun v => commitMove v (f v)) w = some w1) : w1 = w := by
  unfold whenKeyOpt at h
  split_ifs at h
  · exact commitMove_eq_some w w1 _ h
  · exact (Option.some.inj h).symm

/-- The key actions of a tick leave `gameState` as it was. -/
theorem timerKeys_gameState (m : Trig) (w w1 : World) (h : timerKeys m w = some w1) :
    w1.gameState = w.gameState := by
  unfold timerKeys at h
  simp only [Option.bind_eq_some] at h
  obtain ⟨w3, h3, w4, h4, h8⟩ := h
  have e3 : w3 = _ := whenKeyOpt_move_eq_some KEY_W
    (fun v => v.gameObjects.penguin.position +
      PENGUIN_LENGTH_INCREMENT * v.gameObjects.penguin.direction) _ w3 h3
  have e4 : w4 = w3 := whenKeyOpt_move_eq_some KEY_S
    (fun v => v.gameObjects.penguin.position -
      PENGUIN_LENGTH_INCREMENT * v.gameObjects.penguin.direction) w3 w4 h4
  rw [← Option.some.inj h8]
  rw [whenKey_gameState _ _ _ (by intro v; rfl), whenKey_gameState _ _ _ (by intro v; rfl),
    whenKey_gameState _ _ _ (by intro v; rfl), whenKey_gameState _ _ _ (by intro v; rfl), e4, e3,
    whenKey_gameState _ _ _ (by intro v; rfl), whenKey_gameState _ _ _ (by intro v; rfl)]

theorem keepsCamera_timerCallback (m : Trig) (e1 e2 : ℤ) (w w1 : World)
    (h : timerCallback m e1 e2 w = some w1) : KeepsCamera w w1 := by
  unfold timerCallback at h
  simp only [Option.map_eq_some'] at h
  obtain ⟨w8, h8, rfl⟩ := h
  have hg := timerKeys_gameState m _ w8 h8
  have hk : KeepsCamera w w8 := by
    unfold KeepsCamera
    rw [hg]
    exact ⟨rfl, id⟩
  exact hk.trans (keepsCamera_timerAfterKeys m e2 w8)

theorem restartGame_cameraElevationAngle (m : Trig) (reader : INIReader) (ms : ℤ) (w : World) :
    (restartGame m reader ms w).gameState.cameraElevationAngle = 0 := rfl

theorem restartGame_gameOver (m : Trig) (reader : INIReader) (ms : ℤ) (w : World) :
    (restartGame m reader ms w).gameState.gameOver = false := rfl

theorem keepsCamera_ite {c : Prop} [Decidable c] {w a b : World}
    (ha : c → KeepsCamera w a) (hb : ¬ c → KeepsCamera w b) :
    KeepsCamera w (if c then a else b) := by
  split_ifs with h
  · exact ha h
  · exact hb h

theorem keepsCamera_keyboardCallback (m : Trig) (reader : INIReader) (ms : ℤ) (r1 r2 : ℚ)
    (key : Char) (w : World) (hkey : key ≠ 'r') :
    KeepsCamera w (keyboardCallback m reader ms r1 r2 key w) := by
  unfold keyboardCallback
  repeat' refine keepsCamera_ite (fun _ => ?_) (fun _ => ?_)
  all_goals first
    | exact absurd (by assumption) hkey
    | exact ⟨rfl, id⟩

theorem keepsCamera_keyboardUpCallback (key : Char) (w : World) :
    KeepsCamera w (keyboardUpCallback key w) := by
  unfold keyboardUpCallback
  repeat' refine keepsCamera_ite (fun _ => ?_) (fun _ => ?_)
  all_goals exact ⟨rfl, id⟩

theorem keepsCamera_specialKeySwitch (key : ℤ) (b : Bool) (w : World) :
    KeepsCamera w (specialKeySwitch key b w) := by
  unfold specialKeySwitch
  repeat' refine keepsCamera_ite (fun _ => ?_) (fun _ => ?_)
  all_goals exact ⟨rfl, id⟩

theorem keepsCamera_specialKeyboardCallback (key : ℤ) (w : World) :
    KeepsCamera w (specialKeyboardCallback key w) :=
  keepsCamera_ite (fun _ => KeepsCamera.refl w) (fun _ => keepsCamera_specialKeySwitch key true w)

theorem keepsCamera_specialKeyboardUpCallback (key : ℤ) (w : World) :
    KeepsCamera w (specialKeyboardUpCallback key w) :=
  keepsCamera_ite (fun _ => KeepsCamera.refl w) (fun _ => keepsCamera_specialKeySwitch key false w)

theorem keepsCamera_mouseCallback (button state : ℤ) (id : ℕ) (w : World) :
    KeepsCamera w (mouseCallback button state id w) := by
  unfold mouseCallback
  repeat' refine keepsCamera_ite (fun _ => ?_) (fun _ => ?_)
  all_goals exact ⟨rfl, fun h => h⟩

theorem keepsCamera_reshapeCallback (a b : ℤ) (w : World) :
    KeepsCamera w (reshapeCallback a b w) := ⟨rfl, id⟩

theorem keepsCamera_menuCamera (id : ℤ) (w : World) : KeepsCamera w (menuCamera id w) := by
  unfold menuCamera
  repeat' refine keepsCamera_ite (fun _ => ?_) (fun _ => ?_)
  all_goals exact ⟨rfl, fun h => h⟩

theorem keepsCamera_menuFog (id : ℤ) (w : World) : KeepsCamera w (menuFog id w) := by
  unfold menuFog
  repeat' refine keepsCamera_ite (fun _ => ?_) (fun _ => ?_)
  all_goals exact ⟨rfl, fun h => h⟩

theorem keepsCamera_menuLight (id : ℤ) (w : World) : KeepsCamera w (menuLight id w) := by
  unfold menuLight
  repeat' refine keepsCamera_ite (fun _ => ?_) (fun _ => ?_)
  all_goals exact ⟨rfl, fun h => h⟩

theorem keepsCamera_menu (m : Trig) (reader : INIReader) (ms : ℤ) (id : ℤ) (w : World)
    (hid : id ≠ 1) : KeepsCamera w (menu m reader ms id w) := by
  unfold menu
  refine keepsCamera_ite (fun _ => ⟨rfl, fun _ => rfl⟩) (fun _ => ?_)
  exact keepsCamera_ite (fun h => absurd h hid) (fun _ => KeepsCamera.refl w)

/-- The elevation angle after a passive mouse motion, in closed form. -/
theorem passiveMouseMotionCallback_angle (mouseX mouseY : ℤ) (w : World) :
    (passiveMouseMotionCallback mouseX mouseY w).gameState.cameraElevationAngle =
      if mouseY ≠ Int.tdiv w.gameState.windowHeight 2 ∧
          |w.gameState.cameraElevationAngle +
            (1 / 2) * ((w.gameState.windowHeight - mouseY -
              Int.tdiv w.gameState.windowHeight 2 : ℤ) : ℚ)| < CAMERA_ELEVATION_MAX
      then w.gameState.cameraElevationAngle +
            (1 / 2) * ((w.gameState.windowHeight - mouseY -
              Int.tdiv w.gameState.windowHeight 2 : ℤ) : ℚ)
      else w.gameState.cameraElevationAngle := by
  unfold passiveMouseMotionCallback
  simp only
  by_cases h1 : mouseY ≠ Int.tdiv w.gameState.windowHeight 2
  · rw [if_pos h1]
    split_ifs with h2 h3 h3
    · rfl
    · exact absurd ⟨h1, h2⟩ h3
    · exact absurd h3.2 h2
    · rfl
  · rw [if_neg h1, if_neg (fun h => h1 h.1)]

theorem passiveMouseMotionCallback_gameOver (mouseX mouseY : ℤ) (w : World) :
    (passiveMouseMotionCallback mouseX mouseY w).gameState.gameOver = w.gameState.gameOver := by
  unfold passiveMouseMotionCallback
  simp only
  split_ifs <;> rfl

theorem passiveMouseMotionCallback_bound (mouseX mouseY : ℤ) (w : World)
    (h : |w.gameState.cameraElevationAngle| ≤ CAMERA_ELEVATION_MAX) :
    |(passiveMouseMotionCallback mouseX mouseY w).gameState.cameraElevationAngle|
      ≤ CAMERA_ELEVATION_MAX := by
  rw [passiveMouseMotionCallback_angle]
  split_ifs with h1
  · exact le_of_lt h1.2
  · exact h

/-! ## The tick of a destroyed or resting avatar -/

theorem whenKey_turn_destroyed (key : Fin KEYS_COUNT) (f : World → ℚ) (m : Trig) (w : World) :
    (whenKey key (fun v => setHeading m v (f v)) w).gameObjects.penguin.destroyed =
      w.gameObjects.penguin.destroyed := by
  unfold whenKey
  split_ifs <;> rfl

/-- The key actions of a tick have an outcome when the avatar is destroyed or
neither `W` nor `S` is pressed: the moves are then skipped or rejected. -/
theorem timerKeys_of_no_move (m : Trig) (w : World)
    (h : w.gameObjects.penguin.destroyed = true ∨
      (w.gameState.keyMap KEY_W = false ∧ w.gameState.keyMap KEY_S = false)) :
    timerKeys m w = some
      (whenKey KEY_E (fun v => decreaseBirdHeight v PENGUIN_LENGTH_INCREMENT)
        (whenKey KEY_Q (fun v => increaseBirdHeight v PENGUIN_LENGTH_INCREMENT)
          (whenKey KEY_DOWN_ARROW (fun v => decreaseBirdSpeed v PENGUIN_SPEED_INCREMENT)
            (whenKey KEY_UP_ARROW (fun v => increaseBirdSpeed v PENGUIN_SPEED_INCREMENT)
              (whenKey KEY_A (fun v => turnBirdLeft m v PENGUIN_VIEW_ANGLE_DELTA)
                (whenKey KEY_D (fun v => turnBirdRight m v PENGUIN_VIEW_ANGLE_DELTA) w)))))) := by
  have hg : (whenKey KEY_A (fun v => turnBirdLeft m v PENGUIN_VIEW_ANGLE_DELTA)
      (whenKey KEY_D (fun v => turnBirdRight m v PENGUIN_VIEW_ANGLE_DELTA) w)).gameState
      = w.gameState := by
    rw [whenKey_gameState _ _ _ (by intro v; rfl), whenKey_gameState _ _ _ (by intro v; rfl)]
  have hd : (whenKey KEY_A (fun v => turnBirdLeft m v PENGUIN_VIEW_ANGLE_DELTA)
      (whenKey KEY_D (fun v => turnBirdRight m v PENGUIN_VIEW_ANGLE_DELTA) w)).gameObjects.penguin.destroyed
      = w.gameObjects.penguin.destroyed := by
    have h1 := whenKey_turn_destroyed KEY_D
      (fun v => if v.gameObjects.penguin.viewAngle - PENGUIN_VIEW_ANGLE_DELTA < 0
        then v.gameObjects.penguin.viewAngle - PENGUIN_VIEW_ANGLE_DELTA + 360
        else v.gameObjects.penguin.viewAngle - PENGUIN_VIEW_ANGLE_DELTA) m w
    have h2 := whenKey_turn_destroyed KEY_A
      (fun v => if v.gameObjects.penguin.viewAngle + PENGUIN_VIEW_ANGLE_DELTA > 360
        then v.gameObjects.penguin.viewAngle + PENGUIN_VIEW_ANGLE_DELTA - 360
        else v.gameObjects.penguin.viewAngle + PENGUIN_VIEW_ANGLE_DELTA) m
      (whenKey KEY_D (fun v => turnBirdRight m v PENGUIN_VIEW_ANGLE_DELTA) w)
    exact h2.trans h1
  have hmove : ∀ (key : Fin KEYS_COUNT) (f : World → Vec3),
      (key = KEY_W ∨ key = KEY_S) →
      whenKeyOpt key (fun v => commitMove v (f v))
        (whenKey KEY_A (fun v => turnBirdLeft m v PENGUIN_VIEW_ANGLE_DELTA)
          (whenKey KEY_D (fun v => turnBirdRight m v PENGUIN_VIEW_ANGLE_DELTA) w))
      = some (whenKey KEY_A (fun v => turnBirdLeft m v PENGUIN_VIEW_ANGLE_DELTA)
          (whenKey KEY_D (fun v => turnBirdRight m v PENGUIN_VIEW_ANGLE_DELTA) w)) := by
    intro key f hkey
    unfold whenKeyOpt
    split_ifs with hp
    · rcases h with h | h
      · exact commitMove_of_destroyed _ _ (hd.trans h)
      · rw [hg] at hp
        rcases hkey with rfl | rfl
        · rw [h.1] at hp; exact absurd hp (by simp)
        · rw [h.2] at hp; exact absurd hp (by simp)
    · rfl
  unfold timerKeys
  simp only
  have hW := hmove KEY_W (fun v => v.gameObjects.penguin.position +
      PENGUIN_LENGTH_INCREMENT * v.gameObjects.penguin.direction) (Or.inl rfl)
  have hS := hmove KEY_S (fun v => v.gameObjects.penguin.position -
      PENGUIN_LENGTH_INCREMENT * v.gameObjects.penguin.direction) (Or.inr rfl)
  rw [show (whenKeyOpt KEY_W (fun v => moveBirdForward v PENGUIN_LENGTH_INCREMENT)
      (whenKey KEY_A (fun v => turnBirdLeft m v PENGUIN_VIEW_ANGLE_DELTA)
        (whenKey KEY_D (fun v => turnBirdRight m v PENGUIN_VIEW_ANGLE_DELTA) w))) = _ from hW]
  rw [Option.some_bind]
  rw [show (whenKeyOpt KEY_S (fun v => moveBirdBackward v PENGUIN_LENGTH_INCREMENT)
      (whenKey KEY_A (fun v => turnBirdLeft m v PENGUIN_VIEW_ANGLE_DELTA)
        (whenKey KEY_D (fun v => turnBirdRight m v PENGUIN_VIEW_ANGLE_DELTA) w))) = _ from hS]
  rw [Option.some_bind]

/-- A tick has an outcome when the avatar is destroyed or neither `W` nor `S`
is pressed. -/
theorem timerCallback_isSome_of_no_move (m : Trig) (e1 e2 : ℤ) (w : World)
    (h : w.gameObjects.penguin.destroyed = true ∨
      (w.gameState.keyMap KEY_W = false ∧ w.gameState.keyMap KEY_S = false)) :
    (timerCallback m e1 e2 w).isSome = true := by
  unfold timerCallback
  rw [timerKeys_of_no_move m (setElapsedTime w ((1 / 1000) * (e1 : ℚ))) h]
  rfl

/-! ## Game over -/

/-- The commands that the code does refuse once the avatar is destroyed and
the game is over: a forward move, a backward move and the teleport key. -/
theorem gameOver_moves_rejected (m : Trig) (reader : INIReader) (ms : ℤ) (r1 r2 d : ℚ)
    (w : World) (hd : w.gameObjects.penguin.destroyed = true)
    (hg : w.gameState.gameOver = true) :
    moveBirdForward w d = some w ∧ moveBirdBackward w d = some w ∧
    keyboardCallback m reader ms r1 r2 't' w = w := by
  refine ⟨commitMove_of_destroyed w _ hd, commitMove_of_destroyed w _ hd, ?_⟩
  unfold keyboardCallback
  simp [hg]

/-- C11, at the inputs where the code departs from it: in `gameOverWorld` the
avatar is destroyed and the game is over; the key `a` is still entered in the
key map and the next tick turns the avatar from the heading 100 to 102.5; the
key `q` is still entered and the next tick raises the avatar from the height
0.08 to 0.13. -/
theorem gameOver_turn_and_height_accepted :
    gameOverWorld.gameObjects.penguin.destroyed = true ∧
    gameOverWorld.gameState.gameOver = true ∧
    gameOverWorld.gameObjects.penguin.viewAngle = 100 ∧
    (timerCallback headingTable 66 66
        (keyboardCallback headingTable defaultReader 0 0 0 'a' gameOverWorld)).map
      (fun v => v.gameObjects.penguin.viewAngle) = some (205 / 2) ∧
    gameOverWorld.gameObjects.penguin.position = ⟨0, -2 / 5, 2 / 25⟩ ∧
    (timerCallback headingTable 66 66
        (keyboardCallback headingTable defaultReader 0 0 0 'q' gameOverWorld)).map
      (fun v => v.gameObjects.penguin.position) = some ⟨0, -2 / 5, 13 / 100⟩ := by
  refine ⟨by decide!, by decide!, by decide!, by decide!, by decide!, by decide!⟩

/-- C12: once `gameOver` is true, every operation other than `restartGame`
(the key `r` and the entry 1 of the menu) keeps it true: `timerCallback`
(whenever it has an outcome, which it has when the avatar is destroyed or
neither `W` nor `S` is pressed), `checkCollisions`, `updateObjects`,
`teleport`, `reloadConfig`, the keyboard callback for a key other than `r`,
the key-release, special-key and mouse callbacks, and the camera, fog and
light menus; `restartGame` sets it to false. -/
theorem gameOver_kept_until_restart (m : Trig) (w : World) (h : w.gameState.gameOver = true) :
    (∀ e1 e2 w1, timerCallback m e1 e2 w = some w1 → w1.gameState.gameOver = true) ∧
    (∀ e1 e2, (w.gameObjects.penguin.destroyed = true ∨
        (w.gameState.keyMap KEY_W = false ∧ w.gameState.keyMap KEY_S = false)) →
      ∃ w1, timerCallback m e1 e2 w = some w1 ∧ w1.gameState.gameOver = true) ∧
    (checkCollisions w).gameState.gameOver = true ∧
    (∀ t, (updateObjects t w).gameState.gameOver = true) ∧
    (∀ r1 r2, (teleport r1 r2 w).gameState.gameOver = true) ∧
    (∀ reader, (reloadConfig reader w).gameState.gameOver = true) ∧
    (∀ reader ms r1 r2 key, key ≠ 'r' →
      (keyboardCallback m reader ms r1 r2 key w).gameState.gameOver = true) ∧
    (∀ key, (keyboardUpCallback key w).gameState.gameOver = true) ∧
    (∀ key, (specialKeyboardCallback key w).gameState.gameOver = true) ∧
    (∀ key, (specialKeyboardUpCallback key w).gameState.gameOver = true) ∧
    (∀ button state id, (mouseCallback button state id w).gameState.gameOver = true) ∧
    (∀ x y, (passiveMouseMotionCallback x y w).gameState.gameOver = true) ∧
    (∀ a b, (reshapeCallback a b w).gameState.gameOver = true) ∧
    (∀ id, (menuCamera id w).gameState.gameOver = true) ∧
    (∀ id, (menuFog id w).gameState.gameOver = true) ∧
    (∀ id, (menuLight id w).gameState.gameOver = true) ∧
    (∀ reader ms id, id ≠ 1 → (menu m reader ms id w).gameState.gameOver = true) ∧
    (∀ reader ms, (restartGame m reader ms w).gameState.gameOver = false) := by
  refine ⟨?_, ?_, ?_, ?_, ?_, ?_, ?_, ?_, ?_, ?_, ?_, ?_, ?_, ?_, ?_, ?_, ?_, ?_⟩
  · intro e1 e2 w1 h1
    exact (keepsCamera_timerCallback m e1 e2 w w1 h1).2 h
  · intro e1 e2 hk
    have hs := timerCallback_isSome_of_no_move m e1 e2 w hk
    obtain ⟨w1, h1⟩ := Option.isSome_iff_exists.mp hs
    exact ⟨w1, h1, (keepsCamera_timerCallback m e1 e2 w w1 h1).2 h⟩
  · exact (keepsCamera_checkCollisions w).2 h
  · intro t; exact h
  · intro r1 r2; exact h
  · intro reader; exact h
  · intro reader ms r1 r2 key hkey
    exact (keepsCamera_keyboardCallback m reader ms r1 r2 key w hkey).2 h
  · intro key; exact (keepsCamera_keyboardUpCallback key w).2 h
  · intro key; exact (keepsCamera_specialKeyboardCallback key w).2 h
  · intro key; exact (keepsCamera_specialKeyboardUpCallback key w).2 h
  · intro button state id; exact (keepsCamera_mouseCallback button state id w).2 h
  · intro x y; rw [passiveMouseMotionCallback_gameOver]; exact h
  · intro a b; exact h
  · intro id; exact (keepsCamera_menuCamera id w).2 h
  · intro id; exact (keepsCamera_menuFog id w).2 h
  · intro id; exact (keepsCamera_menuLight id w).2 h
  · intro reader ms id hid; exact (keepsCamera_menu m reader ms id w hid).2 h
  · intro reader ms; rfl

theorem gameOver_kept_until_restart_witness :
    gameOverWorld.gameState.gameOver = true ∧
    (∃ w1, timerCallback headingTable 66 66 gameOverWorld = some w1 ∧
      w1.gameState.gameOver = true) ∧
    (keyboardCallback headingTable defaultReader 0 0 0 'o' gameOverWorld).gameState.gameOver
      = true :=
  ⟨by decide!,
    (gameOver_kept_until_restart headingTable gameOverWorld (by decide!)).2.1 66 66
      (Or.inl (by decide!)),
    (gameOver_kept_until_restart headingTable gameOverWorld (by decide!)).2.2.2.2.2.2.1
      defaultReader 0 0 0 'o' (by decide)⟩

/-! ## Camera elevation -/

/-- C18: if the absolute value of `cameraElevationAngle` is at most
`CAMERA_ELEVATION_MAX` before `passiveMouseMotionCallback`, it is so afterwards,
for every window height and mouse position; `restartGame` resets the angle to
0; and the bound holds in every reachable state. -/
theorem cameraElevationAngle_bounded (m : Trig) :
    (∀ (w : World) (mouseX mouseY : ℤ),
      |w.gameState.cameraElevationAngle| ≤ CAMERA_ELEVATION_MAX →
      |(passiveMouseMotionCallback mouseX mouseY w).gameState.cameraElevationAngle|
        ≤ CAMERA_ELEVATION_MAX) ∧
    (∀ (reader : INIReader) (ms : ℤ) (w : World),
      (restartGame m reader ms w).gameState.cameraElevationAngle = 0) ∧
    (∀ w : World, Reachable m w →
      |w.gameState.cameraElevationAngle| ≤ CAMERA_ELEVATION_MAX) := by
  refine ⟨fun w x y h => passiveMouseMotionCallback_bound x y w h, fun _ _ _ => rfl, ?_⟩
  intro w hw
  induction hw with
  | init reader ms =>
    rw [restartGame_cameraElevationAngle]
    norm_num [CAMERA_ELEVATION_MAX]
  | step e w w1 _ hstep ih =>
    have hzero : |(0 : ℚ)| ≤ CAMERA_ELEVATION_MAX := by norm_num [CAMERA_ELEVATION_MAX]
    cases e with
    | timer e1 e2 =>
      rw [(keepsCamera_timerCallback m e1 e2 w w1 hstep).1]; exact ih
    | keyboard reader ms r1 r2 key =>
      have h1 : w1 = keyboardCallback m reader ms r1 r2 key w := (Option.some.inj hstep).symm
      subst h1
      by_cases hkey : key = 'r'
      · subst hkey
        have : keyboardCallback m reader ms r1 r2 'r' w = restartGame m reader ms w := by
          unfold keyboardCallback
          simp
        rw [this, restartGame_cameraElevationAngle]; exact hzero
      · rw [(keepsCamera_keyboardCallback m reader ms r1 r2 key w hkey).1]; exact ih
    | keyboardUp key =>
      rw [← Option.some.inj hstep, (keepsCamera_keyboardUpCallback key w).1]; exact ih
    | special key =>
      rw [← Option.some.inj hstep, (keepsCamera_specialKeyboardCallback key w).1]; exact ih
    | specialUp key =>
      rw [← Option.some.inj hstep, (keepsCamera_specialKeyboardUpCallback key w).1]; exact ih
    | mouse button state id =>
      rw [← Option.some.inj hstep, (keepsCamera_mouseCallback button state id w).1]; exact ih
    | passiveMotion x y =>
      rw [← Option.some.inj hstep]
      split_ifs
      · exact passiveMouseMotionCallback_bound x y w ih
      · exact ih
    | reshape a b =>
      rw [← Option.some.inj hstep]; exact ih
    | menuCamera id =>
      rw [← Option.some.inj hstep, (keepsCamera_menuCamera id w).1]; exact ih
    | menuFog id =>
      rw [← Option.some.inj hstep, (keepsCamera_menuFog id w).1]; exact ih
    | menuLight id =>
      rw [← Option.some.inj hstep, (keepsCamera_menuLight id w).1]; exact ih
    | menu reader ms id =>
      have h1 : w1 = menu m reader ms id w := (Option.some.inj hstep).symm
      subst h1
      by_cases hid : id = 1
      · subst hid
        have : menu m reader ms 1 w = restartGame m reader ms w := by
          unfold menu
          simp
        rw [this, restartGame_cameraElevationAngle]; exact hzero
      · rw [(keepsCamera_menu m reader ms id w hid).1]; exact ih

theorem cameraElevationAngle_bounded_witness :
    |elevatedWorld.gameState.cameraElevationAngle| ≤ CAMERA_ELEVATION_MAX ∧
    |(passiveMouseMotionCallback 540 520 elevatedWorld).gameState.cameraElevationAngle|
      ≤ CAMERA_ELEVATION_MAX :=
  ⟨by decide!,
    (cameraElevationAngle_bounded headingTable).1 elevatedWorld 540 520 (by decide!)⟩

/-! ## Expiry of missiles and explosions: `updateObjects` -/

theorem updateMissile_destroyed (t : ℚ) (ms : MissileObject) :
    (updateMissile t ms).destroyed =
      (ms.destroyed || decide ((t - ms.startTime) * ms.speed > MISSILE_MAX_DISTANCE)) := by
  unfold updateMissile
  simp only
  split_ifs with h
  · rw [decide_eq_true h, Bool.or_true]
  · rw [decide_eq_false h, Bool.or_false]

/-- The missile loop keeps, in their order, the missiles that were not
destroyed and have not travelled too far, each one updated. -/
theorem updateMissiles_eq (t : ℚ) (l : List MissileObject) :
    updateMissiles t l =
      (l.filter fun ms =>
        !ms.destroyed && decide ((t - ms.startTime) * ms.speed ≤ MISSILE_MAX_DISTANCE)).map
        (updateMissile t) := by
  induction l with
  | nil => rfl
  | cons a l ih =>
    rw [updateMissiles, updateMissile_destroyed, ih, List.filter_cons]
    by_cases hd : a.destroyed = true
    · simp [hd]
    · by_cases hx : (t - a.startTime) * a.speed > MISSILE_MAX_DISTANCE
      · have hx' : ¬ (t - a.startTime) * a.speed ≤ MISSILE_MAX_DISTANCE := not_le.mpr hx
        simp [hd, hx, hx']
      · have hx' : (t - a.startTime) * a.speed ≤ MISSILE_MAX_DISTANCE := not_lt.mp hx
        simp [hd, hx, hx']

theorem updateExplosion_destroyed (t : ℚ) (e : ExplosionObject) :
    (updateExplosion t e).destroyed =
      (e.destroyed || decide (t > e.startTime + (e.textureFrames : ℚ) * e.frameDuration)) := by
  unfold updateExplosion
  simp only
  split_ifs with h
  · rw [decide_eq_true h, Bool.or_true]
  · rw [decide_eq_false h, Bool.or_false]

/-- An explosion that has not expired is only stamped with the time. -/
theorem updateExplosion_of_alive (t : ℚ) (e : ExplosionObject)
    (h : t ≤ e.startTime + (e.textureFrames : ℚ) * e.frameDuration) :
    updateExplosion t e = { e with currentTime := t } := by
  unfold updateExplosion
  rw [if_neg (not_lt.mpr h)]

theorem updateExplosions_eq (t : ℚ) (l : List ExplosionObject) :
    updateExplosions t l =
      (l.filter fun e =>
        !e.destroyed &&
          decide (t ≤ e.startTime + (e.textureFrames : ℚ) * e.frameDuration)).map
        (updateExplosion t) := by
  induction l with
  | nil => rfl
  | cons a l ih =>
    rw [updateExplosions, updateExplosion_destroyed, ih, List.filter_cons]
    by_cases hd : a.destroyed = true
    · simp [hd]
    · by_cases hx : t > a.startTime + (a.textureFrames : ℚ) * a.frameDuration
      · have hx' : ¬ t ≤ a.startTime + (a.textureFrames : ℚ) * a.frameDuration := not_le.mpr hx
        simp [hd, hx, hx']
      · have hx' : t ≤ a.startTime + (a.textureFrames : ℚ) * a.frameDuration := not_lt.mp hx
        simp [hd, hx, hx']

/-! ## No missile is ever launched -/

theorem noMissiles_ite {c : Prop} [Decidable c] {a b : World}
    (ha : c → NoMissiles a) (hb : ¬ c → NoMissiles b) : NoMissiles (if c then a else b) := by
  split_ifs with h
  · exact ha h
  · exact hb h

theorem noMissiles_restartGame (m : Trig) (reader : INIReader) (ms : ℤ) (w : World)
    (h : w.gameObjects.missiles = []) : NoMissiles (restartGame m reader ms w) :=
  ⟨rfl, h⟩

theorem whenKey_missiles (key : Fin KEYS_COUNT) (action : World → World) (w : World)
    (h : ∀ v, (action v).gameObjects.missiles = v.gameObjects.missiles) :
    (whenKey key action w).gameObjects.missiles = w.gameObjects.missiles := by
  unfold whenKey
  split_ifs
  · exact h w
  · rfl

theorem timerKeys_missiles (m : Trig) (w w1 : World) (h : timerKeys m w = some w1) :
    w1.gameObjects.missiles = w.gameObjects.missiles := by
  unfold timerKeys at h
  simp only [Option.bind_eq_some] at h
  obtain ⟨w3, h3, w4, h4, h8⟩ := h
  have e3 : w3 = _ := whenKeyOpt_move_eq_some KEY_W
    (fun v => v.gameObjects.penguin.position +
      PENGUIN_LENGTH_INCREMENT * v.gameObjects.penguin.direction) _ w3 h3
  have e4 : w4 = w3 := whenKeyOpt_move_eq_some KEY_S
    (fun v => v.gameObjects.penguin.position -
      PENGUIN_LENGTH_INCREMENT * v.gameObjects.penguin.direction) w3 w4 h4
  rw [← Option.some.inj h8]
  rw [whenKey_missiles _ _ _ (by intro v; rfl), whenKey_missiles _ _ _ (by intro v; rfl),
    whenKey_missiles _ _ _ (by intro v; rfl), whenKey_missiles _ _ _ (by intro v; rfl), e4, e3,
    whenKey_missiles _ _ _ (by intro v; rfl), whenKey_missiles _ _ _ (by intro v; rfl)]

theorem noMissiles_tickBannerTime (w : World) (h : NoMissiles w) :
    NoMissiles (tickBannerTime w) := by
  unfold tickBannerTime
  split_ifs
  · cases w.gameObjects.bannerObject with
    | none => exact h
    | some b => exact ⟨h.1, h.2⟩
  · exact h

theorem noMissiles_updateObjects (t : ℚ) (w : World) (h : NoMissiles w) :
    NoMissiles (updateObjects t w) := by
  refine ⟨h.1, ?_⟩
  show updateMissiles t w.gameObjects.missiles = []
  rw [h.2]
  rfl

theorem noMissiles_tickLaunch (m : Trig) (ms : ℤ) (w : World) (h : NoMissiles w) :
    NoMissiles (tickLaunch m ms w) := by
  unfold tickLaunch
  rw [if_neg (by rw [h.1]; simp)]
  exact h

theorem noMissiles_checkCollisions (w : World) (h : NoMissiles w) :
    NoMissiles (checkCollisions w) := by
  unfold checkCollisions
  simp only
  split_ifs
  · exact ⟨h.1, h.2⟩
  · exact h

theorem noMissiles_tickGameOver (w : World) (h : NoMissiles w) :
    NoMissiles (tickGameOver w) := by
  unfold tickGameOver
  split_ifs
  · simp only
    cases (setKey w KEY_SPACE false).gameObjects.bannerObject with
    | none => exact ⟨rfl, h.2⟩
    | some b => exact ⟨rfl, h.2⟩
  · exact h

theorem noMissiles_timerCallback (m : Trig) (e1 e2 : ℤ) (w w1 : World) (h : NoMissiles w)
    (hstep : timerCallback m e1 e2 w = some w1) : NoMissiles w1 := by
  unfold timerCallback at hstep
  simp only [Option.map_eq_some'] at hstep
  obtain ⟨w8, h8, rfl⟩ := hstep
  have hg := timerKeys_gameState m _ w8 h8
  have hm := timerKeys_missiles m _ w8 h8
  have h8' : NoMissiles w8 := by
    unfold NoMissiles
    rw [hg, hm]
    exact h
  unfold timerAfterKeys
  exact noMissiles_tickGameOver _ (noMissiles_checkCollisions _ (noMissiles_tickLaunch m e2 _
    (noMissiles_updateObjects _ _ ⟨(noMissiles_tickBannerTime w8 h8').1,
      (noMissiles_tickBannerTime w8 h8').2⟩)))

theorem noMissiles_keyboardCallback (m : Trig) (reader : INIReader) (ms : ℤ) (r1 r2 : ℚ)
    (key : Char) (w : World) (h : NoMissiles w) :
    NoMissiles (keyboardCallback m reader ms r1 r2 key w) := by
  unfold keyboardCallback
  repeat' refine noMissiles_ite (fun _ => ?_) (fun _ => ?_)
  all_goals first
    | exact ⟨h.1, h.2⟩
    | exact noMissiles_restartGame m reader ms w h.2

theorem noMissiles_keyboardUpCallback (key : Char) (w : World) (h : NoMissiles w) :
    NoMissiles (keyboardUpCallback key w) := by
  unfold keyboardUpCallback
  repeat' refine noMissiles_ite (fun _ => ?_) (fun _ => ?_)
  all_goals first
    | exact ⟨h.1, h.2⟩
    | exact ⟨rfl, h.2⟩

theorem noMissiles_specialKeySwitch (key : ℤ) (b : Bool) (w : World) (h : NoMissiles w) :
    NoMissiles (specialKeySwitch key b w) := by
  unfold specialKeySwitch
  repeat' refine noMissiles_ite (fun _ => ?_) (fun _ => ?_)
  all_goals exact ⟨h.1, h.2⟩

theorem noMissiles_mouseCallback (button state : ℤ) (id : ℕ) (w : World) (h : NoMissiles w) :
    NoMissiles (mouseCallback button state id w) := by
  unfold mouseCallback
  repeat' refine noMissiles_ite (fun _ => ?_) (fun _ => ?_)
  all_goals exact ⟨h.1, h.2⟩

theorem noMissiles_passiveMouseMotionCallback (x y : ℤ) (w : World) (h : NoMissiles w) :
    NoMissiles (passiveMouseMotionCallback x y w) := by
  unfold passiveMouseMotionCallback
  simp only
  repeat' refine noMissiles_ite (fun _ => ?_) (fun _ => ?_)
  all_goals exact ⟨h.1, h.2⟩

theorem noMissiles_menu (m : Trig) (reader : INIReader) (ms : ℤ) (id : ℤ) (w : World)
    (h : NoMissiles w) : NoMissiles (menu m reader ms id w) := by
  unfold menu
  repeat' refine noMissiles_ite (fun _ => ?_) (fun _ => ?_)
  all_goals first
    | exact ⟨h.1, h.2⟩
    | exact noMissiles_restartGame m reader ms w h.2

/-- In every reachable state the space key is not pressed and the missile
collection is empty: no callback enters the space key in the key map. -/
theorem reachable_noMissiles (m : Trig) (w : World) (hw : Reachable m w) : NoMissiles w := by
  induction hw with
  | init reader ms => exact ⟨rfl, rfl⟩
  | step e w w1 _ hstep ih =>
    cases e with
    | timer e1 e2 => exact noMissiles_timerCallback m e1 e2 w w1 ih hstep
    | keyboard reader ms r1 r2 key =>
      rw [← Option.some.inj hstep]; exact noMissiles_keyboardCallback m reader ms r1 r2 key w ih
    | keyboardUp key =>
      rw [← Option.some.inj hstep]; exact noMissiles_keyboardUpCallback key w ih
    | special key =>
      rw [← Option.some.inj hstep]
      exact noMissiles_ite (fun _ => ih) (fun _ => noMissiles_specialKeySwitch key true w ih)
    | specialUp key =>
      rw [← Option.some.inj hstep]
      exact noMissiles_ite (fun _ => ih) (fun _ => noMissiles_specialKeySwitch key false w ih)
    | mouse button state id =>
      rw [← Option.some.inj hstep]; exact noMissiles_mouseCallback button state id w ih
    | passiveMotion x y =>
      rw [← Option.some.inj hstep]
      exact noMissiles_ite (fun _ => noMissiles_passiveMouseMotionCallback x y w ih) (fun _ => ih)
    | reshape a b =>
      rw [← Option.some.inj hstep]; exact ⟨ih.1, ih.2⟩
    | menuCamera id =>
      rw [← Option.some.inj hstep]
      unfold menuCamera
      repeat' refine noMissiles_ite (fun _ => ?_) (fun _ => ?_)
      all_goals exact ⟨ih.1, ih.2⟩
    | menuFog id =>
      rw [← Option.some.inj hstep]
      unfold menuFog
      repeat' refine noMissiles_ite (fun _ => ?_) (fun _ => ?_)
      all_goals exact ⟨ih.1, ih.2⟩
    | menuLight id =>
      rw [← Option.some.inj hstep]
      unfold menuLight
      repeat' refine noMissiles_ite (fun _ => ?_) (fun _ => ?_)
      all_goals exact ⟨ih.1, ih.2⟩
    | menu reader ms id =>
      rw [← Option.some.inj hstep]; exact noMissiles_menu m reader ms id w ih

/-! ## Restart and configuration -/

/-- C17, at the inputs where the code departs from it: `reloadConfig` copies
the configured values without validating them, so with a configuration that
cannot be parsed the cat, fern and campfire sizes become 0, and with
`farCatReader` the cat position gets `x = 5`; and the campfire size is taken
from the entry `Cat.size`: with `farCatReader` it becomes 0.5 where the entry
`Campfire.size` is 0.15. -/
theorem reloadConfig_copies_unvalidated :
    (reloadConfig unparsableReader restartWorld).gameObjects.cat.size = 0 ∧
    (reloadConfig unparsableReader restartWorld).gameObjects.fern1.size = 0 ∧
    (reloadConfig unparsableReader restartWorld).gameObjects.fern2.size = 0 ∧
    (reloadConfig unparsableReader restartWorld).gameObjects.campfire.size = 0 ∧
    (reloadConfig farCatReader restartWorld).gameObjects.cat.position.x = 5 ∧
    readConfig farCatReader "Campfire.size" = 3 / 20 ∧
    (reloadConfig farCatReader restartWorld).gameObjects.campfire.size = 1 / 2 := by
  refine ⟨by decide!, by decide!, by decide!, by decide!, by decide!, by decide!, by decide!⟩

/-! ## Pointer input and camera modes -/

/-- C19, as the code has it: for a pointer offset
`dy = windowHeight - mouseY - windowHeight / 2` with
`mouseY != windowHeight / 2`, `passiveMouseMotionCallback` leaves
`cameraElevationAngle` equal to `a + 0.5 * dy` when the absolute value of
`a + 0.5 * dy` is below `CAMERA_ELEVATION_MAX`, and equal to the prior angle
`a` otherwise: an update that would leave the range is dropped, not clamped. -/
theorem passiveMouseMotionCallback_drops_overshoot (mouseX mouseY : ℤ) (w : World)
    (h : mouseY ≠ Int.tdiv w.gameState.windowHeight 2) :
    (passiveMouseMotionCallback mouseX mouseY w).gameState.cameraElevationAngle =
      if |w.gameState.cameraElevationAngle +
            (1 / 2) * ((w.gameState.windowHeight - mouseY -
              Int.tdiv w.gameState.windowHeight 2 : ℤ) : ℚ)| < CAMERA_ELEVATION_MAX
      then w.gameState.cameraElevationAngle +
            (1 / 2) * ((w.gameState.windowHeight - mouseY -
              Int.tdiv w.gameState.windowHeight 2 : ℤ) : ℚ)
      else w.gameState.cameraElevationAngle := by
  rw [passiveMouseMotionCallback_angle]
  by_cases h2 : |w.gameState.cameraElevationAngle +
            (1 / 2) * ((w.gameState.windowHeight - mouseY -
              Int.tdiv w.gameState.windowHeight 2 : ℤ) : ℚ)| < CAMERA_ELEVATION_MAX
  · rw [if_pos ⟨h, h2⟩, if_pos h2]
  · rw [if_neg (fun hc => h2 hc.2), if_neg h2]

theorem passiveMouseMotionCallback_drops_overshoot_witness :
    (520 : ℤ) ≠ Int.tdiv elevatedWorld.gameState.windowHeight 2 ∧
    (passiveMouseMotionCallback 540 520 elevatedWorld).gameState.cameraElevationAngle =
      if |elevatedWorld.gameState.cameraElevationAngle +
            (1 / 2) * ((elevatedWorld.gameState.windowHeight - 520 -
              Int.tdiv elevatedWorld.gameState.windowHeight 2 : ℤ) : ℚ)| < CAMERA_ELEVATION_MAX
      then elevatedWorld.gameState.cameraElevationAngle +
            (1 / 2) * ((elevatedWorld.gameState.windowHeight - 520 -
              Int.tdiv elevatedWorld.gameState.windowHeight 2 : ℤ) : ℚ)
      else elevatedWorld.gameState.cameraElevationAngle :=
  ⟨by decide!, passiveMouseMotionCallback_drops_overshoot 540 520 elevatedWorld (by decide!)⟩

/-- C19 as stated fails: in `elevatedWorld` the angle is 40 and the window
height 1080; the pointer at `mouseY = 520` gives the offset `dy = 20`, and the
callback leaves the angle at 40, where `min (45, max (-45, 40 + 0.5 * 20))`
is 45. -/
theorem passiveMouseMotionCallback_clamp_counterexample :
    elevatedWorld.gameState.cameraElevationAngle = 40 ∧
    elevatedWorld.gameState.windowHeight - 520 -
      Int.tdiv elevatedWorld.gameState.windowHeight 2 = 20 ∧
    (520 : ℤ) ≠ Int.tdiv elevatedWorld.gameState.windowHeight 2 ∧
    (passiveMouseMotionCallback 540 520 elevatedWorld).gameState.cameraElevationAngle = 40 ∧
    min CAMERA_ELEVATION_MAX (max (-CAMERA_ELEVATION_MAX) (40 + (1 / 2) * 20)) = 45 ∧
    (passiveMouseMotionCallback 540 520 elevatedWorld).gameState.cameraElevationAngle ≠
      min CAMERA_ELEVATION_MAX (max (-CAMERA_ELEVATION_MAX) (40 + (1 / 2) * 20)) := by
  refine ⟨by decide!, by decide!, by decide!, by decide!, by decide!, by decide!⟩

/-- The part of C20 that the code keeps: the key `c` cycles the camera mode
0, 1, 2, 0 and leaves the handler bound exactly when the new mode is 1; and
`menuCamera`, the key `c` and `restartGame` keep the mode among 0, 1 and 2. -/
theorem cameraState_cycle (m : Trig) (reader : INIReader) (ms : ℤ) (r1 r2 : ℚ) (w : World) :
    ((keyboardCallback m reader ms r1 r2 'c' w).gameState.cameraState =
      if w.gameState.cameraState = 0 then 1 else if w.gameState.cameraState = 1 then 2 else 0) ∧
    ((keyboardCallback m reader ms r1 r2 'c' w).gameState.passiveMotionBound = true ↔
      (keyboardCallback m reader ms r1 r2 'c' w).gameState.cameraState = 1) ∧
    ((w.gameState.cameraState = 0 ∨ w.gameState.cameraState = 1 ∨ w.gameState.cameraState = 2) →
      ∀ v, (v = keyboardCallback m reader ms r1 r2 'c' w ∨ (∃ id, v = menuCamera id w) ∨
          v = restartGame m reader ms w) →
        (v.gameState.cameraState = 0 ∨ v.gameState.cameraState = 1 ∨
          v.gameState.cameraState = 2)) := by
  have hc : keyboardCallback m reader ms r1 r2 'c' w =
      { w with gameState :=
        { w.gameState with
          cameraState :=
            if w.gameState.cameraState = 0 then 1
            else if w.gameState.cameraState = 1 then 2 else 0
          passiveMotionBound := decide ((if w.gameState.cameraState = 0 then (1 : ℤ)
            else if w.gameState.cameraState = 1 then 2 else 0) = 1) } } := by
    unfold keyboardCallback
    simp
  refine ⟨by rw [hc], ?_, ?_⟩
  · rw [hc]
    simp only [decide_eq_true_eq]
  · intro hw v hv
    rcases hv with rfl | ⟨id, rfl⟩ | rfl
    · rw [hc]
      simp only
      split_ifs <;> simp
    · unfold menuCamera
      split_ifs <;> first | exact hw | simp
    · have : (restartGame m reader ms w).gameState.cameraState =
          if w.gameState.cameraState = 1 then 0 else w.gameState.cameraState := by
        show (if decide (w.gameState.cameraState = 1) = true then (0 : ℤ)
          else w.gameState.cameraState) = _
        simp
      rw [this]
      split_ifs with h1
      · exact Or.inl rfl
      · exact hw

/-- C20, at the inputs where the code departs from it: after the restart the
camera mode is 0 and the handler is not bound; the camera-menu entry "First
Person View" sets the mode to 1 and leaves the handler unbound; and after the
key `c`, which sets the mode to 1 and binds the handler, the camera-menu entry
"Side View" sets the mode to 2 and leaves the handler bound. -/
theorem menuCamera_leaves_handler :
    restartWorld.gameState.cameraState = 0 ∧
    restartWorld.gameState.passiveMotionBound = false ∧
    (menuCamera 2 restartWorld).gameState.cameraState = 1 ∧
    (menuCamera 2 restartWorld).gameState.passiveMotionBound = false ∧
    (keyboardCallback headingTable defaultReader 0 0 0 'c' restartWorld).gameState.cameraState
      = 1 ∧
    (keyboardCallback headingTable defaultReader 0 0 0 'c'
      restartWorld).gameState.passiveMotionBound = true ∧
    (menuCamera 3 (keyboardCallback headingTable defaultReader 0 0 0 'c'
      restartWorld)).gameState.cameraState = 2 ∧
    (menuCamera 3 (keyboardCallback headingTable defaultReader 0 0 0 'c'
      restartWorld)).gameState.passiveMotionBound = true := by
  refine ⟨by decide!, by decide!, by decide!, by decide!, by decide!, by decide!, by decide!,
    by decide!⟩

/-! ## BillboardSolver: the model matrix of `drawExplosion` -/

theorem orthonormal_mul_transpose {r : Mat3} (h : Orthonormal r) : r * r.transpose = 1 :=
  Matrix.mul_eq_one_comm.mp h

/-- The model matrix of the billboard, entry by entry. -/
theorem billboardModelMatrix_apply (view : Mat4) (p : Vec3) (s : ℚ) (i j : Fin 4) :
    billboardModelMatrix view p s i j =
      if j = 3 then
        (if i = 0 then s * view 3 0 + p.x
          else if i = 1 then s * view 3 1 + p.y
          else if i = 2 then s * view 3 2 + p.z
          else 1)
      else
        (if i = 3 then 0 else s * view j i) := by
  unfold billboardModelMatrix glmScale glmTranslate viewRotationColumns
  fin_cases i <;> fin_cases j <;>
    simp [Matrix.mul_apply, Fin.sum_univ_four, Matrix.transpose_apply, Matrix.one_apply]

theorem castSucc_two : (Fin.castSucc (2 : Fin 3)) = (2 : Fin 4) := rfl

/-- The upper-left block of the model matrix is the size times the transpose
of the rotation block of the view matrix. -/
theorem rotationBlock_billboardModelMatrix (view : Mat4) (p : Vec3) (s : ℚ) :
    rotationBlock (billboardModelMatrix view p s) = s • (rotationBlock view).transpose := by
  ext i j
  simp only [rotationBlock, Matrix.of_apply, Matrix.smul_apply, Matrix.transpose_apply,
    smul_eq_mul, billboardModelMatrix_apply]
  fin_cases i <;> fin_cases j <;> simp [castSucc_two]

/-- The upper-left block of the model-view product is the size times the
product of the rotation block of the view matrix and its transpose. -/
theorem rotationBlock_view_mul_model (view : Mat4) (p : Vec3) (s : ℚ) :
    rotationBlock (view * billboardModelMatrix view p s) =
      s • (rotationBlock view * (rotationBlock view).transpose) := by
  ext i j
  simp only [rotationBlock, Matrix.of_apply, Matrix.smul_apply, Matrix.mul_apply,
    Matrix.transpose_apply, smul_eq_mul, billboardModelMatrix_apply, Fin.sum_univ_four,
    Fin.sum_univ_three]
  fin_cases i <;> fin_cases j <;> simp [castSucc_two] <;> ring

/-- C21: for every view matrix (last row `(0, 0, 0, 1)`) whose upper-left
block `R` is orthonormal, every position `p` and every scale `s > 0`, the model
matrix built in `drawExplosion` equals
`translate (p) * scale (s) * transpose (R)`, with `transpose (R)` as a 4 by 4
matrix of last row and column `(0, 0, 0, 1)`; and the upper-left block of the
model-view product is `s` times the identity, so that it maps the forward axis
`(0, 0, 1)` to `(0, 0, s)` with `s > 0`. -/
theorem billboard_faces_camera (view : Mat4) (p : Vec3) (s : ℚ)
    (hR : Orthonormal (rotationBlock view))
    (hrow : view 3 0 = 0 ∧ view 3 1 = 0 ∧ view 3 2 = 0) (hs : 0 < s) :
    billboardModelMatrix view p s =
      translationMatrix p * scaleMatrix s * embedRotation (rotationBlock view).transpose ∧
    rotationBlock (view * billboardModelMatrix view p s) = s • (1 : Mat3) ∧
    (rotationBlock (view * billboardModelMatrix view p s)).mulVec ![0, 0, 1] = ![0, 0, s] ∧
    0 < s := by
  have h2 : rotationBlock (view * billboardModelMatrix view p s) = s • (1 : Mat3) := by
    rw [rotationBlock_view_mul_model, orthonormal_mul_transpose hR]
  refine ⟨?_, h2, ?_, hs⟩
  · obtain ⟨h0, h1, h2'⟩ := hrow
    ext i j
    rw [billboardModelMatrix_apply]
    unfold translationMatrix scaleMatrix embedRotation rotationBlock
    fin_cases i <;> fin_cases j <;>
      simp [Matrix.mul_apply, Fin.sum_univ_four, Matrix.transpose_apply, h0, h1, h2', castSucc_two]
  · rw [h2]
    ext i
    fin_cases i <;> simp [Matrix.mulVec, Matrix.dotProduct, Fin.sum_univ_three, Matrix.one_apply]

theorem billboard_faces_camera_witness :
    Orthonormal (rotationBlock quarterTurnView) ∧
    rotationBlock (quarterTurnView * billboardModelMatrix quarterTurnView ⟨1 / 2, 0, 1 / 10⟩
      BILLBOARD_SIZE) = BILLBOARD_SIZE • (1 : Mat3) :=
  ⟨by unfold Orthonormal; decide!,
    (billboard_faces_camera quarterTurnView ⟨1 / 2, 0, 1 / 10⟩ BILLBOARD_SIZE
      (by unfold Orthonormal; decide!) ⟨by decide!, by decide!, by decide!⟩
      (by norm_num [BILLBOARD_SIZE])).2.1⟩

/-- C22, as the code has it: for any view matrix with an orthonormal rotation
block `R`, the rotation component of the model matrix, `transpose (R)`, is
orthonormal, and the upper-left block of the model matrix produced by
`drawExplosion` is the size times `transpose (R)`: its transpose times itself
is the square of the size times the identity, so that it is orthonormal
exactly when the square of the size is 1. -/
theorem billboard_block_scaled (view : Mat4) (p : Vec3) (s : ℚ)
    (hR : Orthonormal (rotationBlock view)) :
    Orthonormal (rotationBlock view).transpose ∧
    rotationBlock (billboardModelMatrix view p s) = s • (rotationBlock view).transpose ∧
    (rotationBlock (billboardModelMatrix view p s)).transpose *
        rotationBlock (billboardModelMatrix view p s) = (s * s) • (1 : Mat3) ∧
    (Orthonormal (rotationBlock (billboardModelMatrix view p s)) ↔ s * s = 1) := by
  have h1 : Orthonormal (rotationBlock view).transpose := by
    unfold Orthonormal
    rw [Matrix.transpose_transpose]
    exact orthonormal_mul_transpose hR
  have h3 : (rotationBlock (billboardModelMatrix view p s)).transpose *
        rotationBlock (billboardModelMatrix view p s) = (s * s) • (1 : Mat3) := by
    rw [rotationBlock_billboardModelMatrix, Matrix.transpose_smul, Matrix.transpose_transpose,
      Matrix.smul_mul, Matrix.mul_smul, smul_smul, orthonormal_mul_transpose hR]
  refine ⟨h1, rotationBlock_billboardModelMatrix view p s, h3, ?_⟩
  unfold Orthonormal
  rw [h3]
  constructor
  · intro h
    have := congrFun (congrFun h 0) 0
    simpa using this
  · intro h
    rw [h, one_smul]

theorem billboard_block_scaled_witness :
    Orthonormal (rotationBlock quarterTurnView) ∧
    (rotationBlock (billboardModelMatrix quarterTurnView ⟨1 / 2, 0, 1 / 10⟩ BILLBOARD_SIZE)).transpose *
        rotationBlock (billboardModelMatrix quarterTurnView ⟨1 / 2, 0, 1 / 10⟩ BILLBOARD_SIZE)
      = (BILLBOARD_SIZE * BILLBOARD_SIZE) • (1 : Mat3) :=
  ⟨by unfold Orthonormal; decide!,
    (billboard_block_scaled quarterTurnView ⟨1 / 2, 0, 1 / 10⟩ BILLBOARD_SIZE
      (by unfold Orthonormal; decide!)).2.2.1⟩

/-- C22 as stated fails: `quarterTurnView` has an orthonormal rotation block,
an explosion made by `insertExplosion` has the size `BILLBOARD_SIZE = 0.1`, and
the upper-left block of its model matrix is not orthonormal (its transpose
times itself is 0.01 times the identity). -/
theorem billboard_block_counterexample :
    Orthonormal (rotationBlock quarterTurnView) ∧
    explosionWorld.gameObjects.explosions.map (fun e => (e.position, e.size)) =
      [(⟨0, 0, 0⟩, BILLBOARD_SIZE)] ∧
    ¬ Orthonormal (rotationBlock
      (billboardModelMatrix quarterTurnView ⟨0, 0, 0⟩ BILLBOARD_SIZE)) := by
  refine ⟨by unfold Orthonormal; decide!, by decide!, ?_⟩
  unfold Orthonormal
  decide!

/-! ## The scene across a tick -/

theorem keepsScene_refl (w : World) : KeepsScene w w := ⟨rfl, rfl, rfl, rfl, rfl, rfl, rfl⟩

theorem keepsScene_trans {w w1 w2 : World} (h1 : KeepsScene w w1) (h2 : KeepsScene w1 w2) :
    KeepsScene w w2 :=
  ⟨h2.1.trans h1.1, h2.2.1.trans h1.2.1, h2.2.2.1.trans h1.2.2.1,
    h2.2.2.2.1.trans h1.2.2.2.1, h2.2.2.2.2.1.trans h1.2.2.2.2.1,
    h2.2.2.2.2.2.1.trans h1.2.2.2.2.2.1, h2.2.2.2.2.2.2.trans h1.2.2.2.2.2.2⟩

theorem keepsScene_tickBannerTime (w : World) : KeepsScene w (tickBannerTime w) := by
  unfold tickBannerTime
  split_ifs
  · cases w.gameObjects.bannerObject with
    | none => exact keepsScene_refl w
    | some b => exact ⟨rfl, rfl, rfl, rfl, rfl, rfl, rfl⟩
  · exact keepsScene_refl w

theorem keepsScene_createMissile (m : Trig) (ms : ℤ) (w : World) (p d : Vec3) :
    KeepsScene w (createMissile m ms w p d) := by
  unfold createMissile
  simp only
  split_ifs
  · exact keepsScene_refl w
  · exact ⟨rfl, rfl, rfl, rfl, rfl, rfl, rfl⟩

theorem keepsScene_tickLaunch (m : Trig) (ms : ℤ) (w : World) :
    KeepsScene w (tickLaunch m ms w) := by
  unfold tickLaunch
  split_ifs
  · exact keepsScene_createMissile m ms w _ _
  · exact keepsScene_refl w

theorem keepsScene_checkCollisions (w : World) : KeepsScene w (checkCollisions w) := by
  unfold checkCollisions
  simp only
  split_ifs
  · exact ⟨rfl, rfl, rfl, rfl, rfl, rfl, rfl⟩
  · exact keepsScene_refl w

theorem keepsScene_tickGameOver (w : World) : KeepsScene w (tickGameOver w) := by
  unfold tickGameOver
  split_ifs
  · simp only
    cases (setKey w KEY_SPACE false).gameObjects.bannerObject with
    | none => exact ⟨rfl, rfl, rfl, rfl, rfl, rfl, rfl⟩
    | some b => exact ⟨rfl, rfl, rfl, rfl, rfl, rfl, rfl⟩
  · exact keepsScene_refl w

/-- The part of a tick after the key actions keeps the targets, the heading
and the direction of the avatar, updates the orbiting flyer and wraps the
position of the avatar. -/
theorem timerAfterKeys_scene (m : Trig) (ms : ℤ) (w : World) :
    (timerAfterKeys m ms w).gameObjects.targets = w.gameObjects.targets ∧
    (timerAfterKeys m ms w).gameObjects.sparrow =
      updateSparrow m w.gameState.elapsedTime w.gameObjects.sparrow ∧
    (timerAfterKeys m ms w).gameObjects.penguin.position =
      checkBounds w.gameObjects.penguin.position w.gameObjects.penguin.size ∧
    (timerAfterKeys m ms w).gameObjects.penguin.viewAngle = w.gameObjects.penguin.viewAngle ∧
    (timerAfterKeys m ms w).gameObjects.penguin.direction = w.gameObjects.penguin.direction := by
  have h1 := keepsScene_tickBannerTime w
  have h3 : KeepsScene
      (updateObjects (tickSparrow m (tickBannerTime w)).gameState.elapsedTime
        (tickSparrow m (tickBannerTime w)))
      (timerAfterKeys m ms w) := by
    unfold timerAfterKeys
    exact keepsScene_trans (keepsScene_tickLaunch m ms _)
      (keepsScene_trans (keepsScene_checkCollisions _) (keepsScene_tickGameOver _))
  obtain ⟨a1, a2, a3, a4, a5, a6, a7⟩ := h1
  obtain ⟨b1, b2, b3, b4, b5, b6, b7⟩ := h3
  refine ⟨?_, ?_, ?_, ?_, ?_⟩
  · rw [b1]; exact a1
  · rw [b2]
    show updateSparrow m (tickBannerTime w).gameState.elapsedTime
      (tickBannerTime w).gameObjects.sparrow = _
    rw [a2, a7]
  · rw [b3]
    show checkBounds (tickBannerTime w).gameObjects.penguin.position
      (tickBannerTime w).gameObjects.penguin.size = _
    rw [a3, a6]
  · rw [b4]; exact a4
  · rw [b5]; exact a5

theorem setPenguin_setPenguin (w : World) (p q : PenguinObject) :
    setPenguin (setPenguin w p) q = setPenguin w q := rfl

theorem whenKey_eq_setPenguin (key : Fin KEYS_COUNT) (action : World → World) (w : World)
    (p : PenguinObject) (v : World) (hv : w = setPenguin v p)
    (h : ∀ u, ∃ q, action u = setPenguin u q) :
    ∃ q, whenKey key action w = setPenguin v q := by
  unfold whenKey
  split_ifs
  · obtain ⟨q, hq⟩ := h w
    exact ⟨q, by rw [hq, hv]; rfl⟩
  · exact ⟨p, hv⟩

/-- The key actions of a tick change nothing but the avatar. -/
theorem timerKeys_eq_setPenguin (m : Trig) (w w1 : World) (h : timerKeys m w = some w1) :
    ∃ p, w1 = setPenguin w p := by
  unfold timerKeys at h
  simp only [Option.bind_eq_some] at h
  obtain ⟨w3, h3, w4, h4, h8⟩ := h
  have e3 : w3 = _ := whenKeyOpt_move_eq_some KEY_W
    (fun v => v.gameObjects.penguin.position +
      PENGUIN_LENGTH_INCREMENT * v.gameObjects.penguin.direction) _ w3 h3
  have e4 : w4 = w3 := whenKeyOpt_move_eq_some KEY_S
    (fun v => v.gameObjects.penguin.position -
      PENGUIN_LENGTH_INCREMENT * v.gameObjects.penguin.direction) w3 w4 h4
  rw [← Option.some.inj h8, e4, e3]
  obtain ⟨p1, h1⟩ := whenKey_eq_setPenguin KEY_D
    (fun v => turnBirdRight m v PENGUIN_VIEW_ANGLE_DELTA) w w.gameObjects.penguin w rfl
    (fun u => ⟨_, rfl⟩)
  obtain ⟨p2, h2⟩ := whenKey_eq_setPenguin KEY_A
    (fun v => turnBirdLeft m v PENGUIN_VIEW_ANGLE_DELTA) _ p1 w h1 (fun u => ⟨_, rfl⟩)
  obtain ⟨p5, h5⟩ := whenKey_eq_setPenguin KEY_UP_ARROW
    (fun v => increaseBirdSpeed v PENGUIN_SPEED_INCREMENT) _ p2 w h2 (fun u => ⟨_, rfl⟩)
  obtain ⟨p6, h6⟩ := whenKey_eq_setPenguin KEY_DOWN_ARROW
    (fun v => decreaseBirdSpeed v PENGUIN_SPEED_INCREMENT) _ p5 w h5 (fun u => ⟨_, rfl⟩)
  obtain ⟨p7, h7⟩ := whenKey_eq_setPenguin KEY_Q
    (fun v => increaseBirdHeight v PENGUIN_LENGTH_INCREMENT) _ p6 w h6 (fun u => ⟨_, rfl⟩)
  obtain ⟨p8, h8'⟩ := whenKey_eq_setPenguin KEY_E
    (fun v => decreaseBirdHeight v PENGUIN_LENGTH_INCREMENT) _ p7 w h7 (fun u => ⟨_, rfl⟩)
  exact ⟨p8, h8'⟩


/-! ## The orbiting flyer -/

/-- The value of `fmod`, a nonnegative `x` minus the one whole multiple of
`y` that brings it into the interval from 0 to `y`. -/
theorem fmod_eq_of_range {x y : ℚ} (hx : 0 ≤ x) (hy : 0 < y) (k : ℤ)
    (hr : 0 ≤ x - (k : ℚ) * y ∧ x - (k : ℚ) * y < y) : fmod x y = x - (k : ℚ) * y := by
  obtain ⟨j, hj⟩ := fmod_eq_sub_mul x y
  obtain ⟨h0, h1⟩ := fmod_nonneg_range hx hy
  rw [hj] at h0 h1
  have hjk : j = k := by
    by_contra hne
    rcases lt_or_gt_of_ne hne with hlt | hgt
    · have h2 : (j : ℚ) + 1 ≤ k := by exact_mod_cast Int.add_one_le_of_lt hlt
      nlinarith [hr.1, hr.2]
    · have h2 : (k : ℚ) + 1 ≤ j := by exact_mod_cast Int.add_one_le_of_lt hgt
      nlinarith [hr.1, hr.2]
  rw [hj, hjk]

/-- The orbit angle after one tick. -/
theorem updateSparrow_angle (m : Trig) (t : ℚ) (sp : SparrowObject)
    (h0 : 0 ≤ sp.currentAngle) (h1 : sp.currentAngle < 360) :
    (updateSparrow m t sp).currentAngle =
      if sp.currentAngle + 5 < 360 then sp.currentAngle + 5 else sp.currentAngle + 5 - 360 := by
  show fmod (sp.currentAngle + 5) 360 = _
  split_ifs with h
  · have := fmod_eq_of_range (x := sp.currentAngle + 5) (y := 360) (by linarith) (by norm_num) 0
      (by constructor <;> push_cast <;> linarith)
    rw [this]; push_cast; ring
  · have := fmod_eq_of_range (x := sp.currentAngle + 5) (y := 360) (by linarith) (by norm_num) 1
      (by constructor <;> push_cast <;> linarith)
    rw [this]; push_cast; ring

/-! ## Avatar height -/

/-- The part of C25 that the code keeps, for `cos` and `sin` obeying
`cos ^ 2 + sin ^ 2 = 1`: the directions that `restartGame` gives the avatar and
the block, those of `createBanner` and `insertExplosion`, that of a missile
when `normalize` returns a vector of length one, and the direction after a
turn of an avatar whose direction has `z = 0`, have the squared length 1. -/
theorem directions_of_unit_length (m : Trig) (reader : INIReader) (ms : ℤ) (w : World) :
    (m.cosDeg 100 ^ 2 + m.sinDeg 100 ^ 2 = 1 →
      dot (restartGame m reader ms w).gameObjects.penguin.direction
        (restartGame m reader ms w).gameObjects.penguin.direction = 1) ∧
    dot (restartGame m reader ms w).gameObjects.block.direction
      (restartGame m reader ms w).gameObjects.block.direction = 1 ∧
    dot (createBanner w).direction (createBanner w).direction = 1 ∧
    (∀ p e, (insertExplosion w p).gameObjects.explosions = w.gameObjects.explosions ++ [e] →
      dot e.direction e.direction = 1) ∧
    (∀ ms p d e, dot (m.normalize d) (m.normalize d) = 1 →
      (createMissile m ms w p d).gameObjects.missiles = w.gameObjects.missiles ++ [e] →
      dot e.direction e.direction = 1) ∧
    (∀ a d, w.gameObjects.penguin.direction.z = 0 →
      m.cosDeg a ^ 2 + m.sinDeg a ^ 2 = 1 →
      dot (setHeading m w a).gameObjects.penguin.direction
        (setHeading m w a).gameObjects.penguin.direction = 1 ∧
      (turnBirdLeft m w d).gameObjects.penguin.direction.z = 0 ∧
      (turnBirdRight m w d).gameObjects.penguin.direction.z = 0) := by
  refine ⟨?_, ?_, ?_, ?_, ?_, ?_⟩
  · intro h
    show m.cosDeg 100 * m.cosDeg 100 + m.sinDeg 100 * m.sinDeg 100 + 0 * 0 = 1
    linear_combination h
  · show (0 : ℚ) * 0 + 1 * 1 + 0 * 0 = 1
    norm_num
  · show (0 : ℚ) * 0 + 1 * 1 + 0 * 0 = 1
    norm_num
  · intro p e he
    have h2 := List.append_cancel_left he
    rw [← List.singleton_inj.mp h2]
    show (0 : ℚ) * 0 + 0 * 0 + 1 * 1 = 1
    norm_num
  · intro ms p d e hn he
    unfold createMissile at he
    simp only at he
    split_ifs at he with hdelay
    · have := congrArg List.length he
      simp at this
    · have h2 := List.append_cancel_left he
      rw [← List.singleton_inj.mp h2]
      exact hn
  · intro a d hz h
    refine ⟨?_, hz, hz⟩
    show m.cosDeg a * m.cosDeg a + m.sinDeg a * m.sinDeg a +
      w.gameObjects.penguin.direction.z * w.gameObjects.penguin.direction.z = 1
    rw [hz]
    linear_combination h

/-- C25, at the input where the code departs from it: `restartGame` assigns
the stone the direction `(-0.1, 0.7, 0.12)`, whose squared length is 0.5144,
not 1. -/
theorem restartGame_stone_direction (m : Trig) (reader : INIReader) (ms : ℤ) (w : World) :
    (restartGame m reader ms w).gameObjects.stone.direction = ⟨-1 / 10, 7 / 10, 3 / 25⟩ ∧
    dot (restartGame m reader ms w).gameObjects.stone.direction
      (restartGame m reader ms w).gameObjects.stone.direction = 643 / 1250 ∧
    dot (restartGame m reader ms w).gameObjects.stone.direction
      (restartGame m reader ms w).gameObjects.stone.direction ≠ 1 := by
  have h : dot (restartGame m reader ms w).gameObjects.stone.direction
      (restartGame m reader ms w).gameObjects.stone.direction = 643 / 1250 := by
    show (-1 / 10 : ℚ) * (-1 / 10) + 7 / 10 * (7 / 10) + 3 / 25 * (3 / 25) = 643 / 1250
    norm_num
  refine ⟨rfl, h, ?_⟩
  rw [h]
  norm_num

/-! ## The obstacle test -/

/-- C26, where the code departs from it: `checkTreeCollisions` never returns
`false`; it returns `true` when a palm tree blocks and reaches its end without
returning a value otherwise, as for the avatar of `restartWorld` at its own
position `(0, 0, 0.08)`. -/
theorem checkTreeCollisions_returns_nothing :
    (∀ (w : World) (p : Vec3),
      checkTreeCollisions w p ≠ some false ∧
      (blockedByPalmTree w p = false → checkTreeCollisions w p = none) ∧
      (blockedByPalmTree w p = true → checkTreeCollisions w p = some true)) ∧
    blockedByPalmTree restartWorld ⟨0, 0, 2 / 25⟩ = false ∧
    checkTreeCollisions restartWorld ⟨0, 0, 2 / 25⟩ = none := by
  have hgen : ∀ (w : World) (p : Vec3),
      checkTreeCollisions w p ≠ some false ∧
      (blockedByPalmTree w p = false → checkTreeCollisions w p = none) ∧
      (blockedByPalmTree w p = true → checkTreeCollisions w p = some true) := by
    intro w p
    refine ⟨checkTreeCollisions_ne_some_false w p, ?_, ?_⟩
    · intro h; rw [checkTreeCollisions_eq, h]; rfl
    · intro h; rw [checkTreeCollisions_eq, h]; rfl
  have hb : blockedByPalmTree restartWorld ⟨0, 0, 2 / 25⟩ = false := by decide!
  exact ⟨hgen, hb, (hgen _ _).2.1 hb⟩

/-! ## A tick with no key pressed -/

theorem whenKey_of_released (key : Fin KEYS_COUNT) (action : World → World) (w : World)
    (h : w.gameState.keyMap key = false) : whenKey key action w = w := by
  unfold whenKey
  rw [if_neg (by rw [h]; simp)]

/-! ## The collision response, tick after tick -/

/-- C28, at the input where the code departs from it: `checkCollisions` adds
an explosion whenever the campfire is not destroyed and the avatar sphere
intersects it, also when the avatar is already destroyed and the game is
already over; starting from `campfireWorld`, where the game is running and no
explosion exists, consecutive ticks with the same elapsed time and no key
pressed leave one, then two, then three explosions at the position of the
campfire. -/
theorem checkCollisions_fires_every_tick :
    (∀ w : World, w.gameObjects.campfire.destroyed = false →
      spheresIntersection w.gameObjects.penguin.position w.gameObjects.penguin.size
        w.gameObjects.campfire.position w.gameObjects.campfire.size = true →
      w.gameObjects.penguin.destroyed = true → w.gameState.gameOver = true →
      (checkCollisions w).gameObjects.explosions.length =
        w.gameObjects.explosions.length + 1) ∧
    campfireWorld.gameState.gameOver = false ∧
    campfireWorld.gameObjects.penguin.destroyed = false ∧
    campfireWorld.gameObjects.explosions = [] ∧
    (timerCallback headingTable 33 33 campfireWorld).map
      (fun v => v.gameObjects.explosions.map fun e => e.position) =
      some [campfireWorld.gameObjects.campfire.position] ∧
    ((timerCallback headingTable 33 33 campfireWorld).bind
      (timerCallback headingTable 33 33)).map
      (fun v => v.gameObjects.explosions.map fun e => e.position) =
      some [campfireWorld.gameObjects.campfire.position,
        campfireWorld.gameObjects.campfire.position] ∧
    (((timerCallback headingTable 33 33 campfireWorld).bind
      (timerCallback headingTable 33 33)).bind (timerCallback headingTable 33 33)).map
      (fun v => v.gameObjects.explosions.length) = some 3 := by
  refine ⟨?_, by decide!, by decide!, by decide!, by decide!, by decide!, by decide!⟩
  intro w hd hi _ _
  unfold checkCollisions
  simp only
  rw [if_pos ⟨hd, hi⟩]
  show (w.gameObjects.explosions ++ [_]).length = _
  rw [List.length_append]
  rfl

/-! ## Targets -/

theorem targets_ite {c : Prop} [Decidable c] {a b w : World}
    (ha : c → a.gameObjects.targets = w.gameObjects.targets)
    (hb : ¬ c → b.gameObjects.targets = w.gameObjects.targets) :
    (if c then a else b).gameObjects.targets = w.gameObjects.targets := by
  split_ifs with h
  · exact ha h
  · exact hb h

theorem restartGame_targets (m : Trig) (reader : INIReader) (ms : ℤ) (w : World) :
    ∃ t1 t2 : TargetObject,
      (restartGame m reader ms w).gameObjects.targets = w.gameObjects.targets ++ [t1, t2] :=
  ⟨_, _, rfl⟩

theorem timerCallback_targets (m : Trig) (e1 e2 : ℤ) (w w1 : World)
    (h : timerCallback m e1 e2 w = some w1) :
    w1.gameObjects.targets = w.gameObjects.targets := by
  unfold timerCallback at h
  simp only [Option.map_eq_some'] at h
  obtain ⟨w8, h8, rfl⟩ := h
  obtain ⟨p, hp⟩ := timerKeys_eq_setPenguin m _ w8 h8
  rw [(timerAfterKeys_scene m e2 w8).1, hp]
  rfl

theorem keyboardCallback_targets (m : Trig) (reader : INIReader) (ms : ℤ) (r1 r2 : ℚ)
    (key : Char) (w : World) (hkey : key ≠ 'r') :
    (keyboardCallback m reader ms r1 r2 key w).gameObjects.targets = w.gameObjects.targets := by
  unfold keyboardCallback
  repeat' refine targets_ite (fun _ => ?_) (fun _ => ?_)
  all_goals first
    | exact absurd (by assumption) hkey
    | rfl

theorem step_targets (m : Trig) (e : Event) (w w1 : World) (h : step m e w = some w1)
    (he : isRestart e = false) : w1.gameObjects.targets = w.gameObjects.targets := by
  cases e with
  | timer e1 e2 => exact timerCallback_targets m e1 e2 w w1 h
  | keyboard reader ms r1 r2 key =>
    rw [← Option.some.inj h]
    exact keyboardCallback_targets m reader ms r1 r2 key w (by simpa [isRestart] using he)
  | keyboardUp key =>
    rw [← Option.some.inj h]
    unfold keyboardUpCallback
    repeat' refine targets_ite (fun _ => ?_) (fun _ => ?_)
    all_goals rfl
  | special key =>
    rw [← Option.some.inj h]
    unfold specialKeyboardCallback specialKeySwitch
    repeat' refine targets_ite (fun _ => ?_) (fun _ => ?_)
    all_goals rfl
  | specialUp key =>
    rw [← Option.some.inj h]
    unfold specialKeyboardUpCallback specialKeySwitch
    repeat' refine targets_ite (fun _ => ?_) (fun _ => ?_)
    all_goals rfl
  | mouse button state id =>
    rw [← Option.some.inj h]
    unfold mouseCallback
    repeat' refine targets_ite (fun _ => ?_) (fun _ => ?_)
    all_goals rfl
  | passiveMotion x y =>
    rw [← Option.some.inj h]
    unfold passiveMouseMotionCallback
    simp only
    repeat' refine targets_ite (fun _ => ?_) (fun _ => ?_)
    all_goals rfl
  | reshape a b =>
    rw [← Option.some.inj h]; rfl
  | menuCamera id =>
    rw [← Option.some.inj h]
    unfold menuCamera
    repeat' refine targets_ite (fun _ => ?_) (fun _ => ?_)
    all_goals rfl
  | menuFog id =>
    rw [← Option.some.inj h]
    unfold menuFog
    repeat' refine targets_ite (fun _ => ?_) (fun _ => ?_)
    all_goals rfl
  | menuLight id =>
    rw [← Option.some.inj h]
    unfold menuLight
    repeat' refine targets_ite (fun _ => ?_) (fun _ => ?_)
    all_goals rfl
  | menu reader ms id =>
    rw [← Option.some.inj h]
    have hid : id ≠ 1 := by simpa [isRestart] using he
    unfold menu
    refine targets_ite (fun _ => rfl) (fun _ => ?_)
    exact targets_ite (fun h1 => absurd h1 hid) (fun _ => rfl)

theorem step_restart (m : Trig) (e : Event) (w w1 : World) (h : step m e w = some w1)
    (he : isRestart e = true) : ∃ reader ms, w1 = restartGame m reader ms w := by
  cases e with
  | keyboard reader ms r1 r2 key =>
    have hk : key = 'r' := by simpa [isRestart] using he
    subst hk
    refine ⟨reader, ms, ?_⟩
    rw [← Option.some.inj h]
    unfold keyboardCallback
    simp
  | menu reader ms id =>
    have hk : id = 1 := by simpa [isRestart] using he
    subst hk
    refine ⟨reader, ms, ?_⟩
    rw [← Option.some.inj h]
    unfold menu
    simp
  | _ => simp [isRestart] at he

/-- C29: every call of `restartGame` appends exactly `TARGET_COUNT_MIN = 2`
targets to the collection and keeps the ones it held; `cleanUpObjects`,
`updateObjects` and `timerCallback` leave the collection as it is, as does
every event that is not a restart; so after `n` restarts the collection holds
exactly `2 * n` targets. -/
theorem targets_grow_with_restarts (m : Trig) :
    (∀ reader ms w, ∃ t1 t2 : TargetObject,
      (restartGame m reader ms w).gameObjects.targets = w.gameObjects.targets ++ [t1, t2]) ∧
    (∀ reader ms w, (restartGame m reader ms w).gameObjects.targets.length =
      w.gameObjects.targets.length + TARGET_COUNT_MIN) ∧
    (∀ w, (cleanUpObjects w).gameObjects.targets = w.gameObjects.targets) ∧
    (∀ t w, (updateObjects t w).gameObjects.targets = w.gameObjects.targets) ∧
    (∀ e1 e2 w w1, timerCallback m e1 e2 w = some w1 →
      w1.gameObjects.targets = w.gameObjects.targets) ∧
    (∀ n w, ReachableAfter m n w → w.gameObjects.targets.length = 2 * n) := by
  have hlen : ∀ reader ms w, (restartGame m reader ms w).gameObjects.targets.length =
      w.gameObjects.targets.length + TARGET_COUNT_MIN := by
    intro reader ms w
    obtain ⟨t1, t2, h⟩ := restartGame_targets m reader ms w
    rw [h, List.length_append]
    rfl
  refine ⟨restartGame_targets m, hlen, fun _ => rfl, fun _ _ => rfl,
    timerCallback_targets m, ?_⟩
  intro n w hw
  induction hw with
  | init reader ms => rw [hlen]; rfl
  | step e n w w1 _ hstep ih =>
    by_cases he : isRestart e = true
    · obtain ⟨reader, ms, rfl⟩ := step_restart m e w w1 hstep he
      rw [hlen, ih, if_pos he]
      unfold TARGET_COUNT_MIN
      ring
    · rw [step_targets m e w w1 hstep (by simpa using he), ih, if_neg he]
      rfl

theorem targets_grow_with_restarts_witness :
    ReachableAfter headingTable 2
      (restartGame headingTable defaultReader 2000 restartWorld) ∧
    (restartGame headingTable defaultReader 2000 restartWorld).gameObjects.targets.length
      = 2 * 2 :=
  ⟨ReachableAfter.step (Event.menu defaultReader 2000 1) 1 restartWorld _
      (ReachableAfter.init defaultReader 0) rfl,
    (targets_grow_with_restarts headingTable).2.2.2.2.2 2 _
      (ReachableAfter.step (Event.menu defaultReader 2000 1) 1 restartWorld _
        (ReachableAfter.init defaultReader 0) rfl)⟩

/-! ## Properties of the binary32 rounding -/

theorem bitLength_zero (fuel : ℕ) : bitLength fuel 0 = 0 := by
  cases fuel <;> simp [bitLength]

theorem bitLength_spec (fuel n : ℕ) (h : n ≤ fuel) :
    n < 2 ^ bitLength fuel n ∧ (0 < n → 2 ^ bitLength fuel n ≤ 2 * n) := by
  induction fuel generalizing n with
  | zero =>
    have h0 : n = 0 := by omega
    subst h0
    simp [bitLength]
  | succ k ih =>
    unfold bitLength
    split_ifs with h0
    · subst h0; simp
    · have hk : n / 2 ≤ k := by omega
      obtain ⟨h1, h2⟩ := ih (n / 2) hk
      rw [pow_succ]
      by_cases hz : n / 2 = 0
      · have hn1 : n = 1 := by omega
        subst hn1
        simp [bitLength_zero]
      · have h3 := h2 (by omega)
        generalize 2 ^ bitLength k (n / 2) = P at *
        constructor
        · omega
        · intro _; omega

theorem binade_spec (a : ℚ) (ha : 0 < a) :
    (2 : ℚ) ^ binade a ≤ a ∧ a < (2 : ℚ) ^ (binade a + 1) := by
  have hnum : 0 < a.num := Rat.num_pos.mpr ha
  have hN : 0 < a.num.natAbs := Int.natAbs_pos.mpr (ne_of_gt hnum)
  have hD : 0 < a.den := a.den_pos
  obtain ⟨n1, n2⟩ := bitLength_spec a.num.natAbs a.num.natAbs le_rfl
  obtain ⟨d1, d2⟩ := bitLength_spec a.den a.den le_rfl
  have n2 := n2 hN
  have d2 := d2 hD
  have hcast : ((a.num.natAbs : ℕ) : ℚ) = (a.num : ℚ) := by
    rw [← Int.cast_natCast, Int.natAbs_of_nonneg (le_of_lt hnum)]
  have haeq : a = (a.num.natAbs : ℚ) / (a.den : ℚ) := by
    rw [hcast]; exact (Rat.num_div_den a).symm
  unfold binade
  simp only
  generalize a.num.natAbs = N at *
  generalize a.den = D at *
  have hDq : (0 : ℚ) < D := by exact_mod_cast hD
  have hNq : (0 : ℚ) < N := by exact_mod_cast hN
  have e1 : (N : ℚ) < 2 ^ bitLength N N := by exact_mod_cast n1
  have e2 : (2 : ℚ) ^ bitLength N N ≤ 2 * N := by exact_mod_cast n2
  have e3 : (D : ℚ) < 2 ^ bitLength D D := by exact_mod_cast d1
  have e4 : (2 : ℚ) ^ bitLength D D ≤ 2 * D := by exact_mod_cast d2
  have hz : (2 : ℚ) ^ ((bitLength N N : ℤ) - (bitLength D D : ℤ))
      = 2 ^ bitLength N N / 2 ^ bitLength D D := by
    rw [zpow_sub₀ (by norm_num : (2 : ℚ) ≠ 0), zpow_natCast, zpow_natCast]
  have hP : (0 : ℚ) < 2 ^ bitLength N N := by positivity
  have hQ : (0 : ℚ) < 2 ^ bitLength D D := by positivity
  split_ifs with hle
  · refine ⟨hle, ?_⟩
    rw [zpow_add_one₀ (by norm_num : (2 : ℚ) ≠ 0), hz, haeq]
    generalize (2 : ℚ) ^ bitLength N N = P at *
    generalize (2 : ℚ) ^ bitLength D D = Q at *
    rw [div_mul_eq_mul_div, div_lt_div_iff₀ hDq hQ]
    nlinarith
  · push_neg at hle
    refine ⟨?_, ?_⟩
    · rw [zpow_sub_one₀ (by norm_num : (2 : ℚ) ≠ 0), hz, haeq]
      generalize (2 : ℚ) ^ bitLength N N = P at *
      generalize (2 : ℚ) ^ bitLength D D = Q at *
      rw [← div_eq_mul_inv, div_div, div_le_div_iff₀ (by positivity) hDq]
      nlinarith
    · rw [sub_add_cancel]; exact hle

theorem roundHalfEven_floor_or (z : ℚ) :
    roundHalfEven z = ⌊z⌋ ∨ roundHalfEven z = ⌊z⌋ + 1 := by
  unfold roundHalfEven
  simp only
  split_ifs <;> simp

theorem roundHalfEven_err (z : ℚ) : |((roundHalfEven z : ℤ) : ℚ) - z| ≤ 1 / 2 := by
  have h1 := Int.floor_le z
  have h2 := Int.lt_floor_add_one z
  unfold roundHalfEven
  simp only
  rw [abs_le]
  split_ifs with a b c
  · constructor <;> linarith
  · push_cast; constructor <;> linarith
  · constructor <;> linarith
  · push_cast; constructor <;> linarith

theorem roundHalfEven_intCast (n : ℤ) : roundHalfEven (n : ℚ) = n := by
  unfold roundHalfEven
  simp

theorem roundHalfEven_mono {z1 z2 : ℚ} (h : z1 ≤ z2) : roundHalfEven z1 ≤ roundHalfEven z2 := by
  have hf : ⌊z1⌋ ≤ ⌊z2⌋ := Int.floor_mono h
  rcases lt_or_eq_of_le hf with hlt | heq
  · have a1 : roundHalfEven z1 ≤ ⌊z1⌋ + 1 := by
      rcases roundHalfEven_floor_or z1 with h1 | h1 <;> omega
    have a2 : ⌊z2⌋ ≤ roundHalfEven z2 := by
      rcases roundHalfEven_floor_or z2 with h1 | h1 <;> omega
    omega
  · unfold roundHalfEven
    simp only
    rw [heq]
    split_ifs <;> first
      | omega
      | (exfalso; linarith)

theorem roundHalfEven_le_of_le {z : ℚ} {n : ℤ} (h : z ≤ n) : roundHalfEven z ≤ n := by
  have := roundHalfEven_mono h
  rwa [roundHalfEven_intCast] at this

theorem roundHalfEven_ge_of_ge {z : ℚ} {n : ℤ} (h : (n : ℚ) ≤ z) : n ≤ roundHalfEven z := by
  have := roundHalfEven_mono h
  rwa [roundHalfEven_intCast] at this

theorem two_zpow_split (e : ℤ) :
    (2 : ℚ) ^ (e + 1) = 2 ^ 24 * 2 ^ (e - 23) ∧ (2 : ℚ) ^ e = 2 ^ 23 * 2 ^ (e - 23) := by
  have h2 : (2 : ℚ) ≠ 0 := by norm_num
  constructor
  · have : e + 1 = 24 + (e - 23) := by ring
    rw [this, zpow_add₀ h2]
    norm_num
  · have : e = 23 + (e - 23) := by ring
    nth_rewrite 1 [this]
    rw [zpow_add₀ h2]
    norm_num

theorem two_zpow_min : (2 : ℚ) ^ ((-126 : ℤ) - 23) = 1 / 2 ^ 149 := by
  norm_num [zpow_neg]

/-- The exponent and the spacing that `f32` uses at a positive rational. -/
theorem ulp32_spec (q : ℚ) (hq : 0 < q) :
    ∃ e : ℤ, -126 ≤ e ∧ ulp32 q = 2 ^ (e - 23) ∧ q < 2 ^ 24 * 2 ^ (e - 23) ∧
      (2 ^ 23 * (2 : ℚ) ^ (e - 23) ≤ q ∨ e = -126) := by
  obtain ⟨b1, b2⟩ := binade_spec q hq
  refine ⟨max (binade q) (-126), le_max_right _ _, rfl, ?_, ?_⟩
  · rw [← (two_zpow_split _).1]
    refine lt_of_lt_of_le b2 (zpow_le_zpow_right₀ (by norm_num) ?_)
    have := le_max_left (binade q) (-126)
    omega
  · rcases le_total (-126) (binade q) with h | h
    · left
      rw [max_eq_left h, ← (two_zpow_split _).2]
      exact b1
    · right
      exact max_eq_right h

/-- The spacing at a positive rational whose binary exponent is known. -/
theorem ulp32_eq (q : ℚ) (e : ℤ) (hq : 0 < q) (he : -126 ≤ e)
    (hlt : q < 2 ^ 24 * 2 ^ (e - 23)) (hge : 2 ^ 23 * (2 : ℚ) ^ (e - 23) ≤ q ∨ e = -126) :
    ulp32 q = 2 ^ (e - 23) := by
  obtain ⟨b1, b2⟩ := binade_spec q hq
  rw [← (two_zpow_split e).1] at hlt
  rw [← (two_zpow_split e).2] at hge
  have h2 : (1 : ℚ) < 2 := by norm_num
  have hbe : binade q < e + 1 :=
    (zpow_lt_zpow_iff_right₀ h2).mp (lt_of_le_of_lt b1 hlt)
  unfold ulp32
  congr 2
  rcases hge with hge | hge
  · have heb : e < binade q + 1 :=
      (zpow_lt_zpow_iff_right₀ h2).mp (lt_of_le_of_lt hge b2)
    have : binade q = e := by omega
    rw [this]
    exact max_eq_left he
  · subst hge
    exact max_eq_right (by omega)

theorem ulp32_pos (q : ℚ) : 0 < ulp32 q := by
  unfold ulp32
  exact zpow_pos (by norm_num) _

theorem f32_of_pos (q : ℚ) (hq : 0 ≤ q) : f32 q = roundHalfEven (q / ulp32 q) * ulp32 q := by
  unfold f32
  rw [if_pos hq]

theorem f32_zero : f32 0 = 0 := by
  rw [f32_of_pos 0 le_rfl, zero_div]
  have : roundHalfEven 0 = 0 := by exact_mod_cast roundHalfEven_intCast 0
  rw [this]
  simp

theorem f32_neg (q : ℚ) : f32 (-q) = -f32 q := by
  rcases lt_trichotomy q 0 with h | h | h
  · have h1 : ¬ (0 ≤ q) := not_le.mpr h
    have h2 : 0 ≤ -q := by linarith
    unfold f32
    rw [if_pos h2, if_neg h1, neg_neg]
  · subst h
    simp [f32_zero]
  · have h1 : ¬ (0 ≤ -q) := by
      intro h0; linarith
    unfold f32
    rw [if_neg h1, if_pos h.le, neg_neg]

theorem f32_nonneg (q : ℚ) (hq : 0 ≤ q) : 0 ≤ f32 q := by
  rw [f32_of_pos q hq]
  have hu := ulp32_pos q
  have : (0 : ℤ) ≤ roundHalfEven (q / ulp32 q) :=
    roundHalfEven_ge_of_ge (by
      have : 0 ≤ q / ulp32 q := div_nonneg hq hu.le
      exact_mod_cast this)
  have hc : (0 : ℚ) ≤ (roundHalfEven (q / ulp32 q) : ℚ) := by exact_mod_cast this
  exact mul_nonneg hc hu.le

/-- The rounding error of `f32` at a positive rational is at most half the
spacing. -/
theorem f32_err_pos (q : ℚ) (hq : 0 < q) : |f32 q - q| ≤ ulp32 q / 2 := by
  have hu := ulp32_pos q
  rw [f32_of_pos q hq.le]
  have h := roundHalfEven_err (q / ulp32 q)
  have e : (roundHalfEven (q / ulp32 q) : ℚ) * ulp32 q - q
      = ((roundHalfEven (q / ulp32 q) : ℚ) - q / ulp32 q) * ulp32 q := by
    field_simp
  rw [e, abs_mul, abs_of_pos hu]
  calc |(roundHalfEven (q / ulp32 q) : ℚ) - q / ulp32 q| * ulp32 q
      ≤ (1 / 2) * ulp32 q := mul_le_mul_of_nonneg_right h hu.le
    _ = ulp32 q / 2 := by ring

theorem ulp32_half_le (q : ℚ) (hq : 0 < q) : ulp32 q / 2 ≤ q / 2 ^ 24 + 1 / 2 ^ 150 := by
  obtain ⟨e, he, hu, hlt, hge⟩ := ulp32_spec q hq
  rw [hu]
  rcases hge with hge | hge
  · have : (0 : ℚ) < 1 / 2 ^ 150 := by positivity
    have h3 : (2 : ℚ) ^ (e - 23) ≤ q / 2 ^ 23 := by
      rw [le_div_iff₀ (by positivity)]
      linarith
    have h4 : q / 2 ^ 23 / 2 = q / 2 ^ 24 := by ring
    linarith
  · subst hge
    rw [two_zpow_min]
    have : (0 : ℚ) ≤ q / 2 ^ 24 := by positivity
    have h5 : (1 : ℚ) / 2 ^ 149 / 2 = 1 / 2 ^ 150 := by norm_num
    linarith

/-- The rounding error of `f32`: a relative error of `2 ^ (-24)` at most, or
an absolute error of `2 ^ (-150)` at most among the subnormal numbers. -/
theorem f32_err (q : ℚ) : |f32 q - q| ≤ |q| / 2 ^ 24 + 1 / 2 ^ 150 := by
  rcases lt_trichotomy q 0 with h | h | h
  · have hp : 0 < -q := by linarith
    have e1 := f32_err_pos (-q) hp
    have e2 := ulp32_half_le (-q) hp
    rw [f32_neg] at e1
    have e3 : |f32 q - q| = |-f32 q - -q| := by
      rw [← abs_neg]; congr 1; ring
    rw [e3, abs_of_neg h]
    linarith
  · subst h
    rw [f32_zero]
    simp
  · have e1 := f32_err_pos q h
    have e2 := ulp32_half_le q h
    rw [abs_of_pos h]
    linarith

/-- The value of `f32` at a positive rational whose binary exponent is known. -/
theorem f32_eq_of (q : ℚ) (e : ℤ) (hq : 0 < q) (he : -126 ≤ e)
    (hlt : q < 2 ^ 24 * 2 ^ (e - 23)) (hge : 2 ^ 23 * (2 : ℚ) ^ (e - 23) ≤ q ∨ e = -126) :
    f32 q = roundHalfEven (q / 2 ^ (e - 23)) * 2 ^ (e - 23) := by
  rw [f32_of_pos q hq.le, ulp32_eq q e hq he hlt hge]

/-- The significand that `f32` computes lies between `2 ^ 23` (for a normal
number) and `2 ^ 24`. -/
theorem significand_bounds (q u : ℚ) (hq : 0 < q) (hu : 0 < u) (hlt : q < 2 ^ 24 * u) :
    0 ≤ roundHalfEven (q / u) ∧ roundHalfEven (q / u) ≤ 2 ^ 24 ∧
      (2 ^ 23 * u ≤ q → 2 ^ 23 ≤ roundHalfEven (q / u)) := by
  refine ⟨?_, ?_, ?_⟩
  · apply roundHalfEven_ge_of_ge
    have : 0 ≤ q / u := div_nonneg hq.le hu.le
    exact_mod_cast this
  · apply roundHalfEven_le_of_le
    rw [div_le_iff₀ hu]
    push_cast
    linarith
  · intro h
    apply roundHalfEven_ge_of_ge
    rw [le_div_iff₀ hu]
    push_cast
    linarith

theorem f32_idem_pos (q : ℚ) (hq : 0 < q) : f32 (f32 q) = f32 q := by
  obtain ⟨e, he, hu, hlt, hge⟩ := ulp32_spec q hq
  have hq1 : f32 q = roundHalfEven (q / 2 ^ (e - 23)) * 2 ^ (e - 23) := by
    rw [f32_of_pos q hq.le, hu]
  have hupos : (0 : ℚ) < 2 ^ (e - 23) := zpow_pos (by norm_num) _
  obtain ⟨hk0, hk24, hk23⟩ := significand_bounds q _ hq hupos hlt
  rw [hq1]
  generalize roundHalfEven (q / 2 ^ (e - 23)) = k at *
  rcases eq_or_lt_of_le hk0 with h0 | h0
  · rw [← h0]
    simp [f32_zero]
  have hkq : (0 : ℚ) < (k : ℚ) := by exact_mod_cast h0
  have hr : (0 : ℚ) < (k : ℚ) * 2 ^ (e - 23) := mul_pos hkq hupos
  rcases eq_or_lt_of_le hk24 with h24 | h24
  · have hue : (2 : ℚ) ^ (e + 1 - 23) = 2 * 2 ^ (e - 23) := by
      have : e + 1 - 23 = (e - 23) + 1 := by ring
      rw [this, zpow_add_one₀ (by norm_num : (2 : ℚ) ≠ 0)]
      ring
    have hkc : (k : ℚ) = 2 ^ 24 := by exact_mod_cast h24
    have hu2 : (0 : ℚ) < 2 ^ (e + 1 - 23) := zpow_pos (by norm_num) _
    rw [f32_eq_of _ (e + 1) hr (by omega) (by rw [hue, hkc]; linarith)
      (Or.inl (by rw [hue, hkc]; linarith))]
    have hz : (k : ℚ) * 2 ^ (e - 23) / 2 ^ (e + 1 - 23) = ((2 ^ 23 : ℤ) : ℚ) := by
      rw [hue, hkc]
      field_simp
      ring
    rw [hz, roundHalfEven_intCast, hue, hkc]
    push_cast
    ring
  · have hkc : (k : ℚ) < 2 ^ 24 := by exact_mod_cast h24
    have hge2 : 2 ^ 23 * (2 : ℚ) ^ (e - 23) ≤ (k : ℚ) * 2 ^ (e - 23) ∨ e = -126 := by
      rcases hge with hge | hge
      · left
        have : (2 : ℚ) ^ 23 ≤ (k : ℚ) := by exact_mod_cast hk23 hge
        exact mul_le_mul_of_nonneg_right this hupos.le
      · right; exact hge
    rw [f32_eq_of _ e hr he (mul_lt_mul_of_pos_right hkc hupos) hge2]
    have hz : (k : ℚ) * 2 ^ (e - 23) / 2 ^ (e - 23) = (k : ℚ) := by
      field_simp
    rw [hz, roundHalfEven_intCast]

/-- A value of `f32` is a binary32 number: rounding it again changes nothing. -/
theorem f32_idem (q : ℚ) : f32 (f32 q) = f32 q := by
  rcases lt_trichotomy q 0 with h | h | h
  · have hp : 0 < -q := by linarith
    have := f32_idem_pos (-q) hp
    rw [f32_neg, f32_neg] at this
    linarith
  · subst h
    rw [f32_zero, f32_zero]
  · exact f32_idem_pos q h

theorem f32_mono_pos (q1 q2 : ℚ) (h1 : 0 < q1) (h : q1 ≤ q2) : f32 q1 ≤ f32 q2 := by
  have h2 : 0 < q2 := lt_of_lt_of_le h1 h
  obtain ⟨e1, he1, hu1, hlt1, hge1⟩ := ulp32_spec q1 h1
  obtain ⟨e2, he2, hu2, hlt2, hge2⟩ := ulp32_spec q2 h2
  have hup1 : (0 : ℚ) < 2 ^ (e1 - 23) := zpow_pos (by norm_num) _
  have hup2 : (0 : ℚ) < 2 ^ (e2 - 23) := zpow_pos (by norm_num) _
  rw [f32_of_pos q1 h1.le, f32_of_pos q2 h2.le, hu1, hu2]
  have two : (1 : ℚ) < 2 := by norm_num
  rcases lt_trichotomy e1 e2 with hlt | heq | hgt
  · obtain ⟨_, a24, _⟩ := significand_bounds q1 _ h1 hup1 hlt1
    obtain ⟨_, _, b23⟩ := significand_bounds q2 _ h2 hup2 hlt2
    have hge2 : 2 ^ 23 * (2 : ℚ) ^ (e2 - 23) ≤ q2 := by
      rcases hge2 with hge2 | hge2
      · exact hge2
      · omega
    have b := b23 hge2
    have a24q : (roundHalfEven (q1 / 2 ^ (e1 - 23)) : ℚ) ≤ 2 ^ 24 := by exact_mod_cast a24
    have b23q : (2 : ℚ) ^ 23 ≤ (roundHalfEven (q2 / 2 ^ (e2 - 23)) : ℚ) := by exact_mod_cast b
    have hpow : (2 : ℚ) ^ (e1 + 1) ≤ 2 ^ e2 := zpow_le_zpow_right₀ two.le (by omega)
    rw [(two_zpow_split e1).1, (two_zpow_split e2).2] at hpow
    calc (roundHalfEven (q1 / 2 ^ (e1 - 23)) : ℚ) * 2 ^ (e1 - 23)
        ≤ 2 ^ 24 * 2 ^ (e1 - 23) := mul_le_mul_of_nonneg_right a24q hup1.le
      _ ≤ 2 ^ 23 * 2 ^ (e2 - 23) := hpow
      _ ≤ (roundHalfEven (q2 / 2 ^ (e2 - 23)) : ℚ) * 2 ^ (e2 - 23) :=
          mul_le_mul_of_nonneg_right b23q hup2.le
  · subst heq
    have : roundHalfEven (q1 / 2 ^ (e1 - 23)) ≤ roundHalfEven (q2 / 2 ^ (e1 - 23)) :=
      roundHalfEven_mono (div_le_div_of_nonneg_right h hup1.le)
    have hc : (roundHalfEven (q1 / 2 ^ (e1 - 23)) : ℚ) ≤ roundHalfEven (q2 / 2 ^ (e1 - 23)) := by
      exact_mod_cast this
    exact mul_le_mul_of_nonneg_right hc hup1.le
  · exfalso
    have hge1 : 2 ^ 23 * (2 : ℚ) ^ (e1 - 23) ≤ q1 := by
      rcases hge1 with hge1 | hge1
      · exact hge1
      · omega
    have hpow : (2 : ℚ) ^ (e2 + 1) ≤ 2 ^ e1 := zpow_le_zpow_right₀ two.le (by omega)
    rw [(two_zpow_split e2).1, (two_zpow_split e1).2] at hpow
    linarith

/-- Rounding to binary32 is monotone. -/
theorem f32_mono {q1 q2 : ℚ} (h : q1 ≤ q2) : f32 q1 ≤ f32 q2 := by
  rcases lt_trichotomy q1 0 with h1 | h1 | h1
  · rcases lt_or_le q2 0 with h2 | h2
    · have := f32_mono_pos (-q2) (-q1) (by linarith) (by linarith)
      rw [f32_neg, f32_neg] at this
      linarith
    · have a := f32_nonneg q2 h2
      have b := f32_nonneg (-q1) (by linarith)
      rw [f32_neg] at b
      linarith
  · subst h1
    rw [f32_zero]
    exact f32_nonneg q2 h
  · exact f32_mono_pos q1 q2 h1 h

theorem f32_of_rep_pos (k e : ℤ) (he : -126 ≤ e) (h0 : 0 < k) (hk : k < 2 ^ 24) :
    f32 ((k : ℚ) * 2 ^ (e - 23)) = (k : ℚ) * 2 ^ (e - 23) := by
  have h2 : (2 : ℚ) ≠ 0 := by norm_num
  have hup : (0 : ℚ) < 2 ^ (e - 23) := zpow_pos (by norm_num) _
  have hkq : (0 : ℚ) < (k : ℚ) := by exact_mod_cast h0
  have hkq2 : (k : ℚ) < 2 ^ 24 := by exact_mod_cast hk
  have hr : (0 : ℚ) < (k : ℚ) * 2 ^ (e - 23) := mul_pos hkq hup
  obtain ⟨e1, he1, hu1, hlt1, hge1⟩ := ulp32_spec _ hr
  have hup1 : (0 : ℚ) < 2 ^ (e1 - 23) := zpow_pos (by norm_num) _
  have hle : e1 ≤ e := by
    by_contra hcon
    push_neg at hcon
    have hge : 2 ^ 23 * (2 : ℚ) ^ (e1 - 23) ≤ (k : ℚ) * 2 ^ (e - 23) := by
      rcases hge1 with h | h
      · exact h
      · omega
    have hpow : (2 : ℚ) ^ (e + 1) ≤ 2 ^ e1 := zpow_le_zpow_right₀ (by norm_num) (by omega)
    rw [(two_zpow_split e).1, (two_zpow_split e1).2] at hpow
    have : (k : ℚ) * 2 ^ (e - 23) < 2 ^ 24 * 2 ^ (e - 23) := mul_lt_mul_of_pos_right hkq2 hup
    linarith
  obtain ⟨n, hn⟩ := Int.eq_ofNat_of_zero_le (by omega : 0 ≤ e - e1)
  have hsplit : (2 : ℚ) ^ (e - 23) = 2 ^ (e1 - 23) * 2 ^ n := by
    have : e - 23 = (e1 - 23) + (n : ℤ) := by omega
    rw [this, zpow_add₀ h2, zpow_natCast]
  rw [f32_of_pos _ hr.le, hu1]
  have hz : (k : ℚ) * 2 ^ (e - 23) / 2 ^ (e1 - 23) = ((k * 2 ^ n : ℤ) : ℚ) := by
    rw [hsplit]
    push_cast
    field_simp
    ring
  rw [hz, roundHalfEven_intCast, hsplit]
  push_cast
  ring

/-- A rational `k * 2 ^ (e - 23)` with at most 24 binary digits in `k` and the
exponent `e` at least `-126` is a binary32 number: `f32` returns it. -/
theorem f32_of_rep (k e : ℤ) (he : -126 ≤ e) (hk : |k| ≤ 2 ^ 24) :
    f32 ((k : ℚ) * 2 ^ (e - 23)) = (k : ℚ) * 2 ^ (e - 23) := by
  have h2 : (2 : ℚ) ≠ 0 := by norm_num
  have key : ∀ j : ℤ, 0 < j → j ≤ 2 ^ 24 →
      f32 ((j : ℚ) * 2 ^ (e - 23)) = (j : ℚ) * 2 ^ (e - 23) := by
    intro j hj0 hj
    rcases eq_or_lt_of_le hj with h | h
    · have hsplit : ((j : ℤ) : ℚ) * 2 ^ (e - 23) = ((2 ^ 23 : ℤ) : ℚ) * 2 ^ (e + 1 - 23) := by
        have : e + 1 - 23 = (e - 23) + 1 := by ring
        rw [this, zpow_add_one₀ h2, h]
        push_cast
        ring
      rw [hsplit]
      exact f32_of_rep_pos (2 ^ 23) (e + 1) (by omega) (by norm_num) (by norm_num)
    · exact f32_of_rep_pos j e he hj0 h
  rcases lt_trichotomy k 0 with h | h | h
  · have hk2 : -k ≤ 2 ^ 24 := by
      have := neg_abs_le k
      have := abs_nonneg k
      rw [abs_of_neg h] at hk
      exact hk
    have := key (-k) (by omega) hk2
    push_cast at this
    rw [neg_mul, f32_neg] at this
    linarith
  · subst h
    simp [f32_zero]
  · exact key k h (le_trans (le_abs_self k) hk)

/-- Every value of `f32` has the form `k * 2 ^ (e - 23)` with at most 24 binary
digits in `k` and `e` at least `-126`. -/
theorem f32_rep (q : ℚ) :
    ∃ k e : ℤ, -126 ≤ e ∧ |k| ≤ 2 ^ 24 ∧ f32 q = (k : ℚ) * 2 ^ (e - 23) := by
  have pos : ∀ r : ℚ, 0 < r →
      ∃ k e : ℤ, -126 ≤ e ∧ |k| ≤ 2 ^ 24 ∧ f32 r = (k : ℚ) * 2 ^ (e - 23) := by
    intro r hr
    obtain ⟨e, he, hu, hlt, hge⟩ := ulp32_spec r hr
    have hup : (0 : ℚ) < 2 ^ (e - 23) := zpow_pos (by norm_num) _
    obtain ⟨k0, k24, _⟩ := significand_bounds r _ hr hup hlt
    refine ⟨roundHalfEven (r / 2 ^ (e - 23)), e, he, ?_, ?_⟩
    · rw [abs_of_nonneg k0]; exact k24
    · rw [f32_of_pos r hr.le, hu]
  rcases lt_trichotomy q 0 with h | h | h
  · obtain ⟨k, e, he, hk, heq⟩ := pos (-q) (by linarith)
    refine ⟨-k, e, he, by rwa [abs_neg], ?_⟩
    rw [f32_neg] at heq
    push_cast
    linarith
  · subst h
    exact ⟨0, 0, by norm_num, by norm_num, by simp [f32_zero]⟩
  · exact pos q h

/-- Doubling a binary32 number is exact. -/
theorem f32_two_mul (q : ℚ) : f32 (2 * f32 q) = 2 * f32 q := by
  obtain ⟨k, e, he, hk, heq⟩ := f32_rep q
  have h2 : (2 : ℚ) ≠ 0 := by norm_num
  have hsplit : 2 * ((k : ℚ) * 2 ^ (e - 23)) = (k : ℚ) * 2 ^ (e + 1 - 23) := by
    have : e + 1 - 23 = (e - 23) + 1 := by ring
    rw [this, zpow_add_one₀ h2]
    ring
  rw [heq, hsplit]
  exact f32_of_rep k (e + 1) (by omega) hk

/-! ## Binary32 numbers next to the thresholds of the program -/

theorem roundHalfEven_gt {z : ℚ} {n : ℤ} (h : (n : ℚ) + 1 / 2 < z) : n + 1 ≤ roundHalfEven z := by
  have h1 := roundHalfEven_err z
  rw [abs_le] at h1
  have : (n : ℚ) < (roundHalfEven z : ℚ) := by linarith [h1.1]
  have : n < roundHalfEven z := by exact_mod_cast this
  omega

theorem roundHalfEven_lt {z : ℚ} {n : ℤ} (h : z < (n : ℚ) - 1 / 2) : roundHalfEven z ≤ n - 1 := by
  have h1 := roundHalfEven_err z
  rw [abs_le] at h1
  have : (roundHalfEven z : ℚ) < (n : ℚ) := by linarith [h1.2]
  have : roundHalfEven z < n := by exact_mod_cast this
  omega

/-- The binary32 numbers next to 1: a rational rounds to at most 1 exactly
when it is at most `1 + 2 ^ (-24)`, the tie going to 1. -/
theorem f32_le_one_iff (d : ℚ) : f32 d ≤ 1 ↔ d ≤ 1 + 1 / 2 ^ 24 := by
  constructor
  · intro h
    by_contra hcon
    push_neg at hcon
    rcases lt_or_le d (1 + 1 / 2 ^ 23) with hlt | hge
    · have hd0 : 0 < d := by
        have : (0 : ℚ) < 1 + 1 / 2 ^ 24 := by norm_num
        linarith
      have hu : (2 : ℚ) ^ ((0 : ℤ) - 23) = 1 / 2 ^ 23 := by norm_num [zpow_neg]
      have he := f32_eq_of d 0 hd0 (by norm_num)
        (by rw [hu]; norm_num; linarith [show (1 : ℚ) + 1 / 2 ^ 23 < 2 by norm_num])
        (Or.inl (by rw [hu]; norm_num; linarith [show (0 : ℚ) < 1 / 2 ^ 24 by norm_num]))
      rw [hu] at he
      have hk : (2 ^ 23 : ℤ) + 1 ≤ roundHalfEven (d / (1 / 2 ^ 23)) := by
        apply roundHalfEven_gt
        rw [lt_div_iff₀ (by norm_num)]
        push_cast
        linarith
      have hkq : ((2 ^ 23 : ℤ) : ℚ) + 1 ≤ (roundHalfEven (d / (1 / 2 ^ 23)) : ℚ) := by
        exact_mod_cast hk
      rw [he] at h
      push_cast at hkq
      have : (1 : ℚ) + 1 / 2 ^ 23 ≤ (roundHalfEven (d / (1 / 2 ^ 23)) : ℚ) * (1 / 2 ^ 23) := by
        have := mul_le_mul_of_nonneg_right hkq (by norm_num : (0 : ℚ) ≤ 1 / 2 ^ 23)
        linarith
      linarith [show (0 : ℚ) < 1 / 2 ^ 23 by norm_num]
    · have := f32_mono hge
      have e : f32 (1 + 1 / 2 ^ 23) = 1 + 1 / 2 ^ 23 := by decide!
      rw [e] at this
      linarith [show (0 : ℚ) < 1 / 2 ^ 23 by norm_num]
  · intro h
    have := f32_mono h
    have e : f32 (1 + 1 / 2 ^ 24) = 1 := by decide!
    rw [e] at this
    exact this

/-- There is no binary32 number strictly between 1 and `1 + 2 ^ (-23)`. -/
theorem one_lt_binary32 (y : ℚ) (hy : f32 y = y) (h1 : 1 < y) : 1 + 1 / 2 ^ 23 ≤ y := by
  by_contra hcon
  push_neg at hcon
  have hu : (2 : ℚ) ^ ((0 : ℤ) - 23) = 1 / 2 ^ 23 := by norm_num [zpow_neg]
  have he := f32_eq_of y 0 (by linarith) (by norm_num)
    (by rw [hu]; norm_num; linarith [show (1 : ℚ) + 1 / 2 ^ 23 < 2 by norm_num])
    (Or.inl (by rw [hu]; norm_num; linarith))
  rw [hu, hy] at he
  have hlo : (2 ^ 23 : ℤ) ≤ roundHalfEven (y / (1 / 2 ^ 23)) := by
    apply roundHalfEven_ge_of_ge
    rw [le_div_iff₀ (by norm_num)]
    push_cast
    linarith
  have hhi : roundHalfEven (y / (1 / 2 ^ 23)) ≤ (2 ^ 23 : ℤ) + 1 := by
    apply roundHalfEven_le_of_le
    rw [div_le_iff₀ (by norm_num)]
    push_cast
    linarith
  generalize roundHalfEven (y / (1 / 2 ^ 23)) = k at *
  have hk : k = 2 ^ 23 ∨ k = 2 ^ 23 + 1 := by omega
  rcases hk with hk | hk
  · rw [hk] at he
    push_cast at he
    norm_num at he
    linarith
  · rw [hk] at he
    push_cast at he
    have : y = 1 + 1 / 2 ^ 23 := by rw [he]; norm_num
    linarith

/-- The test of `updateObjects` on a missile of speed 1.5: the rounded
product of the rounded flight time and the speed is at most 1.5 exactly when
the flight time is at most `1 + 2 ^ (-24)`. -/
theorem missile_test_iff (d : ℚ) :
    f32 (f32 d * (3 / 2)) ≤ 3 / 2 ↔ d ≤ 1 + 1 / 2 ^ 24 := by
  rw [← f32_le_one_iff]
  constructor
  · intro h
    by_contra hcon
    push_neg at hcon
    have h1 := one_lt_binary32 (f32 d) (f32_idem d) hcon
    have h2 : (3 / 2 : ℚ) + 3 / 2 ^ 24 ≤ f32 d * (3 / 2) := by linarith
    have h3 := f32_mono h2
    have e : f32 ((3 / 2 : ℚ) + 3 / 2 ^ 24) = 3 / 2 + 2 / 2 ^ 23 := by decide!
    rw [e] at h3
    linarith [show (0 : ℚ) < 2 / 2 ^ 23 by norm_num]
  · intro h
    have h2 : f32 d * (3 / 2) ≤ 3 / 2 := by linarith
    have h3 := f32_mono h2
    have e : f32 (3 / 2 : ℚ) = 3 / 2 := by decide!
    rw [e] at h3
    exact h3

/-- For a binary32 size above `-1` the half-extent that `checkBounds`
computes is positive. -/
theorem halfExtent_pos (s : ℚ) (hs : f32 s = s) (h : -1 < s) : 0 < f32 (SCENE_WIDTH + s) := by
  obtain ⟨k, e, he, _, heq⟩ := f32_rep s
  rw [hs] at heq
  obtain ⟨n, hn⟩ := Int.eq_ofNat_of_zero_le (by omega : 0 ≤ e + 126)
  have h2 : (2 : ℚ) ≠ 0 := by norm_num
  have hsplit : (2 : ℚ) ^ (e - 23) = 2 ^ n * (1 / 2 ^ 149) := by
    have : e - 23 = (n : ℤ) + ((-126 : ℤ) - 23) := by omega
    rw [this, zpow_add₀ h2, zpow_natCast, two_zpow_min]
  have hsum : SCENE_WIDTH + s = ((2 ^ 149 + k * 2 ^ n : ℤ) : ℚ) * (1 / 2 ^ 149) := by
    rw [heq, hsplit]
    unfold SCENE_WIDTH
    push_cast
    field_simp
    norm_num
  have hpos : (0 : ℚ) < ((2 ^ 149 + k * 2 ^ n : ℤ) : ℚ) := by
    have h3 : (0 : ℚ) < SCENE_WIDTH + s := by unfold SCENE_WIDTH; linarith
    rw [hsum] at h3
    by_contra hcon
    push_neg at hcon
    have := mul_nonpos_of_nonpos_of_nonneg hcon (by norm_num : (0 : ℚ) ≤ 1 / 2 ^ 149)
    linarith
  have hint : (1 : ℤ) ≤ 2 ^ 149 + k * 2 ^ n := by
    have : (0 : ℤ) < 2 ^ 149 + k * 2 ^ n := by exact_mod_cast hpos
    omega
  have hge : (1 : ℚ) / 2 ^ 149 ≤ SCENE_WIDTH + s := by
    rw [hsum]
    have : (1 : ℚ) ≤ ((2 ^ 149 + k * 2 ^ n : ℤ) : ℚ) := by exact_mod_cast hint
    calc (1 : ℚ) / 2 ^ 149 = 1 * (1 / 2 ^ 149) := by ring
      _ ≤ ((2 ^ 149 + k * 2 ^ n : ℤ) : ℚ) * (1 / 2 ^ 149) :=
          mul_le_mul_of_nonneg_right this (by norm_num)
  have := f32_mono hge
  have e1 : f32 ((1 : ℚ) / 2 ^ 149) = 1 / 2 ^ 149 := by decide!
  rw [e1] at this
  have : (0 : ℚ) < 1 / 2 ^ 149 := by norm_num
  linarith

/-! ## BoundedSpace in binary32: `checkBounds` -/

theorem checkBounds32_x (p : Vec3) (s : ℚ) :
    (Binary32.checkBounds p s).x = Binary32.wrapCoord p.x (f32 (SCENE_WIDTH + s)) := rfl

theorem checkBounds32_y (p : Vec3) (s : ℚ) :
    (Binary32.checkBounds p s).y = Binary32.wrapCoord p.y (f32 (SCENE_HEIGHT + s)) := rfl

theorem checkBounds32_z (p : Vec3) (s : ℚ) : (Binary32.checkBounds p s).z = p.z := rfl

/-- The wrap of one coordinate in binary32: the result differs from the input
by a whole number of periods `2 * h` and the rounding errors of at most three
operations, and its magnitude exceeds `h` by rounding errors at most. -/
theorem wrapCoord32_near (c h : ℚ) (hh : 0 < h) (h2 : f32 (2 * h) = 2 * h) :
    (∃ k : ℤ, |Binary32.wrapCoord c h - (c - (k : ℚ) * (2 * h))|
        ≤ (|c| + 6 * h) / 2 ^ 24 + 4 / 2 ^ 150) ∧
    |Binary32.wrapCoord c h| ≤ h + 5 * h / 2 ^ 24 + 3 / 2 ^ 150 := by
  have hy := f32_err (c + h)
  have habs : |c + h| ≤ |c| + h := by
    calc |c + h| ≤ |c| + |h| := abs_add c h
      _ = |c| + h := by rw [abs_of_pos hh]
  have hc0 := abs_nonneg c
  obtain ⟨k0, hk0⟩ := fmod_eq_sub_mul (f32 (c + h)) (2 * h)
  have hfr : -(2 * h) < fmod (f32 (c + h)) (2 * h) ∧ fmod (f32 (c + h)) (2 * h) < 2 * h := by
    rcases le_or_lt 0 (f32 (c + h)) with hpos | hneg
    · obtain ⟨a, b⟩ := fmod_nonneg_range hpos (by linarith : (0 : ℚ) < 2 * h)
      constructor <;> linarith
    · obtain ⟨a, b⟩ := fmod_neg_range hneg (by linarith : (0 : ℚ) < 2 * h)
      constructor <;> linarith
  have he2 := f32_err (fmod (f32 (c + h)) (2 * h) - h)
  have hfabs : |fmod (f32 (c + h)) (2 * h) - h| ≤ 3 * h := by
    rw [abs_le]; constructor <;> linarith [hfr.1, hfr.2]
  unfold Binary32.wrapCoord
  simp only
  rw [h2]
  generalize f32 (c + h) = y at *
  generalize fmod y (2 * h) = f at *
  generalize hr0 : f32 (f - h) = r0 at *
  rw [abs_le] at hy he2
  split_ifs with hlt
  · have he3 := f32_err (r0 + 2 * h)
    have hr0abs : |r0 + 2 * h| ≤ h + 3 * h / 2 ^ 24 + 1 / 2 ^ 150 := by
      rw [abs_le]; constructor <;> linarith [hfr.1, hfr.2, he2.1, he2.2]
    generalize f32 (r0 + 2 * h) = r at *
    rw [abs_le] at he3
    constructor
    · refine ⟨k0 - 1, ?_⟩
      push_cast
      rw [abs_le]
      constructor <;> linarith [hfr.1, hfr.2, he2.1, he2.2, he3.1, he3.2, hy.1, hy.2, hr0abs]
    · rw [abs_le]
      constructor <;> linarith [hfr.1, hfr.2, he2.1, he2.2, he3.1, he3.2, hr0abs]
  · push_neg at hlt
    constructor
    · refine ⟨k0, ?_⟩
      rw [abs_le]
      constructor <;> linarith [hfr.1, hfr.2, he2.1, he2.2, hy.1, hy.2]
    · rw [abs_le]
      constructor <;> linarith [hfr.1, hfr.2, he2.1, he2.2]

theorem fmod_eq_self_of_neg {x y : ℚ} (hx : x < 0) (hy : -y < x) : fmod x y = x := by
  have hy0 : 0 < y := by linarith
  rw [fmod_of_neg hx hy0]
  have h1 : 0 ≤ -(x / y) := by
    rw [← neg_div]; exact div_nonneg (by linarith) hy0.le
  have h2 : -(x / y) < 1 := by
    rw [← neg_div, div_lt_one hy0]; linarith
  rw [Int.fract_eq_self.mpr ⟨h1, h2⟩]
  field_simp

/-- The wrap of one coordinate in binary32 when no operation rounds: a
coordinate of `[-h, h)` is returned, one of `(h, 3h)` is lowered by `2h` and
one of `(-3h, -h)` is raised by `2h`. -/
theorem wrapCoord32_exact (c h : ℚ) (hh : 0 < h) (h2 : f32 (2 * h) = 2 * h)
    (hsum : f32 (c + h) = c + h) :
    (-h ≤ c → c < h → f32 c = c → Binary32.wrapCoord c h = c) ∧
    (h < c → c < 3 * h → f32 (c - 2 * h) = c - 2 * h → Binary32.wrapCoord c h = c - 2 * h) ∧
    (-(3 * h) < c → c < -h → f32 c = c → f32 (c + 2 * h) = c + 2 * h →
      Binary32.wrapCoord c h = c + 2 * h) := by
  have hW : (0 : ℚ) < 2 * h := by linarith
  unfold Binary32.wrapCoord
  simp only
  rw [h2, hsum]
  refine ⟨?_, ?_, ?_⟩
  · intro a b hc
    have hf : fmod (c + h) (2 * h) = c + h - ((0 : ℤ) : ℚ) * (2 * h) :=
      fmod_eq_of_range (by linarith) hW 0 (by constructor <;> push_cast <;> linarith)
    rw [hf]
    push_cast
    rw [zero_mul, sub_zero, add_sub_cancel_right, hc, if_neg (by linarith)]
  · intro a b hc
    have hf : fmod (c + h) (2 * h) = c + h - ((1 : ℤ) : ℚ) * (2 * h) :=
      fmod_eq_of_range (by linarith) hW 1 (by constructor <;> push_cast <;> linarith)
    rw [hf]
    push_cast
    have e : c + h - 1 * (2 * h) - h = c - 2 * h := by ring
    rw [e, hc, if_neg (by linarith)]
  · intro a b hc hc2
    have hf : fmod (c + h) (2 * h) = c + h := fmod_eq_self_of_neg (by linarith) (by linarith)
    rw [hf, add_sub_cancel_right, hc, if_pos b, hc2]

/-- C2, as the code has it: `checkBounds` computes in binary32, with the
half-extent `S` the binary32 sum of `SCENE_WIDTH` and the size, `S > 0`. Each
of the `x` and `y` coordinates that it returns differs from the input
coordinate `c` by an integer multiple of `2S` and the rounding error of the at
most three operations that round, at most `(|c| + 6S) / 2^24 + 4 / 2^150`;
`z` is returned as it is. When `c + S` is a binary32 number, a binary32
coordinate of `[-S, S)` is returned unchanged, a coordinate with `S < c < 3S`
becomes `c - 2S` if that is a binary32 number, and a binary32 coordinate with
`-3S < c < -S` becomes `c + 2S` if that is a binary32 number. -/
theorem checkBounds32_overshoot (p : Vec3) (s : ℚ) (hS : 0 < f32 (SCENE_WIDTH + s)) :
    ((∃ k : ℤ, |(Binary32.checkBounds p s).x - (p.x - (k : ℚ) * (2 * f32 (SCENE_WIDTH + s)))|
        ≤ (|p.x| + 6 * f32 (SCENE_WIDTH + s)) / 2 ^ 24 + 4 / 2 ^ 150) ∧
      (f32 (p.x + f32 (SCENE_WIDTH + s)) = p.x + f32 (SCENE_WIDTH + s) →
        (-f32 (SCENE_WIDTH + s) ≤ p.x → p.x < f32 (SCENE_WIDTH + s) → f32 p.x = p.x →
          (Binary32.checkBounds p s).x = p.x) ∧
        (f32 (SCENE_WIDTH + s) < p.x → p.x < 3 * f32 (SCENE_WIDTH + s) →
          f32 (p.x - 2 * f32 (SCENE_WIDTH + s)) = p.x - 2 * f32 (SCENE_WIDTH + s) →
          (Binary32.checkBounds p s).x = p.x - 2 * f32 (SCENE_WIDTH + s)) ∧
        (-(3 * f32 (SCENE_WIDTH + s)) < p.x → p.x < -f32 (SCENE_WIDTH + s) → f32 p.x = p.x →
          f32 (p.x + 2 * f32 (SCENE_WIDTH + s)) = p.x + 2 * f32 (SCENE_WIDTH + s) →
          (Binary32.checkBounds p s).x = p.x + 2 * f32 (SCENE_WIDTH + s)))) ∧
    ((∃ k : ℤ, |(Binary32.checkBounds p s).y - (p.y - (k : ℚ) * (2 * f32 (SCENE_WIDTH + s)))|
        ≤ (|p.y| + 6 * f32 (SCENE_WIDTH + s)) / 2 ^ 24 + 4 / 2 ^ 150) ∧
      (f32 (p.y + f32 (SCENE_WIDTH + s)) = p.y + f32 (SCENE_WIDTH + s) →
        (-f32 (SCENE_WIDTH + s) ≤ p.y → p.y < f32 (SCENE_WIDTH + s) → f32 p.y = p.y →
          (Binary32.checkBounds p s).y = p.y) ∧
        (f32 (SCENE_WIDTH + s) < p.y → p.y < 3 * f32 (SCENE_WIDTH + s) →
          f32 (p.y - 2 * f32 (SCENE_WIDTH + s)) = p.y - 2 * f32 (SCENE_WIDTH + s) →
          (Binary32.checkBounds p s).y = p.y - 2 * f32 (SCENE_WIDTH + s)) ∧
        (-(3 * f32 (SCENE_WIDTH + s)) < p.y → p.y < -f32 (SCENE_WIDTH + s) → f32 p.y = p.y →
          f32 (p.y + 2 * f32 (SCENE_WIDTH + s)) = p.y + 2 * f32 (SCENE_WIDTH + s) →
          (Binary32.checkBounds p s).y = p.y + 2 * f32 (SCENE_WIDTH + s)))) ∧
    (Binary32.checkBounds p s).z = p.z := by
  have h2 := f32_two_mul (SCENE_WIDTH + s)
  refine ⟨⟨?_, ?_⟩, ⟨?_, ?_⟩, rfl⟩
  · rw [checkBounds32_x]; exact (wrapCoord32_near p.x _ hS h2).1
  · intro hsum; rw [checkBounds32_x]; exact wrapCoord32_exact p.x _ hS h2 hsum
  · rw [checkBounds32_y]; exact (wrapCoord32_near p.y _ hS h2).1
  · intro hsum; rw [checkBounds32_y]; exact wrapCoord32_exact p.y _ hS h2 hsum

theorem checkBounds32_overshoot_witness :
    0 < f32 (SCENE_WIDTH + f32 (1 / 10)) ∧
    (Binary32.checkBounds ⟨1 / 4, 12582913 / 2 ^ 23, f32 (2 / 25)⟩ (f32 (1 / 10))).x = 1 / 4 ∧
    (Binary32.checkBounds ⟨1 / 4, 12582913 / 2 ^ 23, f32 (2 / 25)⟩ (f32 (1 / 10))).y
      = 12582913 / 2 ^ 23 - 2 * f32 (SCENE_WIDTH + f32 (1 / 10)) :=
  ⟨by decide!,
    ((checkBounds32_overshoot ⟨1 / 4, 12582913 / 2 ^ 23, f32 (2 / 25)⟩ (f32 (1 / 10))
      (by decide!)).1.2 (by decide!)).1 (by decide!) (by decide!) (by decide!),
    ((checkBounds32_overshoot ⟨1 / 4, 12582913 / 2 ^ 23, f32 (2 / 25)⟩ (f32 (1 / 10))
      (by decide!)).2.1.2 (by decide!)).2.1 (by decide!) (by decide!) (by decide!)⟩

/-- C2 as stated fails: with the size `0.1f` the half-extent is
`S = 1.10000002`. The coordinate `0.3f = 0.300000012`, which lies in `[-S, S)`,
comes back as `0.300000072`: it is not returned unchanged, and the difference
is no integer multiple of `2S`. The coordinate `2.5`, which lies between `S`
and `3S`, comes back as `0.299999833`, and `2.5 - 2S` is `0.299999952`. -/
theorem checkBounds32_overshoot_counterexample :
    f32 (SCENE_WIDTH + f32 (1 / 10)) = 9227469 / 2 ^ 23 ∧
    (-(9227469 / 2 ^ 23) ≤ f32 (3 / 10) ∧ f32 (3 / 10) < 9227469 / 2 ^ 23) ∧
    f32 (3 / 10) = 10066330 / 2 ^ 25 ∧
    (Binary32.checkBounds ⟨f32 (3 / 10), 5 / 2, f32 (2 / 25)⟩ (f32 (1 / 10))).x
      = 10066332 / 2 ^ 25 ∧
    (¬ ∃ k : ℤ, (Binary32.checkBounds ⟨f32 (3 / 10), 5 / 2, f32 (2 / 25)⟩ (f32 (1 / 10))).x
      = f32 (3 / 10) - (k : ℚ) * (2 * f32 (SCENE_WIDTH + f32 (1 / 10)))) ∧
    ((9227469 / 2 ^ 23 : ℚ) < 5 / 2 ∧ (5 / 2 : ℚ) < 3 * (9227469 / 2 ^ 23)) ∧
    (Binary32.checkBounds ⟨f32 (3 / 10), 5 / 2, f32 (2 / 25)⟩ (f32 (1 / 10))).y
      = 10066324 / 2 ^ 25 ∧
    (5 / 2 : ℚ) - 2 * (9227469 / 2 ^ 23) = 10066328 / 2 ^ 25 := by
  have hS : f32 (SCENE_WIDTH + f32 (1 / 10)) = 9227469 / 2 ^ 23 := by decide!
  have hx : (Binary32.checkBounds ⟨f32 (3 / 10), 5 / 2, f32 (2 / 25)⟩ (f32 (1 / 10))).x
      = 10066332 / 2 ^ 25 := by decide!
  have h3 : f32 (3 / 10) = 10066330 / 2 ^ 25 := by decide!
  refine ⟨hS, by decide!, h3, hx, ?_, by norm_num, by decide!, by norm_num⟩
  rintro ⟨k, hk⟩
  rw [hx, h3, hS] at hk
  have hk2 : (k : ℚ) * (2 * (9227469 / 2 ^ 23)) = -(2 / 2 ^ 25) := by linarith
  rcases le_or_lt 0 k with h | h
  · have : (0 : ℚ) ≤ k := by exact_mod_cast h
    nlinarith
  · have : (k : ℚ) ≤ -1 := by exact_mod_cast Int.le_sub_one_of_lt h
    nlinarith

/-- The wrap of one coordinate in binary32, applied to its own result. -/
theorem wrapCoord32_twice (c h : ℚ) (hh : 0 < h) (h2 : f32 (2 * h) = 2 * h) :
    ∃ k : ℤ, |Binary32.wrapCoord (Binary32.wrapCoord c h) h
        - (Binary32.wrapCoord c h - (k : ℚ) * (2 * h))| ≤ 8 * h / 2 ^ 24 + 5 / 2 ^ 150 := by
  obtain ⟨k, hk⟩ := (wrapCoord32_near (Binary32.wrapCoord c h) h hh h2).1
  have hm := (wrapCoord32_near c h hh h2).2
  refine ⟨k, le_trans hk ?_⟩
  have e1 : (|Binary32.wrapCoord c h| + 6 * h) / 2 ^ 24
      ≤ (h + 5 * h / 2 ^ 24 + 3 / 2 ^ 150 + 6 * h) / 2 ^ 24 :=
    div_le_div_of_nonneg_right (by linarith) (by positivity)
  have e2 : (h + 5 * h / 2 ^ 24 + 3 / 2 ^ 150 + 6 * h) / 2 ^ 24 + 4 / 2 ^ 150
      ≤ 8 * h / 2 ^ 24 + 5 / 2 ^ 150 := by
    have : (0 : ℚ) ≤ h := hh.le
    linarith
  linarith

/-- The wrap of one coordinate in binary32, applied to the coordinate shifted
by one period. -/
theorem wrapCoord32_period (c h : ℚ) (hh : 0 < h) (h2 : f32 (2 * h) = 2 * h) :
    ∃ k : ℤ, |Binary32.wrapCoord (f32 (c + 2 * h)) h - Binary32.wrapCoord c h
        - (k : ℚ) * (2 * h)| ≤ (4 * |c| + 17 * h) / 2 ^ 24 + 10 / 2 ^ 150 := by
  obtain ⟨k1, hk1⟩ := (wrapCoord32_near (f32 (c + 2 * h)) h hh h2).1
  obtain ⟨k2, hk2⟩ := (wrapCoord32_near c h hh h2).1
  have he := f32_err (c + 2 * h)
  have hc0 := abs_nonneg c
  have habs : |c + 2 * h| ≤ |c| + 2 * h := by
    calc |c + 2 * h| ≤ |c| + |2 * h| := abs_add c (2 * h)
      _ = |c| + 2 * h := by rw [abs_of_pos (by linarith : (0 : ℚ) < 2 * h)]
  have habs2 : |f32 (c + 2 * h)| ≤ |c| + 2 * h + (|c| + 2 * h) / 2 ^ 24 + 1 / 2 ^ 150 := by
    have : |f32 (c + 2 * h)| ≤ |f32 (c + 2 * h) - (c + 2 * h)| + |c + 2 * h| := by
      have := abs_add (f32 (c + 2 * h) - (c + 2 * h)) (c + 2 * h)
      rwa [sub_add_cancel] at this
    linarith
  refine ⟨1 - k1 + k2, ?_⟩
  generalize Binary32.wrapCoord (f32 (c + 2 * h)) h = W1 at *
  generalize Binary32.wrapCoord c h = W2 at *
  generalize f32 (c + 2 * h) = c1 at *
  generalize |c1| = A1 at *
  generalize |c + 2 * h| = A2 at *
  generalize |c| = A at *
  rw [abs_le] at hk1 hk2 he ⊢
  push_cast
  constructor <;> linarith [hk1.1, hk1.2, hk2.1, hk2.2, he.1, he.2]

/-- A position wrapped once more by `checkBounds`, in binary32: `x` and `y`
change by a whole number of periods and rounding errors, `z` is kept. -/
theorem checkBounds32_rewrap (p : Vec3) (s : ℚ) (hS : 0 < f32 (SCENE_WIDTH + s)) :
    (∃ k : ℤ, |(Binary32.checkBounds (Binary32.checkBounds p s) s).x
        - ((Binary32.checkBounds p s).x - (k : ℚ) * (2 * f32 (SCENE_WIDTH + s)))|
        ≤ 8 * f32 (SCENE_WIDTH + s) / 2 ^ 24 + 5 / 2 ^ 150) ∧
    (∃ k : ℤ, |(Binary32.checkBounds (Binary32.checkBounds p s) s).y
        - ((Binary32.checkBounds p s).y - (k : ℚ) * (2 * f32 (SCENE_WIDTH + s)))|
        ≤ 8 * f32 (SCENE_WIDTH + s) / 2 ^ 24 + 5 / 2 ^ 150) := by
  have h2 := f32_two_mul (SCENE_WIDTH + s)
  refine ⟨?_, ?_⟩
  · rw [checkBounds32_x (Binary32.checkBounds p s), checkBounds32_x p]
    exact wrapCoord32_twice p.x _ hS h2
  · rw [checkBounds32_y (Binary32.checkBounds p s), checkBounds32_y p]
    exact wrapCoord32_twice p.y _ hS h2

/-- C3, as the code has it: in binary32, with `S > 0` the half-extent that
`checkBounds` computes for the size, wrapping the wrapped position changes each
of `x` and `y` by an integer multiple of `2S` and at most
`8S / 2^24 + 5 / 2^150`, and leaves `z` as it is; the `x` and `y` of the wrapped
position have a magnitude of at most `S + 5S / 2^24 + 3 / 2^150`. -/
theorem checkBounds32_twice (p : Vec3) (s : ℚ) (hS : 0 < f32 (SCENE_WIDTH + s)) :
    (∃ k : ℤ, |(Binary32.checkBounds (Binary32.checkBounds p s) s).x
        - ((Binary32.checkBounds p s).x - (k : ℚ) * (2 * f32 (SCENE_WIDTH + s)))|
        ≤ 8 * f32 (SCENE_WIDTH + s) / 2 ^ 24 + 5 / 2 ^ 150) ∧
    (∃ k : ℤ, |(Binary32.checkBounds (Binary32.checkBounds p s) s).y
        - ((Binary32.checkBounds p s).y - (k : ℚ) * (2 * f32 (SCENE_WIDTH + s)))|
        ≤ 8 * f32 (SCENE_WIDTH + s) / 2 ^ 24 + 5 / 2 ^ 150) ∧
    (Binary32.checkBounds (Binary32.checkBounds p s) s).z = (Binary32.checkBounds p s).z ∧
    |(Binary32.checkBounds p s).x| ≤ f32 (SCENE_WIDTH + s) + 5 * f32 (SCENE_WIDTH + s) / 2 ^ 24
      + 3 / 2 ^ 150 ∧
    |(Binary32.checkBounds p s).y| ≤ f32 (SCENE_WIDTH + s) + 5 * f32 (SCENE_WIDTH + s) / 2 ^ 24
      + 3 / 2 ^ 150 :=
  ⟨(checkBounds32_rewrap p s hS).1, (checkBounds32_rewrap p s hS).2, rfl,
    by rw [checkBounds32_x]; exact (wrapCoord32_near p.x _ hS (f32_two_mul _)).2,
    by rw [checkBounds32_y]; exact (wrapCoord32_near p.y _ hS (f32_two_mul _)).2⟩

theorem checkBounds32_twice_witness :
    0 < f32 (SCENE_WIDTH + f32 (1 / 10)) ∧
    ∃ k : ℤ, |(Binary32.checkBounds
          (Binary32.checkBounds ⟨-9361790 / 2 ^ 23, 5 / 2, 3⟩ (f32 (1 / 10))) (f32 (1 / 10))).x
        - ((Binary32.checkBounds ⟨-9361790 / 2 ^ 23, 5 / 2, 3⟩ (f32 (1 / 10))).x
          - (k : ℚ) * (2 * f32 (SCENE_WIDTH + f32 (1 / 10))))|
        ≤ 8 * f32 (SCENE_WIDTH + f32 (1 / 10)) / 2 ^ 24 + 5 / 2 ^ 150 :=
  ⟨by decide!,
    (checkBounds32_twice ⟨-9361790 / 2 ^ 23, 5 / 2, 3⟩ (f32 (1 / 10)) (by decide!)).1⟩

/-- C3 as stated fails: with the size `0.1f`, the binary32 coordinate
`x = -1.11601233` is wrapped to `1.08398771`, and that is wrapped to
`1.08398759`: the second call changes the position. -/
theorem checkBounds32_twice_counterexample :
    0 < f32 (SCENE_WIDTH + f32 (1 / 10)) ∧
    f32 (-9361790 / 2 ^ 23) = -9361790 / 2 ^ 23 ∧
    (Binary32.checkBounds ⟨-9361790 / 2 ^ 23, 0, 0⟩ (f32 (1 / 10))).x = 9093148 / 2 ^ 23 ∧
    (Binary32.checkBounds (Binary32.checkBounds ⟨-9361790 / 2 ^ 23, 0, 0⟩ (f32 (1 / 10)))
      (f32 (1 / 10))).x = 9093147 / 2 ^ 23 ∧
    Binary32.checkBounds (Binary32.checkBounds ⟨-9361790 / 2 ^ 23, 0, 0⟩ (f32 (1 / 10)))
      (f32 (1 / 10)) ≠ Binary32.checkBounds ⟨-9361790 / 2 ^ 23, 0, 0⟩ (f32 (1 / 10)) := by
  refine ⟨by decide!, by decide!, by decide!, by decide!, by decide!⟩

/-- C4, as the code has it: in binary32, with `S > 0` the half-extent that
`checkBounds` computes for the size, shifting the `x` coordinate (or the `y`
coordinate) `c` of `p` by `2S`, the sum rounded to binary32, before wrapping
gives a result whose shifted coordinate differs from that of wrapping `p` by
an integer multiple of `2S` and at most `(4 |c| + 17 S) / 2^24 + 10 / 2^150`;
the other coordinates are those of wrapping `p`. -/
theorem checkBounds32_period (p : Vec3) (s : ℚ) (hS : 0 < f32 (SCENE_WIDTH + s)) :
    (∃ k : ℤ, |(Binary32.checkBounds ⟨f32 (p.x + 2 * f32 (SCENE_WIDTH + s)), p.y, p.z⟩ s).x
        - (Binary32.checkBounds p s).x - (k : ℚ) * (2 * f32 (SCENE_WIDTH + s))|
        ≤ (4 * |p.x| + 17 * f32 (SCENE_WIDTH + s)) / 2 ^ 24 + 10 / 2 ^ 150) ∧
    (∃ k : ℤ, |(Binary32.checkBounds ⟨p.x, f32 (p.y + 2 * f32 (SCENE_WIDTH + s)), p.z⟩ s).y
        - (Binary32.checkBounds p s).y - (k : ℚ) * (2 * f32 (SCENE_WIDTH + s))|
        ≤ (4 * |p.y| + 17 * f32 (SCENE_WIDTH + s)) / 2 ^ 24 + 10 / 2 ^ 150) ∧
    (Binary32.checkBounds ⟨f32 (p.x + 2 * f32 (SCENE_WIDTH + s)), p.y, p.z⟩ s).y
      = (Binary32.checkBounds p s).y ∧
    (Binary32.checkBounds ⟨p.x, f32 (p.y + 2 * f32 (SCENE_WIDTH + s)), p.z⟩ s).x
      = (Binary32.checkBounds p s).x ∧
    (Binary32.checkBounds ⟨f32 (p.x + 2 * f32 (SCENE_WIDTH + s)), p.y, p.z⟩ s).z = p.z ∧
    (Binary32.checkBounds ⟨p.x, f32 (p.y + 2 * f32 (SCENE_WIDTH + s)), p.z⟩ s).z = p.z := by
  have h2 := f32_two_mul (SCENE_WIDTH + s)
  refine ⟨?_, ?_, rfl, rfl, rfl, rfl⟩
  · rw [checkBounds32_x, checkBounds32_x]
    exact wrapCoord32_period p.x _ hS h2
  · rw [checkBounds32_y, checkBounds32_y]
    exact wrapCoord32_period p.y _ hS h2

theorem checkBounds32_period_witness :
    0 < f32 (SCENE_WIDTH + f32 (1 / 10)) ∧
    ∃ k : ℤ, |(Binary32.checkBounds
          ⟨f32 (1 / 4 + 2 * f32 (SCENE_WIDTH + f32 (1 / 10))), 0, 0⟩ (f32 (1 / 10))).x
        - (Binary32.checkBounds ⟨1 / 4, 0, 0⟩ (f32 (1 / 10))).x
        - (k : ℚ) * (2 * f32 (SCENE_WIDTH + f32 (1 / 10)))|
        ≤ (4 * |(1 / 4 : ℚ)| + 17 * f32 (SCENE_WIDTH + f32 (1 / 10))) / 2 ^ 24 + 10 / 2 ^ 150 :=
  ⟨by decide!, (checkBounds32_period ⟨1 / 4, 0, 0⟩ (f32 (1 / 10)) (by decide!)).1⟩

/-- C4 as stated fails: with the size `0.1f` and `x = 0.25`, the sum
`x + 2S = 2.45000005` is a binary32 number; `0.25` is wrapped to `0.25` and
`x + 2S` is wrapped to `0.250000119`. -/
theorem checkBounds32_period_counterexample :
    0 < f32 (SCENE_WIDTH + f32 (1 / 10)) ∧
    f32 (1 / 4 + 2 * f32 (SCENE_WIDTH + f32 (1 / 10)))
      = 1 / 4 + 2 * f32 (SCENE_WIDTH + f32 (1 / 10)) ∧
    (Binary32.checkBounds ⟨1 / 4, 0, 0⟩ (f32 (1 / 10))).x = 1 / 4 ∧
    (Binary32.checkBounds ⟨1 / 4 + 2 * f32 (SCENE_WIDTH + f32 (1 / 10)), 0, 0⟩ (f32 (1 / 10))).x
      = 8388612 / 2 ^ 25 ∧
    Binary32.checkBounds ⟨1 / 4 + 2 * f32 (SCENE_WIDTH + f32 (1 / 10)), 0, 0⟩ (f32 (1 / 10))
      ≠ Binary32.checkBounds ⟨1 / 4, 0, 0⟩ (f32 (1 / 10)) := by
  refine ⟨by decide!, by decide!, by decide!, by decide!, by decide!⟩

/-! ## CollisionProbe in binary32: `spheresIntersection` -/

theorem updateMissile32_destroyed (t : ℚ) (ms : MissileObject) :
    (Binary32.updateMissile t ms).destroyed =
      (ms.destroyed ||
        decide (f32 (f32 (t - ms.startTime) * ms.speed) > MISSILE_MAX_DISTANCE)) := by
  unfold Binary32.updateMissile
  simp only
  split_ifs with h
  · rw [decide_eq_true h, Bool.or_true]
  · rw [decide_eq_false h, Bool.or_false]

/-- The missile loop in binary32 keeps, in their order, the missiles that were
not destroyed and whose rounded travel is within the maximum, each one updated. -/
theorem updateMissiles32_eq (t : ℚ) (l : List MissileObject) :
    Binary32.updateMissiles t l =
      (l.filter fun ms =>
        !ms.destroyed &&
          decide (f32 (f32 (t - ms.startTime) * ms.speed) ≤ MISSILE_MAX_DISTANCE)).map
        (Binary32.updateMissile t) := by
  induction l with
  | nil => rfl
  | cons a l ih =>
    rw [Binary32.updateMissiles, updateMissile32_destroyed, ih, List.filter_cons]
    by_cases hd : a.destroyed = true
    · simp [hd]
    · by_cases hx : f32 (f32 (t - a.startTime) * a.speed) > MISSILE_MAX_DISTANCE
      · have hx2 : ¬ f32 (f32 (t - a.startTime) * a.speed) ≤ MISSILE_MAX_DISTANCE :=
          not_le.mpr hx
        simp [hd, hx, hx2]
      · have hx2 : f32 (f32 (t - a.startTime) * a.speed) ≤ MISSILE_MAX_DISTANCE := not_lt.mp hx
        simp [hd, hx, hx2]

/-- C13, as the code has it: after `updateObjects t`, computed in binary32,
the missile collection consists of exactly the prior missiles, in their
original order and each one advanced, that were not already destroyed and for
which the rounded product of the rounded flight time `t - startTime` and the
speed is at most `MISSILE_MAX_DISTANCE`; every member of the new collection is
not destroyed and passes that test, so that a missile failing it is removed in
the same call; with the speed 1.5 a missile survives exactly while
`t - startTime <= 1 + 2^(-24)`, the flight times that round to at most 1. -/
theorem updateObjects32_missiles (t : ℚ) (w : World) :
    (Binary32.updateObjects t w).gameObjects.missiles =
      (w.gameObjects.missiles.filter fun ms =>
        !ms.destroyed &&
          decide (f32 (f32 (t - ms.startTime) * ms.speed) ≤ MISSILE_MAX_DISTANCE)).map
        (Binary32.updateMissile t) ∧
    (∀ ms ∈ (Binary32.updateObjects t w).gameObjects.missiles,
      ms.destroyed = false ∧ f32 (f32 (t - ms.startTime) * ms.speed) ≤ MISSILE_MAX_DISTANCE) ∧
    (∀ ms : MissileObject, ms.destroyed = false → ms.speed = MISSILE_SPEED →
      (Binary32.updateMissiles t [ms] = [Binary32.updateMissile t ms] ↔
        t - ms.startTime ≤ 1 + 1 / 2 ^ 24) ∧
      (Binary32.updateMissiles t [ms] = [] ↔ t - ms.startTime > 1 + 1 / 2 ^ 24)) := by
  have h1 : (Binary32.updateObjects t w).gameObjects.missiles =
      (w.gameObjects.missiles.filter fun ms =>
        !ms.destroyed &&
          decide (f32 (f32 (t - ms.startTime) * ms.speed) ≤ MISSILE_MAX_DISTANCE)).map
        (Binary32.updateMissile t) := updateMissiles32_eq t _
  refine ⟨h1, ?_, ?_⟩
  · intro ms hms
    rw [h1, List.mem_map] at hms
    obtain ⟨a, ha, rfl⟩ := hms
    rw [List.mem_filter] at ha
    have hk := ha.2
    simp only [Bool.and_eq_true, Bool.not_eq_true', decide_eq_true_eq] at hk
    refine ⟨?_, hk.2⟩
    rw [updateMissile32_destroyed, hk.1]
    simp [hk.2]
  · intro ms hd hs
    rw [updateMissiles32_eq]
    have hiff : f32 (f32 (t - ms.startTime) * ms.speed) ≤ MISSILE_MAX_DISTANCE ↔
        t - ms.startTime ≤ 1 + 1 / 2 ^ 24 := by
      rw [hs]
      unfold MISSILE_SPEED MISSILE_MAX_DISTANCE
      exact missile_test_iff _
    by_cases hx : t - ms.startTime ≤ 1 + 1 / 2 ^ 24
    · have hx2 := hiff.mpr hx
      rw [List.filter_cons_of_pos (by simp [hd, hx2]), List.filter_nil, List.map_cons,
        List.map_nil]
      exact ⟨iff_of_true rfl hx, iff_of_false (by simp) (not_lt.mpr hx)⟩
    · have hx2 : ¬ f32 (f32 (t - ms.startTime) * ms.speed) ≤ MISSILE_MAX_DISTANCE :=
        fun h => hx (hiff.mp h)
      rw [List.filter_cons_of_neg (by simp [hd, hx2]), List.filter_nil, List.map_nil]
      exact ⟨iff_of_false (by simp) hx, iff_of_true rfl (not_le.mp hx)⟩

/-- C13 as stated fails: a missile launched at the scene time of the clock
value 1 ms, `0.00100000005`, and updated at the scene time of 1001 ms,
`1.00100005`, has `(t - startTime) * speed > MISSILE_MAX_DISTANCE` and is kept.
A missile launched at the scene time of 2 ms and updated at that of 1002 ms,
1000 ms later, is removed. -/
theorem updateObjects32_missiles_counterexample :
    (Binary32.launchedMissile 1).startTime = 8589935 / 2 ^ 33 ∧
    Binary32.sceneTime 1001 = 8396997 / 2 ^ 23 ∧
    (Binary32.sceneTime 1001 - (Binary32.launchedMissile 1).startTime)
      * (Binary32.launchedMissile 1).speed > MISSILE_MAX_DISTANCE ∧
    (Binary32.updateMissiles (Binary32.sceneTime 1001) [Binary32.launchedMissile 1]).length = 1 ∧
    (Binary32.updateMissiles (Binary32.sceneTime 1002) [Binary32.launchedMissile 2]).length = 0 := by
  refine ⟨by decide!, by decide!, by decide!, by decide!, by decide!⟩

theorem updateExplosion32_destroyed (t : ℚ) (e : ExplosionObject) :
    (Binary32.updateExplosion t e).destroyed =
      (e.destroyed ||
        decide (t > f32 (e.startTime + f32 (f32 (e.textureFrames : ℚ) * e.frameDuration)))) := by
  unfold Binary32.updateExplosion
  simp only
  split_ifs with h
  · rw [decide_eq_true h, Bool.or_true]
  · rw [decide_eq_false h, Bool.or_false]

theorem updateExplosion32_of_alive (t : ℚ) (e : ExplosionObject)
    (h : t ≤ f32 (e.startTime + f32 (f32 (e.textureFrames : ℚ) * e.frameDuration))) :
    Binary32.updateExplosion t e = { e with currentTime := t } := by
  unfold Binary32.updateExplosion
  rw [if_neg (not_lt.mpr h)]

theorem updateExplosions32_eq (t : ℚ) (l : List ExplosionObject) :
    Binary32.updateExplosions t l =
      (l.filter fun e =>
        !e.destroyed &&
          decide (t ≤ f32 (e.startTime + f32 (f32 (e.textureFrames : ℚ) * e.frameDuration)))).map
        (Binary32.updateExplosion t) := by
  induction l with
  | nil => rfl
  | cons a l ih =>
    rw [Binary32.updateExplosions, updateExplosion32_destroyed, ih, List.filter_cons]
    by_cases hd : a.destroyed = true
    · simp [hd]
    · by_cases hx : t > f32 (a.startTime + f32 (f32 (a.textureFrames : ℚ) * a.frameDuration))
      · have hx2 : ¬ t ≤ f32 (a.startTime + f32 (f32 (a.textureFrames : ℚ) * a.frameDuration)) :=
          not_le.mpr hx
        simp [hd, hx, hx2]
      · have hx2 : t ≤ f32 (a.startTime + f32 (f32 (a.textureFrames : ℚ) * a.frameDuration)) :=
          not_lt.mp hx
        simp [hd, hx, hx2]

/-- C14, as the code has it: after `updateObjects t`, computed in binary32,
the explosion collection consists of exactly the prior explosions, in their
original order, that were not already destroyed and for which `t` is at most
the binary32 sum of `startTime` and the binary32 product of `textureFrames`
and `frameDuration`, each with `currentTime` set to `t`. An explosion made by
`insertExplosion` has 16 frames of `0.1f` seconds, whose product is the
binary32 number `c = 13421773 / 2^23 = 1.60000002`; it is removed exactly when
`t` exceeds the rounded sum of `startTime` and `c`: on every update with
`t - startTime > c + (|startTime| + c) / 2^24 + 2^(-150)`, and on no update
with `t - startTime <= c - (|startTime| + c) / 2^24 - 2^(-150)`. -/
theorem updateObjects32_explosions (t : ℚ) (w : World) :
    (Binary32.updateObjects t w).gameObjects.explosions =
      (w.gameObjects.explosions.filter fun e =>
        !e.destroyed &&
          decide (t ≤ f32 (e.startTime + f32 (f32 (e.textureFrames : ℚ) * e.frameDuration)))).map
        (fun e => { e with currentTime := t }) ∧
    (∀ e ∈ (Binary32.updateObjects t w).gameObjects.explosions,
      e.destroyed = false ∧ e.currentTime = t ∧
        t ≤ f32 (e.startTime + f32 (f32 (e.textureFrames : ℚ) * e.frameDuration))) ∧
    (∀ (v : World) (p : Vec3), ∃ e : ExplosionObject,
      (Binary32.insertExplosion v p).gameObjects.explosions = v.gameObjects.explosions ++ [e] ∧
      e.destroyed = false ∧ e.textureFrames = 16 ∧ e.frameDuration = f32 (1 / 10) ∧
      f32 (f32 (e.textureFrames : ℚ) * e.frameDuration) = 13421773 / 2 ^ 23) ∧
    (∀ e : ExplosionObject, e.destroyed = false → e.textureFrames = 16 →
      e.frameDuration = f32 (1 / 10) →
      (Binary32.updateExplosions t [e] = [] ↔ t > f32 (e.startTime + 13421773 / 2 ^ 23)) ∧
      (t - e.startTime > 13421773 / 2 ^ 23 + (|e.startTime| + 13421773 / 2 ^ 23) / 2 ^ 24
          + 1 / 2 ^ 150 → Binary32.updateExplosions t [e] = []) ∧
      (t - e.startTime ≤ 13421773 / 2 ^ 23 - (|e.startTime| + 13421773 / 2 ^ 23) / 2 ^ 24
          - 1 / 2 ^ 150 → Binary32.updateExplosions t [e] = [{ e with currentTime := t }])) := by
  have hc : f32 (f32 ((16 : ℤ) : ℚ) * f32 (1 / 10)) = 13421773 / 2 ^ 23 := by decide!
  have h1 : (Binary32.updateObjects t w).gameObjects.explosions =
      (w.gameObjects.explosions.filter fun e =>
        !e.destroyed &&
          decide (t ≤ f32 (e.startTime + f32 (f32 (e.textureFrames : ℚ) * e.frameDuration)))).map
        (fun e => { e with currentTime := t }) := by
    show Binary32.updateExplosions t _ = _
    rw [updateExplosions32_eq]
    apply List.map_congr_left
    intro e he
    rw [List.mem_filter] at he
    have hk := he.2
    simp only [Bool.and_eq_true, Bool.not_eq_true', decide_eq_true_eq] at hk
    exact updateExplosion32_of_alive t e hk.2
  refine ⟨h1, ?_, ?_, ?_⟩
  · intro e he
    rw [h1, List.mem_map] at he
    obtain ⟨a, ha, rfl⟩ := he
    rw [List.mem_filter] at ha
    have hk := ha.2
    simp only [Bool.and_eq_true, Bool.not_eq_true', decide_eq_true_eq] at hk
    exact ⟨hk.1, rfl, hk.2⟩
  · intro v p
    exact ⟨_, rfl, rfl, rfl, rfl, hc⟩
  · intro e hd hf hdur
    have hthr : f32 (e.startTime + f32 (f32 (e.textureFrames : ℚ) * e.frameDuration))
        = f32 (e.startTime + 13421773 / 2 ^ 23) := by rw [hf, hdur, hc]
    have herr := f32_err (e.startTime + 13421773 / 2 ^ 23)
    have habs : |e.startTime + 13421773 / 2 ^ 23| ≤ |e.startTime| + 13421773 / 2 ^ 23 := by
      calc |e.startTime + 13421773 / 2 ^ 23| ≤ |e.startTime| + |(13421773 / 2 ^ 23 : ℚ)| :=
            abs_add _ _
        _ = |e.startTime| + 13421773 / 2 ^ 23 := by
            rw [abs_of_pos (by norm_num : (0 : ℚ) < 13421773 / 2 ^ 23)]
    rw [abs_le] at herr
    have key : t > f32 (e.startTime + 13421773 / 2 ^ 23) →
        Binary32.updateExplosions t [e] = [] := by
      intro hx
      rw [updateExplosions32_eq,
        List.filter_cons_of_neg (by rw [hthr]; simp [hd, not_le.mpr hx]), List.filter_nil,
        List.map_nil]
    have keep : t ≤ f32 (e.startTime + 13421773 / 2 ^ 23) →
        Binary32.updateExplosions t [e] = [{ e with currentTime := t }] := by
      intro hx
      rw [updateExplosions32_eq,
        List.filter_cons_of_pos (by rw [hthr]; simp [hd, hx]), List.filter_nil, List.map_cons,
        List.map_nil, updateExplosion32_of_alive t e (by rw [hthr]; exact hx)]
    refine ⟨⟨?_, key⟩, ?_, ?_⟩
    · intro h
      by_contra hcon
      rw [keep (not_lt.mp hcon)] at h
      exact absurd h (by simp)
    · intro h
      exact key (by linarith [herr.2])
    · intro h
      exact keep (by linarith [herr.1])

/-- C14 as stated fails: an explosion inserted at the scene time of the clock
value 1 ms and updated at the scene time of 1601 ms has `t - startTime > 1.6`
and `t > startTime + textureFrames * frameDuration`, and is kept. An explosion
inserted at the scene time of 2 ms and updated at that of 1602 ms, 1600 ms
later, is removed. -/
theorem updateObjects32_explosions_counterexample :
    (Binary32.explosionWorld 1).gameObjects.explosions.length = 1 ∧
    (∀ e ∈ (Binary32.explosionWorld 1).gameObjects.explosions,
      e.destroyed = false ∧ e.startTime = 8589935 / 2 ^ 33 ∧
      Binary32.sceneTime 1601 - e.startTime > 8 / 5 ∧
      Binary32.sceneTime 1601 > e.startTime + (e.textureFrames : ℚ) * e.frameDuration) ∧
    (Binary32.updateObjects (Binary32.sceneTime 1601)
      (Binary32.explosionWorld 1)).gameObjects.explosions.length = 1 ∧
    (Binary32.explosionWorld 2).gameObjects.explosions.length = 1 ∧
    (Binary32.updateObjects (Binary32.sceneTime 1602)
      (Binary32.explosionWorld 2)).gameObjects.explosions.length = 0 := by
  refine ⟨by decide!, by decide!, by decide!, by decide!, by decide!⟩

/-! ## Restart in every run -/

theorem noMissiles_whenKey (key : Fin KEYS_COUNT) (action : World → World) (w : World)
    (h : NoMissiles w) (ha : ∀ v, NoMissiles v → NoMissiles (action v)) :
    NoMissiles (whenKey key action w) := by
  unfold whenKey
  split_ifs
  · exact ha w h
  · exact h

theorem noMissiles_commitMoveWith (y : Bool) (w : World) (p : Vec3) (h : NoMissiles w) :
    NoMissiles (commitMoveWith y w p) := by
  unfold commitMoveWith
  split_ifs <;> exact ⟨h.1, h.2⟩

theorem noMissiles_timerKeysWith (m : Trig) (a b : Bool) (w : World) (h : NoMissiles w) :
    NoMissiles (timerKeysWith m a b w) := by
  unfold timerKeysWith
  refine noMissiles_whenKey _ _ _ ?_ (fun v hv => ⟨hv.1, hv.2⟩)
  refine noMissiles_whenKey _ _ _ ?_ (fun v hv => ⟨hv.1, hv.2⟩)
  refine noMissiles_whenKey _ _ _ ?_ (fun v hv => ⟨hv.1, hv.2⟩)
  refine noMissiles_whenKey _ _ _ ?_ (fun v hv => ⟨hv.1, hv.2⟩)
  refine noMissiles_whenKey _ _ _ ?_ (fun v hv => noMissiles_commitMoveWith _ v _ hv)
  refine noMissiles_whenKey _ _ _ ?_ (fun v hv => noMissiles_commitMoveWith _ v _ hv)
  refine noMissiles_whenKey _ _ _ ?_ (fun v hv => ⟨hv.1, hv.2⟩)
  exact noMissiles_whenKey _ _ _ h (fun v hv => ⟨hv.1, hv.2⟩)

theorem noMissiles_timerCallbackWith (m : Trig) (a b : Bool) (e1 e2 : ℤ) (w : World)
    (h : NoMissiles w) : NoMissiles (timerCallbackWith m a b e1 e2 w) := by
  have h8 := noMissiles_timerKeysWith m a b (setElapsedTime w ((1 / 1000) * (e1 : ℚ)))
    ⟨h.1, h.2⟩
  unfold timerCallbackWith timerAfterKeys
  exact noMissiles_tickGameOver _ (noMissiles_checkCollisions _ (noMissiles_tickLaunch m e2 _
    (noMissiles_updateObjects _ _ ⟨(noMissiles_tickBannerTime _ h8).1,
      (noMissiles_tickBannerTime _ h8).2⟩)))

theorem noMissiles_commitMoveWith32 (y : Bool) (w : World) (p : Vec3) (h : NoMissiles w) :
    NoMissiles (Binary32.commitMoveWith y w p) := by
  unfold Binary32.commitMoveWith
  split_ifs <;> exact ⟨h.1, h.2⟩

theorem noMissiles_timerKeysWith32 (m : Trig) (a b : Bool) (w : World) (h : NoMissiles w) :
    NoMissiles (Binary32.timerKeysWith m a b w) := by
  unfold Binary32.timerKeysWith
  refine noMissiles_whenKey _ _ _ ?_ (fun v hv => ⟨hv.1, hv.2⟩)
  refine noMissiles_whenKey _ _ _ ?_ (fun v hv => ⟨hv.1, hv.2⟩)
  refine noMissiles_whenKey _ _ _ ?_ (fun v hv => ⟨hv.1, hv.2⟩)
  refine noMissiles_whenKey _ _ _ ?_ (fun v hv => ⟨hv.1, hv.2⟩)
  refine noMissiles_whenKey _ _ _ ?_ (fun v hv => noMissiles_commitMoveWith32 _ v _ hv)
  refine noMissiles_whenKey _ _ _ ?_ (fun v hv => noMissiles_commitMoveWith32 _ v _ hv)
  refine noMissiles_whenKey _ _ _ ?_ (fun v hv => ⟨hv.1, hv.2⟩)
  exact noMissiles_whenKey _ _ _ h (fun v hv => ⟨hv.1, hv.2⟩)

theorem noMissiles_timerAfterKeys32 (m : Trig) (e2 : ℤ) (w : World) (h : NoMissiles w) :
    NoMissiles (Binary32.timerAfterKeys m e2 w) := by
  have h1 := noMissiles_tickBannerTime w h
  have h2 : NoMissiles (Binary32.tickSparrow m (tickBannerTime w)) := ⟨h1.1, h1.2⟩
  have h3 : NoMissiles (Binary32.updateObjects
      (Binary32.tickSparrow m (tickBannerTime w)).gameState.elapsedTime
      (Binary32.tickSparrow m (tickBannerTime w))) := by
    refine ⟨h2.1, ?_⟩
    show Binary32.updateMissiles _ (Binary32.tickSparrow m (tickBannerTime w)).gameObjects.missiles
      = []
    rw [h2.2]
    rfl
  have h4 : NoMissiles (Binary32.tickLaunch m e2 (Binary32.updateObjects
      (Binary32.tickSparrow m (tickBannerTime w)).gameState.elapsedTime
      (Binary32.tickSparrow m (tickBannerTime w)))) := by
    unfold Binary32.tickLaunch
    rw [if_neg (by rw [h3.1]; simp)]
    exact h3
  have h5 : ∀ v : World, NoMissiles v → NoMissiles (Binary32.checkCollisions v) := by
    intro v hv
    unfold Binary32.checkCollisions
    simp only
    split_ifs
    · exact ⟨hv.1, hv.2⟩
    · exact hv
  unfold Binary32.timerAfterKeys
  exact noMissiles_tickGameOver _ (h5 _ h4)

theorem noMissiles_timerCallbackWith32 (m : Trig) (a b : Bool) (e1 e2 : ℤ) (w : World)
    (h : NoMissiles w) : NoMissiles (Binary32.timerCallbackWith m a b e1 e2 w) := by
  unfold Binary32.timerCallbackWith
  exact noMissiles_timerAfterKeys32 m e2 _
    (noMissiles_timerKeysWith32 m a b (setElapsedTime w (Binary32.sceneTime e1)) ⟨h.1, h.2⟩)

/-- The invariant of one event: an event changes neither the missile list nor the entry of the space key -/
theorem noMissiles_step (m : Trig) (e : Event) (w w1 : World) (ih : NoMissiles w)
    (hstep : step m e w = some w1) : NoMissiles w1 := by
  cases e with
  | timer e1 e2 => exact noMissiles_timerCallback m e1 e2 w w1 ih hstep
  | keyboard reader ms r1 r2 key =>
    rw [← Option.some.inj hstep]; exact noMissiles_keyboardCallback m reader ms r1 r2 key w ih
  | keyboardUp key =>
    rw [← Option.some.inj hstep]; exact noMissiles_keyboardUpCallback key w ih
  | special key =>
    rw [← Option.some.inj hstep]
    exact noMissiles_ite (fun _ => ih) (fun _ => noMissiles_specialKeySwitch key true w ih)
  | specialUp key =>
    rw [← Option.some.inj hstep]
    exact noMissiles_ite (fun _ => ih) (fun _ => noMissiles_specialKeySwitch key false w ih)
  | mouse button state id =>
    rw [← Option.some.inj hstep]; exact noMissiles_mouseCallback button state id w ih
  | passiveMotion x y =>
    rw [← Option.some.inj hstep]
    exact noMissiles_ite (fun _ => noMissiles_passiveMouseMotionCallback x y w ih) (fun _ => ih)
  | reshape a b =>
    rw [← Option.some.inj hstep]; exact ⟨ih.1, ih.2⟩
  | menuCamera id =>
    rw [← Option.some.inj hstep]
    unfold menuCamera
    repeat' refine noMissiles_ite (fun _ => ?_) (fun _ => ?_)
    all_goals exact ⟨ih.1, ih.2⟩
  | menuFog id =>
    rw [← Option.some.inj hstep]
    unfold menuFog
    repeat' refine noMissiles_ite (fun _ => ?_) (fun _ => ?_)
    all_goals exact ⟨ih.1, ih.2⟩
  | menuLight id =>
    rw [← Option.some.inj hstep]
    unfold menuLight
    repeat' refine noMissiles_ite (fun _ => ?_) (fun _ => ?_)
    all_goals exact ⟨ih.1, ih.2⟩
  | menu reader ms id =>
    rw [← Option.some.inj hstep]; exact noMissiles_menu m reader ms id w ih

/-- In every state of a run the space key is not pressed and the missile
collection is empty. -/
theorem runs_noMissiles (m : Trig) (w : World) (hw : Runs m w) : NoMissiles w := by
  induction hw with
  | init reader ms => exact ⟨rfl, rfl⟩
  | event e w w1 _ hstep ih => exact noMissiles_step m e w w1 ih hstep
  | tick a b e1 e2 w _ ih => exact noMissiles_timerCallbackWith m a b e1 e2 w ih
  | tick32 a b e1 e2 w _ ih => exact noMissiles_timerCallbackWith32 m a b e1 e2 w ih

/-- A state that is reachable with every call defined is a state of a run. -/
theorem reachable_runs (m : Trig) (w : World) (hw : Reachable m w) : Runs m w := by
  induction hw with
  | init reader ms => exact Runs.init reader ms
  | step e w w1 _ hstep ih => exact Runs.event e w w1 ih hstep

/-- C15: in every state of a run of the program, whatever the calls of
`checkTreeCollisions` that return no value yield, the timer callback computed
in exact or in binary32 arithmetic, `restartGame` leaves the missile collection
empty, the explosion collection empty, no banner, `gameOver` false and the
avatar not destroyed. The explosions and the banner are cleared by
`cleanUpObjects`; the missile collection is empty in every state of a run,
because no callback enters the space key in the key map. -/
theorem restartGame_clears_dynamic_collections (m : Trig) (reader : INIReader) (ms : ℤ)
    (w : World) (hw : Runs m w) :
    (restartGame m reader ms w).gameObjects.missiles = [] ∧
    (restartGame m reader ms w).gameObjects.explosions = [] ∧
    (restartGame m reader ms w).gameObjects.bannerObject = none ∧
    (restartGame m reader ms w).gameState.gameOver = false ∧
    (restartGame m reader ms w).gameObjects.penguin.destroyed = false :=
  ⟨(runs_noMissiles m w hw).2, rfl, rfl, rfl, rfl⟩

theorem restartGame_clears_dynamic_collections_witness :
    Runs headingTable crashedWorld ∧
    crashedWorld.gameObjects.explosions.length = 1 ∧
    crashedWorld.gameObjects.bannerObject.isSome = true ∧
    crashedWorld.gameState.gameOver = true ∧
    crashedWorld.gameObjects.penguin.destroyed = true ∧
    (restartGame headingTable defaultReader 2000 crashedWorld).gameObjects.missiles = [] ∧
    (restartGame headingTable defaultReader 2000 crashedWorld).gameObjects.explosions = [] ∧
    (restartGame headingTable defaultReader 2000 crashedWorld).gameObjects.bannerObject = none ∧
    (restartGame headingTable defaultReader 2000 crashedWorld).gameState.gameOver = false ∧
    (restartGame headingTable defaultReader 2000 crashedWorld).gameObjects.penguin.destroyed
      = false :=
  have hr : Runs headingTable crashedWorld :=
    Runs.tick32 false false 33 33 teleportedWorld
      (Runs.event (Event.keyboard defaultReader 0 (1 / 2) (1 / 4) 't') restartWorld
        teleportedWorld (Runs.init defaultReader 0) rfl)
  ⟨hr, by decide!, by decide!, by decide!, by decide!,
    restartGame_clears_dynamic_collections headingTable defaultReader 2000 crashedWorld hr⟩

/-! ## A tick in binary32 -/

theorem keepsAvatar_refl (w : World) : KeepsAvatar w w := ⟨rfl, rfl, rfl, rfl, rfl, rfl, rfl⟩

theorem keepsAvatar_trans {a b c : World} (h1 : KeepsAvatar a b) (h2 : KeepsAvatar b c) :
    KeepsAvatar a c := by
  obtain ⟨a1, a2, a3, a4, a5, a6, a7⟩ := h1
  obtain ⟨b1, b2, b3, b4, b5, b6, b7⟩ := h2
  exact ⟨b1.trans a1, b2.trans a2, b3.trans a3, b4.trans a4, b5.trans a5, b6.trans a6,
    b7.trans a7⟩

theorem keepsAvatar_tickBannerTime (w : World) : KeepsAvatar w (tickBannerTime w) := by
  unfold tickBannerTime
  split_ifs
  · cases w.gameObjects.bannerObject with
    | none => exact keepsAvatar_refl w
    | some b => exact ⟨rfl, rfl, rfl, rfl, rfl, rfl, rfl⟩
  · exact keepsAvatar_refl w

theorem keepsAvatar_tickLaunch32 (m : Trig) (ms : ℤ) (w : World) :
    KeepsAvatar w (Binary32.tickLaunch m ms w) := by
  unfold Binary32.tickLaunch
  split_ifs
  · unfold Binary32.createMissile
    simp only
    split_ifs
    · exact keepsAvatar_refl w
    · exact ⟨rfl, rfl, rfl, rfl, rfl, rfl, rfl⟩
  · exact keepsAvatar_refl w

theorem keepsAvatar_checkCollisions32 (w : World) :
    KeepsAvatar w (Binary32.checkCollisions w) := by
  unfold Binary32.checkCollisions
  simp only
  split_ifs
  · exact ⟨rfl, rfl, rfl, rfl, rfl, rfl, rfl⟩
  · exact keepsAvatar_refl w

theorem keepsAvatar_tickGameOver (w : World) : KeepsAvatar w (tickGameOver w) := by
  unfold tickGameOver
  split_ifs
  · simp only
    cases (setKey w KEY_SPACE false).gameObjects.bannerObject with
    | none => exact ⟨rfl, rfl, rfl, rfl, rfl, rfl, rfl⟩
    | some b => exact ⟨rfl, rfl, rfl, rfl, rfl, rfl, rfl⟩
  · exact keepsAvatar_refl w

/-- The part of a tick after the key actions, in binary32: the orbiting flyer
is updated, the position of the avatar is wrapped, and its heading,
direction, size and speed are kept. -/
theorem timerAfterKeys32_avatar (m : Trig) (ms : ℤ) (w : World) :
    (Binary32.timerAfterKeys m ms w).gameObjects.sparrow =
      Binary32.updateSparrow m w.gameState.elapsedTime w.gameObjects.sparrow ∧
    (Binary32.timerAfterKeys m ms w).gameObjects.penguin.position =
      Binary32.checkBounds w.gameObjects.penguin.position w.gameObjects.penguin.size ∧
    (Binary32.timerAfterKeys m ms w).gameObjects.penguin.viewAngle
      = w.gameObjects.penguin.viewAngle ∧
    (Binary32.timerAfterKeys m ms w).gameObjects.penguin.direction
      = w.gameObjects.penguin.direction ∧
    (Binary32.timerAfterKeys m ms w).gameObjects.penguin.size = w.gameObjects.penguin.size ∧
    (Binary32.timerAfterKeys m ms w).gameObjects.penguin.speed = w.gameObjects.penguin.speed := by
  have h1 := keepsAvatar_tickBannerTime w
  have h3 : KeepsAvatar
      (Binary32.updateObjects (Binary32.tickSparrow m (tickBannerTime w)).gameState.elapsedTime
        (Binary32.tickSparrow m (tickBannerTime w)))
      (Binary32.timerAfterKeys m ms w) := by
    unfold Binary32.timerAfterKeys
    exact keepsAvatar_trans (keepsAvatar_tickLaunch32 m ms _)
      (keepsAvatar_trans (keepsAvatar_checkCollisions32 _) (keepsAvatar_tickGameOver _))
  obtain ⟨a1, a2, a3, a4, a5, a6, a7⟩ := h1
  obtain ⟨b1, b2, b3, b4, b5, b6, b7⟩ := h3
  refine ⟨?_, ?_, ?_, ?_, ?_, ?_⟩
  · rw [b1]
    show Binary32.updateSparrow m (tickBannerTime w).gameState.elapsedTime
      (tickBannerTime w).gameObjects.sparrow = _
    rw [a1, a7]
  · rw [b2]
    show Binary32.checkBounds (tickBannerTime w).gameObjects.penguin.position
      (tickBannerTime w).gameObjects.penguin.size = _
    rw [a2, a5]
  · rw [b3]; exact a3
  · rw [b4]; exact a4
  · rw [b5]; exact a5
  · rw [b6]; exact a6

/-- With no key pressed the key actions of a tick change nothing. -/
theorem timerKeys32_of_released (m : Trig) (w : World)
    (hk : ∀ key, w.gameState.keyMap key = false) : Binary32.timerKeys m w = some w := by
  unfold Binary32.timerKeys
  simp only [whenKey_of_released _ _ w (hk _)]
  unfold whenKeyOpt
  simp [hk, whenKey_of_released _ _ w (hk _)]

theorem timerCallback32_of_released (m : Trig) (e1 e2 : ℤ) (w : World)
    (hk : ∀ key, w.gameState.keyMap key = false) :
    Binary32.timerCallback m e1 e2 w =
      some (Binary32.timerAfterKeys m e2 (setElapsedTime w (Binary32.sceneTime e1))) := by
  unfold Binary32.timerCallback
  rw [timerKeys32_of_released m _ (by intro key; exact hk key)]
  rfl

/-- C30, as the code has it: the tick computes in binary32. In every state
in which no key is pressed and the half-extent `S` that `checkBounds` computes
for the avatar is positive, one tick has an outcome; it leaves the heading,
the direction, the speed and the height `z` of the avatar unchanged, whatever
the speed and the elapsed time, and the position is `checkBounds` of the
previous one: each of `x` and `y` differs from the previous coordinate `c` by
an integer multiple of `2S` and at most `(|c| + 6S) / 2^24 + 4 / 2^150`, and a
binary32 coordinate of `[-S, S)` for which `c + S` is a binary32 number is
unchanged. -/
theorem tick32_without_keys (m : Trig) (e1 e2 : ℤ) (w : World)
    (hkeys : ∀ key, w.gameState.keyMap key = false)
    (hS : 0 < f32 (SCENE_WIDTH + w.gameObjects.penguin.size)) :
    ∃ w1, Binary32.timerCallback m e1 e2 w = some w1 ∧
      w1.gameObjects.penguin.position =
        Binary32.checkBounds w.gameObjects.penguin.position w.gameObjects.penguin.size ∧
      w1.gameObjects.penguin.position.z = w.gameObjects.penguin.position.z ∧
      w1.gameObjects.penguin.viewAngle = w.gameObjects.penguin.viewAngle ∧
      w1.gameObjects.penguin.direction = w.gameObjects.penguin.direction ∧
      w1.gameObjects.penguin.speed = w.gameObjects.penguin.speed ∧
      (∃ k : ℤ, |w1.gameObjects.penguin.position.x - (w.gameObjects.penguin.position.x
          - (k : ℚ) * (2 * f32 (SCENE_WIDTH + w.gameObjects.penguin.size)))|
        ≤ (|w.gameObjects.penguin.position.x| + 6 * f32 (SCENE_WIDTH + w.gameObjects.penguin.size))
            / 2 ^ 24 + 4 / 2 ^ 150) ∧
      (∃ k : ℤ, |w1.gameObjects.penguin.position.y - (w.gameObjects.penguin.position.y
          - (k : ℚ) * (2 * f32 (SCENE_WIDTH + w.gameObjects.penguin.size)))|
        ≤ (|w.gameObjects.penguin.position.y| + 6 * f32 (SCENE_WIDTH + w.gameObjects.penguin.size))
            / 2 ^ 24 + 4 / 2 ^ 150) ∧
      (-f32 (SCENE_WIDTH + w.gameObjects.penguin.size) ≤ w.gameObjects.penguin.position.x →
        w.gameObjects.penguin.position.x < f32 (SCENE_WIDTH + w.gameObjects.penguin.size) →
        f32 w.gameObjects.penguin.position.x = w.gameObjects.penguin.position.x →
        f32 (w.gameObjects.penguin.position.x + f32 (SCENE_WIDTH + w.gameObjects.penguin.size))
          = w.gameObjects.penguin.position.x + f32 (SCENE_WIDTH + w.gameObjects.penguin.size) →
        w1.gameObjects.penguin.position.x = w.gameObjects.penguin.position.x) ∧
      (-f32 (SCENE_WIDTH + w.gameObjects.penguin.size) ≤ w.gameObjects.penguin.position.y →
        w.gameObjects.penguin.position.y < f32 (SCENE_WIDTH + w.gameObjects.penguin.size) →
        f32 w.gameObjects.penguin.position.y = w.gameObjects.penguin.position.y →
        f32 (w.gameObjects.penguin.position.y + f32 (SCENE_WIDTH + w.gameObjects.penguin.size))
          = w.gameObjects.penguin.position.y + f32 (SCENE_WIDTH + w.gameObjects.penguin.size) →
        w1.gameObjects.penguin.position.y = w.gameObjects.penguin.position.y) := by
  have h2 := f32_two_mul (SCENE_WIDTH + w.gameObjects.penguin.size)
  obtain ⟨_, b2, b3, b4, _, b6⟩ :=
    timerAfterKeys32_avatar m e2 (setElapsedTime w (Binary32.sceneTime e1))
  have hpos : (Binary32.timerAfterKeys m e2
      (setElapsedTime w (Binary32.sceneTime e1))).gameObjects.penguin.position =
      Binary32.checkBounds w.gameObjects.penguin.position w.gameObjects.penguin.size := b2
  refine ⟨_, timerCallback32_of_released m e1 e2 w hkeys, hpos, ?_, b3, b4, b6, ?_, ?_, ?_, ?_⟩
  · rw [hpos]; rfl
  · rw [hpos, checkBounds32_x]
    exact (wrapCoord32_near _ _ hS h2).1
  · rw [hpos, checkBounds32_y]
    exact (wrapCoord32_near _ _ hS h2).1
  · intro a b c d
    rw [hpos, checkBounds32_x]
    exact (wrapCoord32_exact _ _ hS h2 d).1 a b c
  · intro a b c d
    rw [hpos, checkBounds32_y]
    exact (wrapCoord32_exact _ _ hS h2 d).1 a b c

theorem tick32_without_keys_witness :
    (∀ key, (Binary32.avatarWorld (1 / 4) (-1 / 2)).gameState.keyMap key = false) ∧
    0 < f32 (SCENE_WIDTH + (Binary32.avatarWorld (1 / 4) (-1 / 2)).gameObjects.penguin.size) ∧
    ∃ w1, Binary32.timerCallback headingTable 33 33 (Binary32.avatarWorld (1 / 4) (-1 / 2))
        = some w1 ∧
      w1.gameObjects.penguin.position.x = 1 / 4 ∧
      w1.gameObjects.penguin.speed
        = (Binary32.avatarWorld (1 / 4) (-1 / 2)).gameObjects.penguin.speed := by
  refine ⟨fun _ => rfl, by decide!, ?_⟩
  obtain ⟨w1, h1, _, _, _, _, h6, _, _, h9, _⟩ :=
    tick32_without_keys headingTable 33 33 (Binary32.avatarWorld (1 / 4) (-1 / 2))
      (fun _ => rfl) (by decide!)
  exact ⟨w1, h1, h9 (by decide!) (by decide!) (by decide!) (by decide!), h6⟩

/-- C30 as stated fails: for an avatar of the size `0.1f` at
`(0.3f, 0.7f, 0.08f)`, inside `[-S, S)`, one tick with no key pressed leaves
the avatar at `(0.300000072, 0.699999928, 0.08f)`. -/
theorem tick32_without_keys_counterexample :
    (∀ key, (Binary32.avatarWorld (f32 (3 / 10)) (f32 (7 / 10))).gameState.keyMap key = false) ∧
    (Binary32.avatarWorld (f32 (3 / 10)) (f32 (7 / 10))).gameObjects.penguin.position
      = ⟨10066330 / 2 ^ 25, 11744051 / 2 ^ 24, 10737418 / 2 ^ 27⟩ ∧
    (Binary32.avatarWorld (f32 (3 / 10)) (f32 (7 / 10))).gameObjects.penguin.size
      = 13421773 / 2 ^ 27 ∧
    (Binary32.timerCallback headingTable 33 33
        (Binary32.avatarWorld (f32 (3 / 10)) (f32 (7 / 10)))).map
      (fun v => v.gameObjects.penguin.position)
      = some ⟨10066332 / 2 ^ 25, 11744050 / 2 ^ 24, 10737418 / 2 ^ 27⟩ := by
  refine ⟨fun _ => rfl, by decide!, by decide!, ?_⟩
  rw [timerCallback32_of_released _ _ _ _ (fun _ => rfl)]
  decide!

theorem whenKey_preserves (Q : World → Prop) (key : Fin KEYS_COUNT) (action : World → World)
    (w : World) (hw : Q w) (ha : ∀ v, Q v → Q (action v)) : Q (whenKey key action w) := by
  unfold whenKey
  split_ifs
  · exact ha w hw
  · exact hw

/-- The key actions of a tick, in binary32, keep the orbiting flyer and
`gameState`, whatever the calls of `checkTreeCollisions` yield. -/
theorem timerKeysWith32_sparrow (m : Trig) (a b : Bool) (w : World) :
    (Binary32.timerKeysWith m a b w).gameObjects.sparrow = w.gameObjects.sparrow ∧
    (Binary32.timerKeysWith m a b w).gameState = w.gameState := by
  have hc : ∀ (y : Bool) (v : World) (p : Vec3),
      (v.gameObjects.sparrow = w.gameObjects.sparrow ∧ v.gameState = w.gameState) →
      ((Binary32.commitMoveWith y v p).gameObjects.sparrow = w.gameObjects.sparrow ∧
        (Binary32.commitMoveWith y v p).gameState = w.gameState) := by
    intro y v p hv
    unfold Binary32.commitMoveWith
    split_ifs <;> exact hv
  unfold Binary32.timerKeysWith
  refine whenKey_preserves
    (fun v => v.gameObjects.sparrow = w.gameObjects.sparrow ∧ v.gameState = w.gameState)
    _ _ _ ?_ (fun v hv => hv)
  refine whenKey_preserves
    (fun v => v.gameObjects.sparrow = w.gameObjects.sparrow ∧ v.gameState = w.gameState)
    _ _ _ ?_ (fun v hv => hv)
  refine whenKey_preserves
    (fun v => v.gameObjects.sparrow = w.gameObjects.sparrow ∧ v.gameState = w.gameState)
    _ _ _ ?_ (fun v hv => hv)
  refine whenKey_preserves
    (fun v => v.gameObjects.sparrow = w.gameObjects.sparrow ∧ v.gameState = w.gameState)
    _ _ _ ?_ (fun v hv => hv)
  refine whenKey_preserves
    (fun v => v.gameObjects.sparrow = w.gameObjects.sparrow ∧ v.gameState = w.gameState)
    _ _ _ ?_ (fun v hv => hc _ v _ hv)
  refine whenKey_preserves
    (fun v => v.gameObjects.sparrow = w.gameObjects.sparrow ∧ v.gameState = w.gameState)
    _ _ _ ?_ (fun v hv => hc _ v _ hv)
  refine whenKey_preserves
    (fun v => v.gameObjects.sparrow = w.gameObjects.sparrow ∧ v.gameState = w.gameState)
    _ _ _ ?_ (fun v hv => hv)
  exact whenKey_preserves
    (fun v => v.gameObjects.sparrow = w.gameObjects.sparrow ∧ v.gameState = w.gameState)
    _ _ _ ⟨rfl, rfl⟩ (fun v hv => hv)

theorem commitMove32_eq_with (w w1 : World) (p : Vec3) (y : Bool)
    (h : Binary32.commitMove w p = some w1) : w1 = Binary32.commitMoveWith y w p := by
  unfold Binary32.commitMove at h
  unfold Binary32.commitMoveWith
  split_ifs at h ⊢ with hd
  · exact (Option.some.inj h).symm
  all_goals
    revert h
    cases hc : Binary32.checkTreeCollisions w p with
    | none => intro h; exact Option.noConfusion h
    | some b =>
      cases b with
      | true => intro h; first | exact (Option.some.inj h).symm | simp_all
      | false => intro h; first | exact (Option.some.inj h).symm | simp_all

/-- When the key actions of a tick have an outcome, it is the one that any
value yielded by the calls of `checkTreeCollisions` gives. -/
theorem timerKeys32_eq_with (m : Trig) (a b : Bool) (w w1 : World)
    (h : Binary32.timerKeys m w = some w1) : w1 = Binary32.timerKeysWith m a b w := by
  have key : ∀ (k : Fin KEYS_COUNT) (f : World → Vec3) (y : Bool) (v v1 : World),
      whenKeyOpt k (fun u => Binary32.commitMove u (f u)) v = some v1 →
      v1 = whenKey k (fun u => Binary32.commitMoveWith y u (f u)) v := by
    intro k f y v v1 hv
    unfold whenKeyOpt at hv
    unfold whenKey
    split_ifs at hv ⊢
    · exact commitMove32_eq_with v v1 _ y hv
    · exact (Option.some.inj hv).symm
  unfold Binary32.timerKeys at h
  simp only [Option.bind_eq_some] at h
  obtain ⟨w3, h3, w4, h4, h8⟩ := h
  have e3 := key KEY_W (fun u => Binary32.add u.gameObjects.penguin.position
    (Binary32.smul (f32 PENGUIN_LENGTH_INCREMENT) u.gameObjects.penguin.direction)) a _ w3 h3
  have e4 := key KEY_S (fun u => Binary32.sub u.gameObjects.penguin.position
    (Binary32.smul (f32 PENGUIN_LENGTH_INCREMENT) u.gameObjects.penguin.direction)) b w3 w4 h4
  rw [← Option.some.inj h8, e4, e3]
  rfl

theorem timerCallback32_eq_with (m : Trig) (a b : Bool) (e1 e2 : ℤ) (w w1 : World)
    (h : Binary32.timerCallback m e1 e2 w = some w1) :
    w1 = Binary32.timerCallbackWith m a b e1 e2 w := by
  unfold Binary32.timerCallback at h
  simp only [Option.map_eq_some'] at h
  obtain ⟨w8, h8, rfl⟩ := h
  rw [timerKeys32_eq_with m a b _ w8 h8]
  rfl

theorem wrapCoord32_binary32 (c h : ℚ) :
    f32 (Binary32.wrapCoord c h) = Binary32.wrapCoord c h := by
  unfold Binary32.wrapCoord
  simp only
  split_ifs <;> exact f32_idem _

/-- The wrap of a coordinate well inside the volume, in binary32: no period
is added and two operations round. -/
theorem wrapCoord32_inside (c h : ℚ) (h2 : f32 (2 * h) = 2 * h) (hh : 1 ≤ h) (hh2 : h ≤ 5 / 4)
    (hc : |c| ≤ 51 / 100) :
    |Binary32.wrapCoord c h - c| ≤ 23 / 10 / 2 ^ 24 := by
  have hy := f32_err (c + h)
  rw [abs_le] at hc
  have hch : |c + h| ≤ 176 / 100 := by
    rw [abs_le]; constructor <;> linarith [hc.1, hc.2]
  rw [abs_le] at hy
  have hy0 : 0 ≤ f32 (c + h) := f32_nonneg _ (by linarith [hc.1])
  have hy1 : f32 (c + h) < 2 * h := by
    have : (176 / 100 : ℚ) / 2 ^ 24 + 1 / 2 ^ 150 < 1 / 100 := by norm_num
    linarith [hy.2, hc.2]
  have hf : fmod (f32 (c + h)) (2 * h) = f32 (c + h) - ((0 : ℤ) : ℚ) * (2 * h) :=
    fmod_eq_of_range hy0 (by linarith) 0 (by constructor <;> push_cast <;> linarith)
  have he := f32_err (f32 (c + h) - h)
  have hfa : |f32 (c + h) - h| ≤ 52 / 100 := by
    have : (176 / 100 : ℚ) / 2 ^ 24 + 1 / 2 ^ 150 < 1 / 100 := by norm_num
    rw [abs_le]; constructor <;> linarith [hy.1, hy.2, hc.1, hc.2]
  rw [abs_le] at he
  unfold Binary32.wrapCoord
  simp only
  rw [h2, hf]
  push_cast
  rw [zero_mul, sub_zero]
  have hfb := abs_le.mp hfa
  have hge : ¬ f32 (f32 (c + h) - h) < -h := by
    have : (52 / 100 : ℚ) / 2 ^ 24 + 1 / 2 ^ 150 < 1 / 100 := by norm_num
    intro hcon
    linarith [he.1, hfb.1]
  rw [if_neg hge, abs_le]
  have e1 : (176 / 100 : ℚ) / 2 ^ 24 + 1 / 2 ^ 150 + (52 / 100 / 2 ^ 24 + 1 / 2 ^ 150)
      ≤ 23 / 10 / 2 ^ 24 := by norm_num
  constructor <;> linarith [he.1, he.2, hy.1, hy.2]

/-- The rounded half of a value of magnitude at most 1, wrapped for the
orbiting flyer: within `3 * 2 ^ (-24)` of the exact half. -/
theorem wrapCoord32_half (v : ℚ) (hv : |v| ≤ 1) :
    |Binary32.wrapCoord (f32 ((1 / 2) * v)) (f32 (SCENE_WIDTH + f32 SPARROW_SIZE))
      - (1 / 2) * v| ≤ 3 / 2 ^ 24 := by
  have hS : f32 (SCENE_WIDTH + f32 SPARROW_SIZE) = 10066330 / 2 ^ 23 := by decide!
  have h2 := f32_two_mul (SCENE_WIDTH + f32 SPARROW_SIZE)
  have he := f32_err ((1 / 2) * v)
  have hhalf : |(1 / 2) * v| ≤ 1 / 2 := by
    rw [abs_mul, abs_of_pos (by norm_num : (0 : ℚ) < 1 / 2)]
    linarith
  have hx0 : |f32 ((1 / 2) * v)| ≤ 51 / 100 := by
    have h3 : |f32 ((1 / 2) * v)| ≤ |f32 ((1 / 2) * v) - (1 / 2) * v| + |(1 / 2) * v| := by
      have := abs_add (f32 ((1 / 2) * v) - (1 / 2) * v) ((1 / 2) * v)
      rwa [sub_add_cancel] at this
    have : (1 / 2 : ℚ) / 2 ^ 24 + 1 / 2 ^ 150 < 1 / 100 := by norm_num
    linarith
  have hin := wrapCoord32_inside (f32 ((1 / 2) * v)) _ h2 (by rw [hS]; norm_num)
    (by rw [hS]; norm_num) hx0
  have htri : |Binary32.wrapCoord (f32 ((1 / 2) * v)) (f32 (SCENE_WIDTH + f32 SPARROW_SIZE))
      - (1 / 2) * v|
      ≤ |Binary32.wrapCoord (f32 ((1 / 2) * v)) (f32 (SCENE_WIDTH + f32 SPARROW_SIZE))
          - f32 ((1 / 2) * v)| + |f32 ((1 / 2) * v) - (1 / 2) * v| := by
    have := abs_add
      (Binary32.wrapCoord (f32 ((1 / 2) * v)) (f32 (SCENE_WIDTH + f32 SPARROW_SIZE))
        - f32 ((1 / 2) * v)) (f32 ((1 / 2) * v) - (1 / 2) * v)
    rwa [sub_add_sub_cancel] at this
  have e : (23 / 10 / 2 ^ 24 : ℚ) + (1 / 2 / 2 ^ 24 + 1 / 2 ^ 150) ≤ 3 / 2 ^ 24 := by norm_num
  linarith

/-- C23, as the code has it: the update of the orbiting flyer computes in
binary32. For every prior orbit angle `a` in `[0, 360)`, the flyer having the
size `0.2f` and the values of `sin` and `cos` at the new angle having a
magnitude of at most 1: one tick sets `currentAngle` to the remainder modulo
360 of the binary32 sum `a + 5`, which lies in `[0, 360)` and is
`(a + 5) mod 360` when `a + 5` is a binary32 number; it sets the position to
`checkBounds` of `(0.5 * sin, 0.5 * cos, 0.5)` of the new angle, the products
rounded to binary32, whose `x` and `y` are within `3 * 2^(-24)` of `0.5 * sin`
and `0.5 * cos` and whose `z` is 0.5; the result depends on the prior angle and
the size only, not on the direction, speed or previous position of the flyer;
and it is the flyer after `timerCallback`, whatever the calls of
`checkTreeCollisions` that return no value yield. -/
theorem updateSparrow32_orbit (m : Trig) (t : ℚ) (sp : SparrowObject)
    (h0 : 0 ≤ sp.currentAngle) (h1 : sp.currentAngle < 360)
    (hsize : sp.size = f32 SPARROW_SIZE)
    (hsin : |m.sinDeg (fmod (f32 (sp.currentAngle + 5)) 360)| ≤ 1)
    (hcos : |m.cosDeg (fmod (f32 (sp.currentAngle + 5)) 360)| ≤ 1) :
    (Binary32.updateSparrow m t sp).currentAngle = fmod (f32 (sp.currentAngle + 5)) 360 ∧
    (0 ≤ (Binary32.updateSparrow m t sp).currentAngle ∧
      (Binary32.updateSparrow m t sp).currentAngle < 360) ∧
    (f32 (sp.currentAngle + 5) = sp.currentAngle + 5 →
      (Binary32.updateSparrow m t sp).currentAngle =
        if sp.currentAngle + 5 < 360 then sp.currentAngle + 5
        else sp.currentAngle + 5 - 360) ∧
    (Binary32.updateSparrow m t sp).position =
      Binary32.checkBounds
        ⟨f32 ((1 / 2) * m.sinDeg (Binary32.updateSparrow m t sp).currentAngle),
          f32 ((1 / 2) * m.cosDeg (Binary32.updateSparrow m t sp).currentAngle), 1 / 2⟩
        sp.size ∧
    |(Binary32.updateSparrow m t sp).position.x
      - (1 / 2) * m.sinDeg (Binary32.updateSparrow m t sp).currentAngle| ≤ 3 / 2 ^ 24 ∧
    |(Binary32.updateSparrow m t sp).position.y
      - (1 / 2) * m.cosDeg (Binary32.updateSparrow m t sp).currentAngle| ≤ 3 / 2 ^ 24 ∧
    (Binary32.updateSparrow m t sp).position.z = 1 / 2 ∧
    (∀ sp2 : SparrowObject, sp2.currentAngle = sp.currentAngle → sp2.size = sp.size →
      (Binary32.updateSparrow m t sp2).position = (Binary32.updateSparrow m t sp).position ∧
      (Binary32.updateSparrow m t sp2).currentAngle
        = (Binary32.updateSparrow m t sp).currentAngle) ∧
    (∀ (yieldsW yieldsS : Bool) (e1 e2 : ℤ) (w : World), w.gameObjects.sparrow = sp →
      (Binary32.timerCallbackWith m yieldsW yieldsS e1 e2 w).gameObjects.sparrow
        = Binary32.updateSparrow m (Binary32.sceneTime e1) sp) ∧
    (∀ (e1 e2 : ℤ) (w w1 : World), w.gameObjects.sparrow = sp →
      Binary32.timerCallback m e1 e2 w = some w1 →
      w1.gameObjects.sparrow = Binary32.updateSparrow m (Binary32.sceneTime e1) sp) := by
  have hang : (Binary32.updateSparrow m t sp).currentAngle
      = fmod (f32 (sp.currentAngle + 5)) 360 := rfl
  have hnn : 0 ≤ f32 (sp.currentAngle + 5) := f32_nonneg _ (by linarith)
  have hrange := fmod_nonneg_range hnn (by norm_num : (0 : ℚ) < 360)
  have hwith : ∀ (yieldsW yieldsS : Bool) (e1 e2 : ℤ) (w : World), w.gameObjects.sparrow = sp →
      (Binary32.timerCallbackWith m yieldsW yieldsS e1 e2 w).gameObjects.sparrow
        = Binary32.updateSparrow m (Binary32.sceneTime e1) sp := by
    intro a b e1 e2 w hw
    unfold Binary32.timerCallbackWith
    rw [(timerAfterKeys32_avatar m e2 _).1,
      (timerKeysWith32_sparrow m a b _).1, (timerKeysWith32_sparrow m a b _).2, ← hw]
    rfl
  refine ⟨hang, by rw [hang]; exact hrange, ?_, rfl, ?_, ?_, rfl, ?_, hwith, ?_⟩
  · intro hex
    rw [hang, hex]
    split_ifs with h
    · have := fmod_eq_of_range (x := sp.currentAngle + 5) (y := 360) (by linarith)
        (by norm_num) 0 (by constructor <;> push_cast <;> linarith)
      rw [this]; push_cast; ring
    · have := fmod_eq_of_range (x := sp.currentAngle + 5) (y := 360) (by linarith)
        (by norm_num) 1 (by constructor <;> push_cast <;> linarith)
      rw [this]; push_cast; ring
  · show |Binary32.wrapCoord (f32 ((1 / 2) * m.sinDeg (fmod (f32 (sp.currentAngle + 5)) 360)))
        (f32 (SCENE_WIDTH + sp.size))
      - (1 / 2) * m.sinDeg (fmod (f32 (sp.currentAngle + 5)) 360)| ≤ 3 / 2 ^ 24
    rw [hsize]
    exact wrapCoord32_half _ hsin
  · show |Binary32.wrapCoord (f32 ((1 / 2) * m.cosDeg (fmod (f32 (sp.currentAngle + 5)) 360)))
        (f32 (SCENE_HEIGHT + sp.size))
      - (1 / 2) * m.cosDeg (fmod (f32 (sp.currentAngle + 5)) 360)| ≤ 3 / 2 ^ 24
    rw [hsize]
    exact wrapCoord32_half _ hcos
  · intro sp2 ha hs
    unfold Binary32.updateSparrow
    simp only [ha, hs]
    trivial
  · intro e1 e2 w w1 hw hstep
    rw [timerCallback32_eq_with m false false e1 e2 w w1 hstep]
    exact hwith false false e1 e2 w hw

theorem updateSparrow32_orbit_witness :
    (0 ≤ Binary32.sparrowWorld.gameObjects.sparrow.currentAngle ∧
      Binary32.sparrowWorld.gameObjects.sparrow.currentAngle < 360) ∧
    (|orbitTable.sinDeg (fmod (f32 (Binary32.sparrowWorld.gameObjects.sparrow.currentAngle + 5))
        360)| ≤ 1 ∧
      |orbitTable.cosDeg (fmod (f32 (Binary32.sparrowWorld.gameObjects.sparrow.currentAngle + 5))
        360)| ≤ 1) ∧
    (Binary32.updateSparrow orbitTable 1 Binary32.sparrowWorld.gameObjects.sparrow).currentAngle
      = 5 ∧
    |(Binary32.updateSparrow orbitTable 1 Binary32.sparrowWorld.gameObjects.sparrow).position.x
      - (1 / 2) * orbitTable.sinDeg
        (Binary32.updateSparrow orbitTable 1
          Binary32.sparrowWorld.gameObjects.sparrow).currentAngle| ≤ 3 / 2 ^ 24 :=
  ⟨⟨by decide!, by decide!⟩, ⟨by decide!, by decide!⟩, by decide!,
    (updateSparrow32_orbit orbitTable 1 Binary32.sparrowWorld.gameObjects.sparrow (by decide!)
      (by decide!) (by decide!) (by decide!) (by decide!)).2.2.2.2.1⟩

/-- C23 as stated fails: from the orbit angle 0, with the binary32 values
`0.087155737` and `0.99619472` of `sin` and `cos` at 5 degrees and the size
`0.2f`, one tick with no key pressed sets the orbit angle to 5 and the position
to `(0.0435779095, 0.49809742, 0.5)`, while `(0.5 * sin, 0.5 * cos, 0.5)` is
`(0.0435778685, 0.49809736, 0.5)`: `checkBounds` does not return that point
unchanged. -/
theorem updateSparrow32_orbit_counterexample :
    Binary32.sparrowWorld.gameObjects.sparrow.currentAngle = 0 ∧
    Binary32.sparrowWorld.gameObjects.sparrow.size = f32 SPARROW_SIZE ∧
    (∀ key, Binary32.sparrowWorld.gameState.keyMap key = false) ∧
    (Binary32.timerCallback orbitTable 33 33 Binary32.sparrowWorld).map
      (fun v => v.gameObjects.sparrow.currentAngle) = some 5 ∧
    (Binary32.timerCallback orbitTable 33 33 Binary32.sparrowWorld).map
      (fun v => v.gameObjects.sparrow.position)
      = some ⟨11697856 / 2 ^ 28, 16713376 / 2 ^ 25, 1 / 2⟩ ∧
    (⟨(1 / 2) * orbitTable.sinDeg 5, (1 / 2) * orbitTable.cosDeg 5, 1 / 2⟩ : Vec3)
      = ⟨11697845 / 2 ^ 28, 16713374 / 2 ^ 25, 1 / 2⟩ ∧
    Binary32.checkBounds ⟨11697845 / 2 ^ 28, 16713374 / 2 ^ 25, 1 / 2⟩ (f32 SPARROW_SIZE)
      ≠ ⟨11697845 / 2 ^ 28, 16713374 / 2 ^ 25, 1 / 2⟩ := by
  refine ⟨by decide!, by decide!, fun _ => rfl, ?_, ?_, by decide!, by decide!⟩
  · rw [timerCallback32_of_released _ _ _ _ (fun _ => rfl)]
    decide!
  · rw [timerCallback32_of_released _ _ _ _ (fun _ => rfl)]
    decide!

/-! ## Two updates in a row in binary32 -/

theorem checkBounds32_binary32 (p : Vec3) (s : ℚ) :
    f32 (Binary32.checkBounds p s).x = (Binary32.checkBounds p s).x ∧
    f32 (Binary32.checkBounds p s).y = (Binary32.checkBounds p s).y := by
  rw [checkBounds32_x, checkBounds32_y]
  exact ⟨wrapCoord32_binary32 _ _, wrapCoord32_binary32 _ _⟩

/-- A missile that survives its update is only wrapped once more by a second
update at the same time. -/
theorem updateMissile32_twice (t : ℚ) (ms : MissileObject)
    (h : (Binary32.updateMissile t ms).destroyed = false) :
    Binary32.updateMissile t (Binary32.updateMissile t ms)
      = Binary32.rewrap (Binary32.updateMissile t ms) := by
  have hd := h
  rw [updateMissile32_destroyed] at hd
  simp only [Bool.or_eq_false_iff, decide_eq_false_iff_not] at hd
  have hpos : Binary32.add (Binary32.updateMissile t ms).position
      (Binary32.smul (f32 (f32 (t - t) * ms.speed)) ms.direction)
      = (Binary32.updateMissile t ms).position := by
    have hx := (checkBounds32_binary32
      (Binary32.add ms.position
        (Binary32.smul (f32 (f32 (t - ms.currentTime) * ms.speed)) ms.direction)) ms.size)
    apply vec3_eq
    · show f32 ((Binary32.updateMissile t ms).position.x + f32 (f32 (f32 (t - t) * ms.speed)
        * ms.direction.x)) = _
      rw [sub_self, f32_zero, zero_mul, f32_zero, zero_mul, f32_zero, add_zero]
      exact hx.1
    · show f32 ((Binary32.updateMissile t ms).position.y + f32 (f32 (f32 (t - t) * ms.speed)
        * ms.direction.y)) = _
      rw [sub_self, f32_zero, zero_mul, f32_zero, zero_mul, f32_zero, add_zero]
      exact hx.2
    · show f32 ((Binary32.updateMissile t ms).position.z + f32 (f32 (f32 (t - t) * ms.speed)
        * ms.direction.z)) = _
      rw [sub_self, f32_zero, zero_mul, f32_zero, zero_mul, f32_zero, add_zero]
      exact f32_idem _
  show ({ Binary32.updateMissile t ms with
      currentTime := t
      position := Binary32.checkBounds
        (Binary32.add (Binary32.updateMissile t ms).position
          (Binary32.smul (f32 (f32 (t - t) * ms.speed)) ms.direction)) ms.size
      destroyed :=
        if f32 (f32 (t - ms.startTime) * ms.speed) > MISSILE_MAX_DISTANCE then true
        else (Binary32.updateMissile t ms).destroyed } : MissileObject) = _
  rw [hpos, if_neg hd.2]
  rfl

theorem updateMissiles32_twice (t : ℚ) (l : List MissileObject) :
    Binary32.updateMissiles t (Binary32.updateMissiles t l)
      = (Binary32.updateMissiles t l).map Binary32.rewrap := by
  induction l with
  | nil => rfl
  | cons a l ih =>
    rw [Binary32.updateMissiles]
    by_cases hd : (Binary32.updateMissile t a).destroyed = true
    · rw [if_pos hd]; exact ih
    · have hd2 : (Binary32.rewrap (Binary32.updateMissile t a)).destroyed ≠ true := hd
      rw [if_neg hd, Binary32.updateMissiles, updateMissile32_twice t a (by simpa using hd),
        if_neg hd2, ih, List.map_cons]

theorem updateExplosion32_twice (t : ℚ) (e : ExplosionObject) :
    Binary32.updateExplosion t (Binary32.updateExplosion t e) = Binary32.updateExplosion t e := by
  unfold Binary32.updateExplosion
  simp only
  split_ifs <;> rfl

theorem updateExplosions32_twice (t : ℚ) (l : List ExplosionObject) :
    Binary32.updateExplosions t (Binary32.updateExplosions t l)
      = Binary32.updateExplosions t l := by
  induction l with
  | nil => rfl
  | cons a l ih =>
    rw [Binary32.updateExplosions]
    by_cases hd : (Binary32.updateExplosion t a).destroyed = true
    · rw [if_pos hd]; exact ih
    · rw [if_neg hd, Binary32.updateExplosions, updateExplosion32_twice, if_neg hd, ih]

/-- C27, as the code has it: `updateObjects` computes in binary32. For every
world state in which the half-extents that `checkBounds` computes for the
avatar and for every missile are positive, and every time `t`, calling
`updateObjects t` twice in a row yields the explosion collection of one call;
the missiles of one call, in their order, with their time stamps and flags,
each position wrapped once more by `checkBounds`; and the avatar of one call
with its position wrapped once more. A position wrapped once more has the same
`z`, and `x` and `y` that differ from those before by an integer multiple of
`2S` and at most `8S / 2^24 + 5 / 2^150`, `S` being the half-extent. -/
theorem updateObjects32_twice (t : ℚ) (w : World)
    (hp : 0 < f32 (SCENE_WIDTH + w.gameObjects.penguin.size))
    (hm : ∀ ms ∈ w.gameObjects.missiles, 0 < f32 (SCENE_WIDTH + ms.size)) :
    (Binary32.updateObjects t (Binary32.updateObjects t w)).gameObjects.explosions =
      (Binary32.updateObjects t w).gameObjects.explosions ∧
    (Binary32.updateObjects t (Binary32.updateObjects t w)).gameObjects.missiles =
      (Binary32.updateObjects t w).gameObjects.missiles.map Binary32.rewrap ∧
    (Binary32.updateObjects t (Binary32.updateObjects t w)).gameObjects.penguin =
      { (Binary32.updateObjects t w).gameObjects.penguin with
        position := Binary32.checkBounds (Binary32.updateObjects t w).gameObjects.penguin.position
          w.gameObjects.penguin.size } ∧
    ((∃ k : ℤ,
        |(Binary32.updateObjects t (Binary32.updateObjects t w)).gameObjects.penguin.position.x
          - ((Binary32.updateObjects t w).gameObjects.penguin.position.x
            - (k : ℚ) * (2 * f32 (SCENE_WIDTH + w.gameObjects.penguin.size)))|
        ≤ 8 * f32 (SCENE_WIDTH + w.gameObjects.penguin.size) / 2 ^ 24 + 5 / 2 ^ 150) ∧
      (∃ k : ℤ,
        |(Binary32.updateObjects t (Binary32.updateObjects t w)).gameObjects.penguin.position.y
          - ((Binary32.updateObjects t w).gameObjects.penguin.position.y
            - (k : ℚ) * (2 * f32 (SCENE_WIDTH + w.gameObjects.penguin.size)))|
        ≤ 8 * f32 (SCENE_WIDTH + w.gameObjects.penguin.size) / 2 ^ 24 + 5 / 2 ^ 150) ∧
      (Binary32.updateObjects t (Binary32.updateObjects t w)).gameObjects.penguin.position.z
        = (Binary32.updateObjects t w).gameObjects.penguin.position.z) ∧
    (∀ ms ∈ (Binary32.updateObjects t w).gameObjects.missiles,
      (∃ k : ℤ, |(Binary32.rewrap ms).position.x
          - (ms.position.x - (k : ℚ) * (2 * f32 (SCENE_WIDTH + ms.size)))|
        ≤ 8 * f32 (SCENE_WIDTH + ms.size) / 2 ^ 24 + 5 / 2 ^ 150) ∧
      (∃ k : ℤ, |(Binary32.rewrap ms).position.y
          - (ms.position.y - (k : ℚ) * (2 * f32 (SCENE_WIDTH + ms.size)))|
        ≤ 8 * f32 (SCENE_WIDTH + ms.size) / 2 ^ 24 + 5 / 2 ^ 150) ∧
      (Binary32.rewrap ms).position.z = ms.position.z ∧
      (Binary32.rewrap ms).currentTime = ms.currentTime ∧
      (Binary32.rewrap ms).startTime = ms.startTime ∧
      (Binary32.rewrap ms).destroyed = ms.destroyed) := by
  have h2 : (Binary32.updateObjects t (Binary32.updateObjects t w)).gameObjects.missiles =
      (Binary32.updateObjects t w).gameObjects.missiles.map Binary32.rewrap :=
    updateMissiles32_twice t _
  have h3 : (Binary32.updateObjects t (Binary32.updateObjects t w)).gameObjects.explosions =
      (Binary32.updateObjects t w).gameObjects.explosions := updateExplosions32_twice t _
  have hpen := checkBounds32_rewrap w.gameObjects.penguin.position w.gameObjects.penguin.size hp
  refine ⟨h3, h2, rfl, ⟨hpen.1, hpen.2, rfl⟩, ?_⟩
  intro ms hms
  have hmem : ms ∈ Binary32.updateMissiles t w.gameObjects.missiles := hms
  rw [updateMissiles32_eq, List.mem_map] at hmem
  obtain ⟨a, ha, rfl⟩ := hmem
  have ha2 := (List.mem_filter.mp ha).1
  have hb := checkBounds32_rewrap
    (Binary32.add a.position
      (Binary32.smul (f32 (f32 (t - a.currentTime) * a.speed)) a.direction)) a.size (hm a ha2)
  exact ⟨hb.1, hb.2, rfl, rfl, rfl, rfl⟩

theorem updateObjects32_twice_witness :
    0 < f32 (SCENE_WIDTH + Binary32.driftWorld.gameObjects.penguin.size) ∧
    (∀ ms ∈ Binary32.driftWorld.gameObjects.missiles, 0 < f32 (SCENE_WIDTH + ms.size)) ∧
    (Binary32.updateObjects (1 / 2) Binary32.driftWorld).gameObjects.missiles.length = 1 ∧
    (Binary32.updateObjects (1 / 2) Binary32.driftWorld).gameObjects.explosions.length = 1 ∧
    (Binary32.updateObjects (1 / 2)
      (Binary32.updateObjects (1 / 2) Binary32.driftWorld)).gameObjects.explosions =
      (Binary32.updateObjects (1 / 2) Binary32.driftWorld).gameObjects.explosions ∧
    (Binary32.updateObjects (1 / 2)
      (Binary32.updateObjects (1 / 2) Binary32.driftWorld)).gameObjects.missiles =
      (Binary32.updateObjects (1 / 2) Binary32.driftWorld).gameObjects.missiles.map
        Binary32.rewrap :=
  ⟨by decide!, by decide!, by decide!, by decide!,
    (updateObjects32_twice (1 / 2) Binary32.driftWorld (by decide!) (by decide!)).1,
    (updateObjects32_twice (1 / 2) Binary32.driftWorld (by decide!) (by decide!)).2.1⟩

/-- C27 as stated fails: for an avatar of the size `0.1f` at
`x = -1.11601233`, one call of `updateObjects` leaves `x = 1.08398771` and the
second call leaves `x = 1.08398759`. -/
theorem updateObjects32_twice_counterexample :
    Binary32.driftWorld.gameObjects.penguin.position.x = -9361790 / 2 ^ 23 ∧
    Binary32.driftWorld.gameObjects.penguin.size = 13421773 / 2 ^ 27 ∧
    (Binary32.updateObjects (1 / 2) Binary32.driftWorld).gameObjects.penguin.position.x
      = 9093148 / 2 ^ 23 ∧
    (Binary32.updateObjects (1 / 2)
      (Binary32.updateObjects (1 / 2) Binary32.driftWorld)).gameObjects.penguin.position.x
      = 9093147 / 2 ^ 23 ∧
    (Binary32.updateObjects (1 / 2)
      (Binary32.updateObjects (1 / 2) Binary32.driftWorld)).gameObjects.penguin.position
      ≠ (Binary32.updateObjects (1 / 2) Binary32.driftWorld).gameObjects.penguin.position := by
  refine ⟨by decide!, by decide!, by decide!, by decide!, by decide!⟩

end Forest
